import Mathlib

/-!
mqmetric: DISPLAY USAGE collection (usage.go)

A shallow embedding of `usage.go` of the `mqmetric` package: the attribute
tables `UsageBpStatus` / `UsagePsStatus`, their initialisation and reset,
the command/reply loop of `collectUsageStatus` and the two-pass decoder
`parseUsageData`. `InitConnection` of `mqif.go` is embedded with the error
value it returns.

Conventions of the embedding.

* Go `int32` / `int64` / `int` values are `Int`; the conversion `int32(x)`
  is `toInt32` (two's complement wrap-around).
* A Go `map[string]T` is an association list with unique keys (`GoMap`).
* Package-level variables are the fields of `Usage`, threaded explicitly.
* A call that can panic or loop for ever returns an `Outcome`; loops carry a
  fuel counter that bounds the number of iterations.
* The `ibmmq` constants and `ibmmq.ReadPCFParameter`, and the helper
  `statusGetIntAttributes` of `status.go`, are not part of the sources at
  hand: the constants are the fields of `Constants`, the two functions are
  parameters `rd` and `sgia` of the definitions that call them.
* Functions additionally return the list of the observable steps they took
  (decode calls, attribute writes, helper calls); this list is a ghost
  value used only to state properties.
-/

set_option autoImplicit false

namespace Mqmetric

/-! ## Machine integers -/

/-- Go conversion `int32(x)` of a wider signed integer: keep the low 32 bits. -/
def toInt32 (x : Int) : Int := (x + 2147483648) % 4294967296 - 2147483648

/-- The values of Go type `int32`. -/
def IsInt32 (x : Int) : Prop := -2147483648 ≤ x ∧ x < 2147483648

instance (x : Int) : Decidable (IsInt32 x) := by unfold IsInt32; infer_instance

/-- Go `strconv.FormatInt(v, 10)`. -/
def FormatInt (v : Int) : String := toString v

/-! ## Outcomes -/

/-- How a call ends: it returns a value, it panics (index out of range,
slice bounds out of range, nil dereference), or the fuel ran out before
the loop was left. -/
inductive Outcome (α : Type) where
  | ok (a : α)
  | panic
  | outOfFuel
  deriving DecidableEq, Repr

/-! ## The ibmmq constants used by usage.go -/

/-- The constants of package `ibmmq` that `usage.go` refers to. -/
structure Constants where
  MQCC_FAILED : Int
  MQCMD_INQUIRE_USAGE : Int
  MQIACF_USAGE_TYPE : Int
  MQIACF_USAGE_BUFFER_POOL : Int
  MQIACF_USAGE_PAGESET : Int
  MQIACF_BUFFER_POOL_ID : Int
  MQIA_PAGESET_ID : Int
  MQIACF_BUFFER_POOL_LOCATION : Int
  MQBPLOCATION_ABOVE : Int
  MQBPLOCATION_BELOW : Int
  MQBPLOCATION_SWITCHING_ABOVE : Int
  MQBPLOCATION_SWITCHING_BELOW : Int
  MQIACF_PAGECLAS : Int
  MQPAGECLAS_4KB : Int
  MQPAGECLAS_FIXED4KB : Int
  MQIACF_USAGE_FREE_BUFF : Int
  MQIACF_USAGE_FREE_BUFF_PERC : Int
  MQIACF_USAGE_TOTAL_BUFFERS : Int
  MQIACF_USAGE_TOTAL_PAGES : Int
  MQIACF_USAGE_UNUSED_PAGES : Int
  MQIACF_USAGE_NONPERSIST_PAGES : Int
  MQIACF_USAGE_PERSIST_PAGES : Int
  MQIACF_PAGESET_STATUS : Int
  MQIACF_USAGE_EXPAND_COUNT : Int

/-- What the Go compiler guarantees about the constants for `parseUsageData`
to compile: the case labels of each `switch` are pairwise different, and the
labels that are compared with an `int32` value are `int32` values. -/
def Constants.Valid (K : Constants) : Prop :=
  [K.MQIACF_USAGE_TYPE, K.MQIACF_BUFFER_POOL_ID, K.MQIA_PAGESET_ID,
    K.MQIACF_BUFFER_POOL_LOCATION, K.MQIACF_PAGECLAS].Nodup ∧
  [K.MQIACF_USAGE_BUFFER_POOL, K.MQIACF_USAGE_PAGESET].Nodup ∧
  [K.MQBPLOCATION_ABOVE, K.MQBPLOCATION_BELOW, K.MQBPLOCATION_SWITCHING_ABOVE,
    K.MQBPLOCATION_SWITCHING_BELOW].Nodup ∧
  [K.MQPAGECLAS_4KB, K.MQPAGECLAS_FIXED4KB].Nodup ∧
  (∀ c ∈ [K.MQIACF_USAGE_BUFFER_POOL, K.MQIACF_USAGE_PAGESET,
    K.MQBPLOCATION_ABOVE, K.MQBPLOCATION_BELOW, K.MQBPLOCATION_SWITCHING_ABOVE,
    K.MQBPLOCATION_SWITCHING_BELOW, K.MQPAGECLAS_4KB, K.MQPAGECLAS_FIXED4KB], IsInt32 c)

instance (K : Constants) : Decidable K.Valid := by unfold Constants.Valid; infer_instance

/-- The values the constants have in the MQ headers `cmqc.h` and `cmqcfc.h`.
Only used for concrete runs; no theorem depends on the numbers. -/
def mqConstants : Constants where
  MQCC_FAILED := 2
  MQCMD_INQUIRE_USAGE := 126
  MQIACF_USAGE_TYPE := 1157
  MQIACF_USAGE_BUFFER_POOL := 1170
  MQIACF_USAGE_PAGESET := 1168
  MQIACF_BUFFER_POOL_ID := 1158
  MQIA_PAGESET_ID := 62
  MQIACF_BUFFER_POOL_LOCATION := 1408
  MQBPLOCATION_ABOVE := 1
  MQBPLOCATION_BELOW := 0
  MQBPLOCATION_SWITCHING_ABOVE := 2
  MQBPLOCATION_SWITCHING_BELOW := 3
  MQIACF_PAGECLAS := 1374
  MQPAGECLAS_4KB := 0
  MQPAGECLAS_FIXED4KB := 1
  MQIACF_USAGE_FREE_BUFF := 1330
  MQIACF_USAGE_FREE_BUFF_PERC := 1331
  MQIACF_USAGE_TOTAL_BUFFERS := 1166
  MQIACF_USAGE_TOTAL_PAGES := 1159
  MQIACF_USAGE_UNUSED_PAGES := 1160
  MQIACF_USAGE_NONPERSIST_PAGES := 1162
  MQIACF_USAGE_PERSIST_PAGES := 1161
  MQIACF_PAGESET_STATUS := 1165
  MQIACF_USAGE_EXPAND_COUNT := 1164

/-! ## Data model -/

/-- The fields of `ibmmq.MQCFH` (the PCF header of a reply) that are read. -/
structure MQCFH where
  Type_ : Int := 0
  Command : Int := 0
  MsgSeqNumber : Int := 0
  Control : Int := 0
  CompCode : Int := 0
  Reason : Int := 0
  ParameterCount : Int := 0
  deriving DecidableEq, Repr

/-- One decoded parameter, `ibmmq.PCFParameter`: its type, its identifier and
its values (`Int64Value` for the integer kinds, `String` for the string
kinds). -/
structure PCFParameter where
  Type_ : Int := 0
  Parameter : Int := 0
  Int64Value : List Int := []
  String : List String := []
  deriving DecidableEq, Repr

/-- The error value of an MQI verb, `*ibmmq.MQReturn`. -/
structure MQReturn where
  MQCC : Int
  MQRC : Int
  verb : String
  deriving DecidableEq, Repr

/-- A Go `map[string]T`: an association list in which a key occurs once. -/
abbrev GoMap (α : Type) := List (String × α)

/-- Map read `m[k]`, with `none` for an absent key. -/
def GoMap.get {α : Type} : GoMap α → String → Option α
  | [], _ => none
  | (k', v) :: m, k => if k' = k then some v else GoMap.get m k

/-- Map write `m[k] = v`: overwrite the entry of `k`, or add one. -/
def GoMap.set {α : Type} : GoMap α → String → α → GoMap α
  | [], k, v => [(k, v)]
  | (k', v') :: m, k, v => if k' = k then (k, v) :: m else (k', v') :: GoMap.set m k v

/-- The keys of a map. -/
def GoMap.keys {α : Type} (m : GoMap α) : List String := m.map Prod.fst

/-- Modelled from the spec: `StatusValue` (declared in status.go), "a numeric
value or a string value; never both". A numeric value is held as the integer
it was decoded from. -/
inductive StatusValue where
  | ValueString (s : String)
  | ValueInt64 (v : Int)
  deriving DecidableEq, Repr

/-- Modelled from the spec: `StatusAttribute` (declared in status.go),
"name, descriptive label, optional source-parameter identifier, a mapping
from instance-key to StatusValue". A pseudo attribute has no
source-parameter identifier. -/
structure StatusAttribute where
  name : String
  Description : String
  pcfAttr : Option Int
  Values : GoMap StatusValue
  deriving DecidableEq, Repr

/-- Modelled from the spec: `StatusSet` (declared in status.go), the
"mapping from attribute-name to StatusAttribute". -/
structure StatusSet where
  Attributes : GoMap StatusAttribute
  deriving DecidableEq, Repr

/-- Modelled from the spec: `newStatusValueString` of status.go. -/
def newStatusValueString (s : String) : StatusValue := StatusValue.ValueString s

/-- Modelled from the spec: `newPseudoStatusAttribute` of status.go, for
an attribute "computed by the extractor itself", with no instance-keys yet. -/
def newPseudoStatusAttribute (n : String) (d : String) : StatusAttribute :=
  { name := n, Description := d, pcfAttr := none, Values := [] }

/-- Modelled from the spec: `newStatusAttribute` of status.go, an attribute
that "comes directly from one decoded parameter", with no instance-keys yet. -/
def newStatusAttribute (n : String) (d : String) (pcfAttr : Int) : StatusAttribute :=
  { name := n, Description := d, pcfAttr := some pcfAttr, Values := [] }

def ATTR_BP_ID : String := "id"
def ATTR_BP_LOCATION : String := "location"
def ATTR_BP_CLASS : String := "pageclass"
def ATTR_BP_FREE : String := "buffers_free"
def ATTR_BP_FREE_PERCENT : String := "buffers_free_percent"
def ATTR_BP_TOTAL : String := "buffers_total"

def ATTR_PS_ID : String := "id"
def ATTR_PS_BPID : String := "bufferpool"
def ATTR_PS_TOTAL : String := "pages_total"
def ATTR_PS_UNUSED : String := "pages_unused"
def ATTR_PS_NP_PAGES : String := "pages_nonpersistent"
def ATTR_PS_P_PAGES : String := "pages_persistent"
def ATTR_PS_STATUS : String := "status"
def ATTR_PS_EXPAND_COUNT : String := "expansion_count"

/-- The package-level variables of usage.go. -/
structure Usage where
  UsageBpStatus : StatusSet
  UsagePsStatus : StatusSet
  usageAttrsInit : Bool
  deriving DecidableEq, Repr

/-- The state of the package before anything ran: nil maps, flag unset. -/
def Usage.initial : Usage :=
  { UsageBpStatus := { Attributes := [] }, UsagePsStatus := { Attributes := [] },
    usageAttrsInit := false }

/-- The statement `s.Attributes[attr].Values[key] = v`. It panics (nil
pointer dereference) when the set has no attribute `attr`. -/
def StatusSet.setValue (t : StatusSet) (attr : String) (key : String) (v : StatusValue) :
    Option StatusSet :=
  match t.Attributes.get attr with
  | none => none
  | some a => some { Attributes := t.Attributes.set attr { a with Values := a.Values.set key v } }

/-- The expression `s.Attributes[attr].Values[key]`. -/
def StatusSet.value (t : StatusSet) (attr : String) (key : String) : Option StatusValue :=
  match t.Attributes.get attr with
  | none => none
  | some a => a.Values.get key

/-- The instance-keys held by attribute `attr` of the set. -/
def StatusSet.instanceKeys (t : StatusSet) (attr : String) : List String :=
  match t.Attributes.get attr with
  | none => []
  | some a => a.Values.keys

/-- The attribute names of the set. -/
def StatusSet.names (t : StatusSet) : List String := t.Attributes.keys

/-! ## UsageInitAttributes and the reset of CollectUsageStatus -/

/-- `UsageInitAttributes`: on the first call create the attributes of the two
sets; later calls change nothing. -/
def UsageInitAttributes (K : Constants) (s : Usage) : Usage :=
  if s.usageAttrsInit then s
  else
    let bp : GoMap StatusAttribute := []
    let ps : GoMap StatusAttribute := []
    let bp := bp.set ATTR_BP_ID (newPseudoStatusAttribute ATTR_BP_ID "Buffer Pool ID")
    let bp := bp.set ATTR_BP_LOCATION
      (newPseudoStatusAttribute ATTR_BP_LOCATION "Buffer Pool Location")
    let bp := bp.set ATTR_BP_CLASS (newPseudoStatusAttribute ATTR_BP_CLASS "Buffer Pool Class")
    let bp := bp.set ATTR_BP_FREE
      (newStatusAttribute ATTR_BP_FREE "Free buffers" K.MQIACF_USAGE_FREE_BUFF)
    let bp := bp.set ATTR_BP_FREE_PERCENT
      (newStatusAttribute ATTR_BP_FREE_PERCENT "Free buffers percent"
        K.MQIACF_USAGE_FREE_BUFF_PERC)
    let bp := bp.set ATTR_BP_TOTAL
      (newStatusAttribute ATTR_BP_TOTAL "Total buffers" K.MQIACF_USAGE_TOTAL_BUFFERS)
    let ps := ps.set ATTR_PS_ID (newPseudoStatusAttribute ATTR_PS_ID "Pageset ID")
    let ps := ps.set ATTR_PS_BPID (newPseudoStatusAttribute ATTR_PS_BPID "Buffer Pool ID")
    let ps := ps.set ATTR_PS_TOTAL
      (newStatusAttribute ATTR_PS_TOTAL "Total pages" K.MQIACF_USAGE_TOTAL_PAGES)
    let ps := ps.set ATTR_PS_UNUSED
      (newStatusAttribute ATTR_PS_UNUSED "Unused pages" K.MQIACF_USAGE_UNUSED_PAGES)
    let ps := ps.set ATTR_PS_NP_PAGES
      (newStatusAttribute ATTR_PS_NP_PAGES "Non-persistent pages"
        K.MQIACF_USAGE_NONPERSIST_PAGES)
    let ps := ps.set ATTR_PS_P_PAGES
      (newStatusAttribute ATTR_PS_P_PAGES "Persistent pages" K.MQIACF_USAGE_PERSIST_PAGES)
    let ps := ps.set ATTR_PS_STATUS
      (newStatusAttribute ATTR_PS_STATUS "Status" K.MQIACF_PAGESET_STATUS)
    let ps := ps.set ATTR_PS_EXPAND_COUNT
      (newStatusAttribute ATTR_PS_EXPAND_COUNT "Expansion Count" K.MQIACF_USAGE_EXPAND_COUNT)
    { UsageBpStatus := { Attributes := bp }, UsagePsStatus := { Attributes := ps },
      usageAttrsInit := true }

/-- One of the loops `for k := range S.Attributes` of `CollectUsageStatus`:
every attribute of the set gets a fresh, empty `Values` map. -/
def StatusSet.emptyValues (t : StatusSet) : StatusSet :=
  { Attributes := t.Attributes.map (fun p => (p.1, { p.2 with Values := [] })) }

/-- The reset step of `CollectUsageStatus` ("Empty any collected values"):
the two loops, over `UsageBpStatus` and over `UsagePsStatus`. -/
def resetUsageStatus (s : Usage) : Usage :=
  { s with UsageBpStatus := s.UsageBpStatus.emptyValues,
           UsagePsStatus := s.UsagePsStatus.emptyValues }

/-! ## parseUsageData -/

/-- Which of the two package-level sets a step refers to. -/
inductive UsageSet where
  | Bp
  | Ps
  deriving DecidableEq, Repr

/-- The observable steps of one `parseUsageData` call (ghost values). -/
inductive Event where
  /-- The call `ibmmq.ReadPCFParameter(buf[offset:])` of pass 1 (identification)
  or pass 2 (population), with the parameter it returned. -/
  | decode (pass : Nat) (offset : Int) (elem : PCFParameter)
  /-- The write `S.Attributes[attr].Values[key] = v`. -/
  | setValue (set : UsageSet) (attr : String) (key : String) (v : StatusValue)
  /-- The call `statusGetIntAttributes(S, elem, key)`. -/
  | getIntAttributes (set : UsageSet) (elem : PCFParameter) (key : String)
  deriving DecidableEq, Repr

/-- The slice expression `buf[offset:]`; `none` is the run-time panic
"slice bounds out of range". -/
def sliceFrom (buf : List Nat) (offset : Int) : Option (List Nat) :=
  if 0 ≤ offset ∧ offset ≤ buf.length then some (buf.drop offset.toNat) else none

/-- The local variables of `parseUsageData` that the first pass assigns. -/
structure IdentVars where
  responseType : Int := 0
  bpId : String := ""
  bpLocation : String := ""
  bpClass : String := ""
  psId : String := ""
  deriving DecidableEq, Repr

/-- The `switch elem.Parameter` of the first pass, applied to one decoded
parameter. `ok (some v)` carries on with the variables `v`, `ok none` is the
`return ""` of the inner `default:` branch, `panic` is `elem.Int64Value[0]` on
an empty value list. -/
def identStep (K : Constants) (elem : PCFParameter) (v : IdentVars) :
    Outcome (Option IdentVars) :=
  if elem.Parameter = K.MQIACF_USAGE_TYPE then
    match elem.Int64Value.head? with
    | none => Outcome.panic
    | some x =>
      let v32 := toInt32 x
      if v32 = K.MQIACF_USAGE_BUFFER_POOL ∨ v32 = K.MQIACF_USAGE_PAGESET then
        Outcome.ok (some { v with responseType := v32 })
      else Outcome.ok none
  else if elem.Parameter = K.MQIACF_BUFFER_POOL_ID then
    match elem.Int64Value.head? with
    | none => Outcome.panic
    | some x => Outcome.ok (some { v with bpId := FormatInt x })
  else if elem.Parameter = K.MQIA_PAGESET_ID then
    match elem.Int64Value.head? with
    | none => Outcome.panic
    | some x => Outcome.ok (some { v with psId := FormatInt x })
  else if elem.Parameter = K.MQIACF_BUFFER_POOL_LOCATION then
    match elem.Int64Value.head? with
    | none => Outcome.panic
    | some x =>
      if toInt32 x = K.MQBPLOCATION_ABOVE then
        Outcome.ok (some { v with bpLocation := "Above" })
      else if toInt32 x = K.MQBPLOCATION_BELOW then
        Outcome.ok (some { v with bpLocation := "Below" })
      else if toInt32 x = K.MQBPLOCATION_SWITCHING_ABOVE then
        Outcome.ok (some { v with bpLocation := "Switching Above" })
      else if toInt32 x = K.MQBPLOCATION_SWITCHING_BELOW then
        Outcome.ok (some { v with bpLocation := "Switching Below" })
      else Outcome.ok (some v)
  else if elem.Parameter = K.MQIACF_PAGECLAS then
    match elem.Int64Value.head? with
    | none => Outcome.panic
    | some x =>
      if toInt32 x = K.MQPAGECLAS_4KB then
        Outcome.ok (some { v with bpClass := "4KB" })
      else if toInt32 x = K.MQPAGECLAS_FIXED4KB then
        Outcome.ok (some { v with bpClass := "Fixed4KB" })
      else Outcome.ok (some v)
  else Outcome.ok (some v)

/-- The first loop of `parseUsageData` ("Parse it once to extract the fields
that are needed for the map key"), started with the given `parmAvail` and
`offset`. One unit of fuel is used by each iteration. The result holds
`none` when the loop executed `return ""`. -/
def identLoop (K : Constants) (rd : List Nat → PCFParameter × Int) (cfh : MQCFH)
    (buf : List Nat) : Nat → Bool → Int → IdentVars → Outcome (Option IdentVars × List Event)
  | 0, parmAvail, _, v =>
    if parmAvail = true ∧ cfh.CompCode ≠ K.MQCC_FAILED then Outcome.outOfFuel
    else Outcome.ok (some v, [])
  | fuel + 1, parmAvail, offset, v =>
    if parmAvail = true ∧ cfh.CompCode ≠ K.MQCC_FAILED then
      match sliceFrom buf offset with
      | none => Outcome.panic
      | some b =>
        let elem := (rd b).1
        let bytesRead := (rd b).2
        let offset1 := offset + bytesRead
        let parmAvail1 := if offset1 ≥ buf.length then false else parmAvail
        match identStep K elem v with
        | Outcome.panic => Outcome.panic
        | Outcome.outOfFuel => Outcome.outOfFuel
        | Outcome.ok none => Outcome.ok (none, [Event.decode 1 offset elem])
        | Outcome.ok (some v1) =>
          match identLoop K rd cfh buf fuel parmAvail1 offset1 v1 with
          | Outcome.ok (r, tr) => Outcome.ok (r, Event.decode 1 offset elem :: tr)
          | Outcome.panic => Outcome.panic
          | Outcome.outOfFuel => Outcome.outOfFuel
    else Outcome.ok (some v, [])

/-- The second loop of `parseUsageData` ("re-parse the message so we can store
the metrics now knowing the map key"); the source has it twice, once for each
set. `t` is the set that is handed to `statusGetIntAttributes`. -/
def populateLoop (K : Constants) (rd : List Nat → PCFParameter × Int)
    (sgia : StatusSet → PCFParameter → String → StatusSet) (cfh : MQCFH) (buf : List Nat)
    (set : UsageSet) (key : String) :
    Nat → Bool → Int → StatusSet → Outcome (StatusSet × List Event)
  | 0, parmAvail, _, t =>
    if parmAvail = true ∧ cfh.CompCode ≠ K.MQCC_FAILED then Outcome.outOfFuel
    else Outcome.ok (t, [])
  | fuel + 1, parmAvail, offset, t =>
    if parmAvail = true ∧ cfh.CompCode ≠ K.MQCC_FAILED then
      match sliceFrom buf offset with
      | none => Outcome.panic
      | some b =>
        let elem := (rd b).1
        let bytesRead := (rd b).2
        let offset1 := offset + bytesRead
        let parmAvail1 := if offset1 ≥ buf.length then false else parmAvail
        match populateLoop K rd sgia cfh buf set key fuel parmAvail1 offset1 (sgia t elem key) with
        | Outcome.ok (t1, tr) =>
          Outcome.ok (t1, Event.decode 2 offset elem :: Event.getIntAttributes set elem key :: tr)
        | Outcome.panic => Outcome.panic
        | Outcome.outOfFuel => Outcome.outOfFuel
    else Outcome.ok (t, [])

/-- `parseUsageData(cfh, buf)`: the returned key, the package variables after
the call and the steps taken. `cfh = none` is the nil pointer. Each of the
loops may run for `fuel` iterations. -/
def parseUsageData (K : Constants) (rd : List Nat → PCFParameter × Int)
    (sgia : StatusSet → PCFParameter → String → StatusSet) (fuel : Nat)
    (cfh : Option MQCFH) (buf : List Nat) (s : Usage) : Outcome (String × Usage × List Event) :=
  match cfh with
  | none => Outcome.ok ("", s, [])
  | some cfh =>
    if cfh.ParameterCount = 0 then Outcome.ok ("", s, [])
    else
      match identLoop K rd cfh buf fuel true 0 {} with
      | Outcome.panic => Outcome.panic
      | Outcome.outOfFuel => Outcome.outOfFuel
      | Outcome.ok (none, tr1) => Outcome.ok ("", s, tr1)
      | Outcome.ok (some v, tr1) =>
        if v.responseType = K.MQIACF_USAGE_BUFFER_POOL then
          let key := v.bpId
          match ((s.UsageBpStatus.setValue ATTR_BP_ID key (newStatusValueString v.bpId)).bind
              (fun t => t.setValue ATTR_BP_LOCATION key (newStatusValueString v.bpLocation))).bind
              (fun t => t.setValue ATTR_BP_CLASS key (newStatusValueString v.bpClass)) with
          | none => Outcome.panic
          | some t =>
            match populateLoop K rd sgia cfh buf UsageSet.Bp key fuel true 0 t with
            | Outcome.panic => Outcome.panic
            | Outcome.outOfFuel => Outcome.outOfFuel
            | Outcome.ok (t1, tr2) =>
              Outcome.ok (key, { s with UsageBpStatus := t1 },
                tr1 ++
                [Event.setValue UsageSet.Bp ATTR_BP_ID key (newStatusValueString v.bpId),
                 Event.setValue UsageSet.Bp ATTR_BP_LOCATION key
                   (newStatusValueString v.bpLocation),
                 Event.setValue UsageSet.Bp ATTR_BP_CLASS key (newStatusValueString v.bpClass)]
                ++ tr2)
        else
          let key := v.psId
          match (s.UsagePsStatus.setValue ATTR_PS_ID key (newStatusValueString v.psId)).bind
              (fun t => t.setValue ATTR_PS_BPID key (newStatusValueString v.bpId)) with
          | none => Outcome.panic
          | some t =>
            match populateLoop K rd sgia cfh buf UsageSet.Ps key fuel true 0 t with
            | Outcome.panic => Outcome.panic
            | Outcome.outOfFuel => Outcome.outOfFuel
            | Outcome.ok (t1, tr2) =>
              Outcome.ok (key, { s with UsagePsStatus := t1 },
                tr1 ++
                [Event.setValue UsageSet.Ps ATTR_PS_ID key (newStatusValueString v.psId),
                 Event.setValue UsageSet.Ps ATTR_PS_BPID key (newStatusValueString v.bpId)]
                ++ tr2)

/-! ## collectUsageStatus and CollectUsageStatus -/

/-- The four results of one `statusGetReply()` call (status.go): the reply
header, the reply buffer (`none` is a nil slice), whether the reply was the
last one of the exchange, and the error. -/
structure Reply where
  cfh : Option MQCFH
  buf : Option (List Nat)
  allReceived : Bool
  err : Option MQReturn
  deriving DecidableEq, Repr

/-- What the queue manager does during one exchange: the error returned by
`cmdQObj.Put` (`none` is nil) and the results of the successive
`statusGetReply()` calls. -/
structure Transport where
  putErr : Option MQReturn
  replies : List Reply
  deriving DecidableEq, Repr

/-- The observable steps of one `collectUsageStatus` call (ghost values). -/
inductive CollectEvent where
  | clearReplyQ
  | put (command : Int)
  | getReply (r : Reply)
  | parse (cfh : Option MQCFH) (buf : List Nat)
  deriving DecidableEq, Repr

/-- The loop `for allReceived := false; !allReceived; ...` of
`collectUsageStatus`, entered with the results that `statusGetReply` is going
to return. The first component of the result is the value of `err` when the
loop is left. When the results are used up before one of them had
`allReceived` set, the loop is still waiting: `outOfFuel`. -/
def receiveLoop (K : Constants) (rd : List Nat → PCFParameter × Int)
    (sgia : StatusSet → PCFParameter → String → StatusSet) (fuel : Nat) :
    List Reply → Usage → Outcome (Option MQReturn × Usage × List CollectEvent)
  | [], _ => Outcome.outOfFuel
  | r :: rest, s =>
    match r.buf with
    | some b =>
      match parseUsageData K rd sgia fuel r.cfh b s with
      | Outcome.panic => Outcome.panic
      | Outcome.outOfFuel => Outcome.outOfFuel
      | Outcome.ok (_, s1, _) =>
        if r.allReceived then
          Outcome.ok (r.err, s1, [CollectEvent.getReply r, CollectEvent.parse r.cfh b])
        else
          match receiveLoop K rd sgia fuel rest s1 with
          | Outcome.ok (e, s2, tr) =>
            Outcome.ok (e, s2, CollectEvent.getReply r :: CollectEvent.parse r.cfh b :: tr)
          | Outcome.panic => Outcome.panic
          | Outcome.outOfFuel => Outcome.outOfFuel
    | none =>
      if r.allReceived then Outcome.ok (r.err, s, [CollectEvent.getReply r])
      else
        match receiveLoop K rd sgia fuel rest s with
        | Outcome.ok (e, s2, tr) => Outcome.ok (e, s2, CollectEvent.getReply r :: tr)
        | Outcome.panic => Outcome.panic
        | Outcome.outOfFuel => Outcome.outOfFuel

/-- `collectUsageStatus()`: clear the reply queue, put the INQUIRE USAGE
command, and when that worked read and parse replies until one is the last. -/
def collectUsageStatus (K : Constants) (rd : List Nat → PCFParameter × Int)
    (sgia : StatusSet → PCFParameter → String → StatusSet) (fuel : Nat)
    (q : Transport) (s : Usage) : Outcome (Option MQReturn × Usage × List CollectEvent) :=
  match q.putErr with
  | some e =>
    Outcome.ok (some e, s, [CollectEvent.clearReplyQ, CollectEvent.put K.MQCMD_INQUIRE_USAGE])
  | none =>
    match receiveLoop K rd sgia fuel q.replies s with
    | Outcome.ok (e, s1, tr) =>
      Outcome.ok (e, s1,
        CollectEvent.clearReplyQ :: CollectEvent.put K.MQCMD_INQUIRE_USAGE :: tr)
    | Outcome.panic => Outcome.panic
    | Outcome.outOfFuel => Outcome.outOfFuel

/-- `CollectUsageStatus()`: initialise the attributes, empty any collected
values, run `collectUsageStatus` and return its error. -/
def CollectUsageStatus (K : Constants) (rd : List Nat → PCFParameter × Int)
    (sgia : StatusSet → PCFParameter → String → StatusSet) (fuel : Nat)
    (q : Transport) (s : Usage) : Outcome (Option MQReturn × Usage × List CollectEvent) :=
  collectUsageStatus K rd sgia fuel q (resetUsageStatus (UsageInitAttributes K s))

/-! ## The absent helpers, for concrete runs -/

/-- Modelled from the spec: `statusGetIntAttributes` of status.go, the body
of the population pass: "for every parameter whose identifier matches a known
attribute's source-parameter identifier, store its (possibly multi-valued,
take first value) integer into the attribute table under the already-known
key, via normalize", where a negative raw value is "excluded from the
populated table (absent key)". A parameter without an integer value stores
nothing. -/
def statusGetIntAttributes (t : StatusSet) (elem : PCFParameter) (key : String) : StatusSet :=
  match elem.Int64Value.head? with
  | none => t
  | some x =>
    if x < 0 then t
    else
      { Attributes := t.Attributes.map (fun p =>
          if p.2.pcfAttr = some elem.Parameter then
            (p.1, { p.2 with Values := p.2.Values.set key (StatusValue.ValueInt64 x) })
          else p) }

/-- The four bytes of a 32-bit word, most significant first. -/
def word32 (x : Int) : List Nat :=
  let n := (x % 4294967296).toNat
  [n / 16777216 % 256, n / 65536 % 256, n / 256 % 256, n % 256]

/-- The signed 32-bit word held by the first four bytes of `b`, most
significant first; bytes beyond the end of `b` read as zero. -/
def readWord32 (b : List Nat) : Int :=
  toInt32 ((((b.getD 0 0 % 256) * 256 + b.getD 1 0 % 256) * 256 + b.getD 2 0 % 256) * 256
    + b.getD 3 0 % 256 : Nat)

/-- The encoding of one integer parameter in the layout of the PCF structure
MQCFIN: four words, which are the type (3) and the length (16) of the PCF
structure, the parameter identifier and the value. -/
def encodeInteger (parameter : Int) (value : Int) : List Nat :=
  word32 3 ++ word32 16 ++ word32 parameter ++ word32 value

/-- Modelled from the spec: a Parameter Codec ("given a byte buffer and a
starting offset, decode exactly one self-describing parameter and return
parameter, bytes consumed") for buffers of MQCFIN structures; it stands in
for `ibmmq.ReadPCFParameter` in concrete runs. The bytes consumed are the
length of the structure as found in the buffer. -/
def readInteger (b : List Nat) : PCFParameter × Int :=
  ({ Type_ := readWord32 b, Parameter := readWord32 (b.drop 8),
     Int64Value := [readWord32 (b.drop 12)] }, readWord32 (b.drop 4))

/-! ## Notions used to state the properties -/

/-- The decode calls of one pass over `buf` that is not cut short: the start
offset of each call with the parameter it returned, in order, from `offset`
on until the offset reaches the end of the buffer. `panic` when a start
offset is negative, `outOfFuel` when `fuel` calls were not enough. -/
def decodeWalk (rd : List Nat → PCFParameter × Int) (buf : List Nat) :
    Nat → Int → Outcome (List (Int × PCFParameter))
  | 0, _ => Outcome.outOfFuel
  | fuel + 1, offset =>
    match sliceFrom buf offset with
    | none => Outcome.panic
    | some b =>
      if offset + (rd b).2 ≥ buf.length then Outcome.ok [(offset, (rd b).1)]
      else
        match decodeWalk rd buf fuel (offset + (rd b).2) with
        | Outcome.ok w => Outcome.ok ((offset, (rd b).1) :: w)
        | Outcome.panic => Outcome.panic
        | Outcome.outOfFuel => Outcome.outOfFuel

/-- The parameter identifiers whose first value `parseUsageData` reads in the
first pass. -/
def Constants.keyFields (K : Constants) : List Int :=
  [K.MQIACF_USAGE_TYPE, K.MQIACF_BUFFER_POOL_ID, K.MQIA_PAGESET_ID,
    K.MQIACF_BUFFER_POOL_LOCATION, K.MQIACF_PAGECLAS]

/-- A parameter that the first pass can read: when its identifier is one of
the key fields it carries at least one value. -/
def HasValue (K : Constants) (e : PCFParameter) : Prop :=
  e.Parameter ∈ K.keyFields → e.Int64Value ≠ []

instance (K : Constants) (e : PCFParameter) : Decidable (HasValue K e) := by
  unfold HasValue; infer_instance

/-- The parameters with identifier `p` among the decoded ones. -/
def withParameter (p : Int) (ps : List PCFParameter) : List PCFParameter :=
  ps.filter (fun e => decide (e.Parameter = p))

/-- The usage-type value `x` is accepted by the first pass. -/
def KnownUsageType (K : Constants) (x : Int) : Prop :=
  toInt32 x = K.MQIACF_USAGE_BUFFER_POOL ∨ toInt32 x = K.MQIACF_USAGE_PAGESET

instance (K : Constants) (x : Int) : Decidable (KnownUsageType K x) := by
  unfold KnownUsageType; infer_instance

/-- The lookup table of the location switch: the label of a location code,
the empty string for a code without a label. -/
def locationLabel (K : Constants) (x : Int) : String :=
  if toInt32 x = K.MQBPLOCATION_ABOVE then "Above"
  else if toInt32 x = K.MQBPLOCATION_BELOW then "Below"
  else if toInt32 x = K.MQBPLOCATION_SWITCHING_ABOVE then "Switching Above"
  else if toInt32 x = K.MQBPLOCATION_SWITCHING_BELOW then "Switching Below"
  else ""

/-- The lookup table of the page-class switch. -/
def pageClassLabel (K : Constants) (x : Int) : String :=
  if toInt32 x = K.MQPAGECLAS_4KB then "4KB"
  else if toInt32 x = K.MQPAGECLAS_FIXED4KB then "Fixed4KB"
  else ""

/-- Attribute `a` of the set exists and is a pseudo attribute. -/
def StatusSet.HasPseudo (t : StatusSet) (a : String) : Prop :=
  ∃ attr, t.Attributes.get a = some attr ∧ attr.pcfAttr = none

/-- The five pseudo attributes that `parseUsageData` writes exist, as after
`UsageInitAttributes`. -/
def Usage.Ready (s : Usage) : Prop :=
  s.UsageBpStatus.HasPseudo ATTR_BP_ID ∧ s.UsageBpStatus.HasPseudo ATTR_BP_LOCATION ∧
  s.UsageBpStatus.HasPseudo ATTR_BP_CLASS ∧
  s.UsagePsStatus.HasPseudo ATTR_PS_ID ∧ s.UsagePsStatus.HasPseudo ATTR_PS_BPID

/-- The helper `sgia` leaves pseudo attributes alone: it only stores values
in attributes that have a source-parameter identifier. -/
def PreservesPseudo (sgia : StatusSet → PCFParameter → String → StatusSet) : Prop :=
  ∀ t e k a attr, t.Attributes.get a = some attr → attr.pcfAttr = none →
    (sgia t e k).Attributes.get a = some attr

/-- The decode steps of pass `pass` over the walk `w`. -/
def decodeEvents (pass : Nat) (w : List (Int × PCFParameter)) : List Event :=
  w.map (fun p => Event.decode pass p.1 p.2)

/-- The steps of the second pass over the walk `w`: each decode call followed
by the call of `statusGetIntAttributes` for the decoded parameter. -/
def populateEvents (set : UsageSet) (key : String) : List (Int × PCFParameter) → List Event
  | [] => []
  | p :: w =>
    Event.decode 2 p.1 p.2 :: Event.getIntAttributes set p.2 key :: populateEvents set key w

/-- The first pass replayed on the walk `w` of the buffer: `identStep` is
applied to the parameters in order until one of them ends the pass. -/
def identFold (K : Constants) :
    List (Int × PCFParameter) → IdentVars → Outcome (Option IdentVars × List Event)
  | [], v => Outcome.ok (some v, [])
  | p :: w, v =>
    match identStep K p.2 v with
    | Outcome.panic => Outcome.panic
    | Outcome.outOfFuel => Outcome.outOfFuel
    | Outcome.ok none => Outcome.ok (none, [Event.decode 1 p.1 p.2])
    | Outcome.ok (some v1) =>
      match identFold K w v1 with
      | Outcome.ok (r, tr) => Outcome.ok (r, Event.decode 1 p.1 p.2 :: tr)
      | Outcome.panic => Outcome.panic
      | Outcome.outOfFuel => Outcome.outOfFuel

/-- Attribute `a` is a pseudo attribute that holds `val` under `key`. -/
def StatusSet.PseudoHolds (t : StatusSet) (a key : String) (val : StatusValue) : Prop :=
  ∃ attr, t.Attributes.get a = some attr ∧ attr.pcfAttr = none ∧ attr.Values.get key = some val

/-- The string that the first pass leaves in `bpLocation` when the buffer
holds the location parameters `lo` (none or one). -/
def locationOf (K : Constants) (lo : Option PCFParameter) : String :=
  match lo with
  | none => ""
  | some l => locationLabel K (l.Int64Value.headD 0)

/-- The string that the first pass leaves in `bpClass` when the buffer holds
the page-class parameters `co` (none or one). -/
def pageClassOf (K : Constants) (co : Option PCFParameter) : String :=
  match co with
  | none => ""
  | some c => pageClassLabel K (c.Int64Value.headD 0)

/-- The package state at the start of a poll: attributes created and emptied. -/
def polledUsage : Usage := resetUsageStatus (UsageInitAttributes mqConstants Usage.initial)

/-- The reply buffer of the buffer-pool scenario: usage-type=BUFFER_POOL,
buffer-pool-id=4, location=ABOVE, pageclass=4KB, free-buffers=120,
free-percent=60, total-buffers=200. -/
def bufferPoolReply : List Nat :=
  encodeInteger 1157 1170 ++ encodeInteger 1158 4 ++ encodeInteger 1408 1 ++
  encodeInteger 1374 0 ++ encodeInteger 1330 120 ++ encodeInteger 1331 60 ++
  encodeInteger 1166 200

/-- The decode calls of one pass over `bufferPoolReply`. -/
def bufferPoolWalk : List (Int × PCFParameter) :=
  [(0, { Type_ := 3, Parameter := 1157, Int64Value := [1170] }),
   (16, { Type_ := 3, Parameter := 1158, Int64Value := [4] }),
   (32, { Type_ := 3, Parameter := 1408, Int64Value := [1] }),
   (48, { Type_ := 3, Parameter := 1374, Int64Value := [0] }),
   (64, { Type_ := 3, Parameter := 1330, Int64Value := [120] }),
   (80, { Type_ := 3, Parameter := 1331, Int64Value := [60] }),
   (96, { Type_ := 3, Parameter := 1166, Int64Value := [200] })]

/-- A reply whose usage type (1167, data set) is neither buffer pool nor
page set, between a buffer-pool id and a free-buffers count. -/
def dataSetReply : List Nat :=
  encodeInteger 1158 4 ++ encodeInteger 1157 1167 ++ encodeInteger 1330 120

/-- The decode calls of one pass over `dataSetReply`. -/
def dataSetWalk : List (Int × PCFParameter) :=
  [(0, { Type_ := 3, Parameter := 1158, Int64Value := [4] }),
   (16, { Type_ := 3, Parameter := 1157, Int64Value := [1167] }),
   (32, { Type_ := 3, Parameter := 1330, Int64Value := [120] })]

/-- A buffer-pool reply with a location code without a label (99) and no
page-class parameter. -/
def oddLocationReply : List Nat :=
  encodeInteger 1157 1170 ++ encodeInteger 1158 7 ++ encodeInteger 1408 99

/-- The decode calls of one pass over `oddLocationReply`. -/
def oddLocationWalk : List (Int × PCFParameter) :=
  [(0, { Type_ := 3, Parameter := 1157, Int64Value := [1170] }),
   (16, { Type_ := 3, Parameter := 1158, Int64Value := [7] }),
   (32, { Type_ := 3, Parameter := 1408, Int64Value := [99] })]

/-- The decode call that a step of pass `pass` records, if the step is one. -/
def Event.decodedIn (pass : Nat) : Event → Option (Int × PCFParameter)
  | Event.decode p o e => if p = pass then some (o, e) else none
  | Event.setValue _ _ _ _ => none
  | Event.getIntAttributes _ _ _ => none

/-- The instance-key that a step uses: the key of an attribute write or of a
call of `statusGetIntAttributes`; a decode call uses none. -/
def Event.instanceKey : Event → Option String
  | Event.decode _ _ _ => none
  | Event.setValue _ _ k _ => some k
  | Event.getIntAttributes _ _ k => some k

/-- What `parseUsageData` does once the first pass has ended without
`return ""`, with the variables `v` and the steps `tr1`, over a buffer whose
second pass makes the decode calls `w`: the key derivation, the writes of the
pseudo attributes and the calls of `statusGetIntAttributes`. -/
def storeUsage (K : Constants) (sgia : StatusSet → PCFParameter → String → StatusSet)
    (s : Usage) (w : List (Int × PCFParameter)) (v : IdentVars) (tr1 : List Event) :
    Outcome (String × Usage × List Event) :=
  if v.responseType = K.MQIACF_USAGE_BUFFER_POOL then
    match ((s.UsageBpStatus.setValue ATTR_BP_ID v.bpId (newStatusValueString v.bpId)).bind
        (fun t => t.setValue ATTR_BP_LOCATION v.bpId (newStatusValueString v.bpLocation))).bind
        (fun t => t.setValue ATTR_BP_CLASS v.bpId (newStatusValueString v.bpClass)) with
    | none => Outcome.panic
    | some t =>
      Outcome.ok (v.bpId,
        { s with UsageBpStatus := w.foldl (fun t1 p => sgia t1 p.2 v.bpId) t },
        tr1 ++
        [Event.setValue UsageSet.Bp ATTR_BP_ID v.bpId (newStatusValueString v.bpId),
         Event.setValue UsageSet.Bp ATTR_BP_LOCATION v.bpId (newStatusValueString v.bpLocation),
         Event.setValue UsageSet.Bp ATTR_BP_CLASS v.bpId (newStatusValueString v.bpClass)]
        ++ populateEvents UsageSet.Bp v.bpId w)
  else
    match (s.UsagePsStatus.setValue ATTR_PS_ID v.psId (newStatusValueString v.psId)).bind
        (fun t => t.setValue ATTR_PS_BPID v.psId (newStatusValueString v.bpId)) with
    | none => Outcome.panic
    | some t =>
      Outcome.ok (v.psId,
        { s with UsagePsStatus := w.foldl (fun t1 p => sgia t1 p.2 v.psId) t },
        tr1 ++
        [Event.setValue UsageSet.Ps ATTR_PS_ID v.psId (newStatusValueString v.psId),
         Event.setValue UsageSet.Ps ATTR_PS_BPID v.psId (newStatusValueString v.bpId)]
        ++ populateEvents UsageSet.Ps v.psId w)

/-- The steps of the receive loop when it reads the replies `rs` and stops
after the last of them. -/
def receiveEvents : List Reply → List CollectEvent
  | [] => []
  | r :: rs =>
    match r.buf with
    | some b => CollectEvent.getReply r :: CollectEvent.parse r.cfh b :: receiveEvents rs
    | none => CollectEvent.getReply r :: receiveEvents rs

/-- The result of `statusGetReply` that a step records, if the step is a
receive. -/
def CollectEvent.received : CollectEvent → Option Reply
  | CollectEvent.getReply r => some r
  | _ => none

/-- The arguments of the `parseUsageData` call that a step records, if the
step is one. -/
def CollectEvent.parsed : CollectEvent → Option (Option MQCFH × List Nat)
  | CollectEvent.parse cfh buf => some (cfh, buf)
  | _ => none

/-- The arguments with which `parseUsageData` is to be called for a reply:
none for a reply with a nil buffer. -/
def Reply.parseArgs (r : Reply) : Option (Option MQCFH × List Nat) :=
  match r.buf with
  | some b => some (r.cfh, b)
  | none => none

/-- A reply that `parseUsageData` can read with `fuel` iterations: when its
header lets the passes run, its buffer decodes into finitely many parameters
and the key-field parameters carry a value. -/
def Reply.decodable (K : Constants) (rd : List Nat → PCFParameter × Int) (fuel : Nat)
    (r : Reply) : Bool :=
  match r.cfh, r.buf with
  | some h, some b =>
    if h.ParameterCount = 0 ∨ h.CompCode = K.MQCC_FAILED then true
    else
      match decodeWalk rd b fuel 0 with
      | Outcome.ok w => w.all (fun p => decide (HasValue K p.2))
      | _ => false
  | _, _ => true

/-- An error of the put or get verb: connection broken. -/
def connectionBroken : MQReturn := { MQCC := 2, MQRC := 2009, verb := "MQGET" }

/-- The buffer-pool reply of the scenario, with more replies to follow. -/
def firstBufferPoolReply : Reply :=
  { cfh := some { ParameterCount := 7 }, buf := some bufferPoolReply,
    allReceived := false, err := none }

/-- A last reply without data that reports an error. -/
def lastEmptyReply : Reply :=
  { cfh := some { ParameterCount := 0 }, buf := none,
    allReceived := true, err := some connectionBroken }

/-- A reply that belongs to a later exchange. -/
def laterReply : Reply :=
  { cfh := some { ParameterCount := 3 }, buf := some dataSetReply,
    allReceived := true, err := none }

/-- An exchange of two replies, a buffer-pool reply and then a last reply
without data, followed by a reply that belongs to a later exchange. -/
def twoReplyExchange : Transport :=
  { putErr := none, replies := [firstBufferPoolReply, lastEmptyReply, laterReply] }

/-! ## InitConnection (mqif.go) -/

/-- The constants of package `ibmmq` that `InitConnection` compares the
platform with. -/
structure PlatformConstants where
  MQPL_ZOS : Int
  MQPL_APPLIANCE : Int
  deriving DecidableEq, Repr

/-- The values the platform constants have in the MQ header `cmqc.h`. Only
used for concrete runs. -/
def mqPlatforms : PlatformConstants := { MQPL_ZOS := 1, MQPL_APPLIANCE := 28 }

/-- The type `ConnectionConfig` of mqif.go. `TZOffsetSecs` is a float64 in
the source; it is only copied, and held here as an integer number of seconds. -/
structure ConnectionConfig where
  ClientMode : Bool := false
  UserId : String := ""
  Password : String := ""
  TZOffsetSecs : Int := 0
  UsePublications : Bool := false
  UseStatus : Bool := false
  UseResetQStats : Bool := false
  deriving DecidableEq, Repr

/-- The type `MQMetricError` of mqif.go; `MQReturn` is a pointer, `none` is
the nil pointer. -/
structure MQMetricError where
  Err : String
  MQReturn : Option MQReturn
  deriving DecidableEq, Repr

/-- The method `MQMetricError.Error()`: `e.Err + " : " + e.MQReturn.Error()`.
The call `e.MQReturn.Error()` dereferences the pointer, so a nil `MQReturn`
is the run-time panic "nil pointer dereference". The text of an `MQReturn`
(`ibmmq`) is the parameter `mqstrerror`. -/
def MQMetricError.Error (mqstrerror : Mqmetric.MQReturn → String) (e : MQMetricError) :
    Outcome String :=
  match e.MQReturn with
  | none => Outcome.panic
  | some r => Outcome.ok (e.Err ++ " : " ++ mqstrerror r)

/-- A value of the Go interface type `error` inside `InitConnection`: the
error of an MQI verb (a `*ibmmq.MQReturn`) or an error made by `fmt.Errorf`. -/
inductive GoError where
  | mqReturn (r : MQReturn)
  | errorf (text : String)
  deriving DecidableEq, Repr

/-- The values that `qMgrObject.InqMap(selectors)` returns for the five
selectors, each with the Go type that `InitConnection` asserts. -/
structure InqValues where
  MQCA_Q_MGR_NAME : String := ""
  MQIA_COMMAND_LEVEL : Int := 0
  MQIA_PERFORMANCE_EVENT : Int := 0
  MQIA_MAX_HANDLES : Int := 0
  MQIA_PLATFORM : Int := 0
  deriving DecidableEq, Repr

/-- The outcomes of the MQI calls that `InitConnection` makes, in the order
of the source: the error of each call (`none` is nil) and, for `InqMap`, the
values returned when its error is nil. -/
structure MQICalls where
  Connx : Option MQReturn := none
  OpenQMgr : Option MQReturn := none
  InqMap : Option MQReturn := none
  InqMapValues : InqValues := {}
  OpenCommandQ : Option MQReturn := none
  OpenReplyQ : Option MQReturn := none
  OpenStatusReplyQ : Option MQReturn := none
  deriving DecidableEq, Repr

/-- The package-level variables of mqif.go that `InitConnection` assigns
(the object handles are left out: they are only passed to the MQI). -/
structure Mqif where
  platform : Int := 0
  commandLevel : Int := 0
  maxHandles : Int := 0
  resolvedQMgrName : String := ""
  replyQBaseName : String := ""
  tzOffsetSecs : Int := 0
  qmgrConnected : Bool := false
  queuesOpened : Bool := false
  subsOpened : Bool := false
  usePublications : Bool := true
  useStatus : Bool := false
  useResetQStats : Bool := false

/-- The local variables `err`, `mqreturn` and `errorString` of
`InitConnection`. -/
structure InitLocals where
  err : Option GoError := none
  mqreturn : Option MQReturn := none
  errorString : String := ""
  deriving DecidableEq, Repr

/-- The statements of `InitConnection` up to and including the call of
`ibmmq.Connx`. -/
def connectStage (qMgrName : String) (cc : ConnectionConfig) (calls : MQICalls) (g : Mqif) :
    Mqif × InitLocals :=
  let g := { g with tzOffsetSecs := cc.TZOffsetSecs }
  match calls.Connx with
  | none => ({ g with qmgrConnected := true }, {})
  | some r =>
    (g, { err := some (GoError.mqReturn r), mqreturn := some r,
          errorString := "Cannot connect to queue manager " ++ qMgrName })

/-- The block "Discover important information about the qmgr": open the
queue manager object, inquire, and check the platform and command level. -/
def inquireStage (P : PlatformConstants) (cc : ConnectionConfig) (calls : MQICalls)
    (st : Mqif × InitLocals) : Mqif × InitLocals :=
  let g := st.1
  let l := st.2
  if l.err = none then
    let g := { g with useStatus := cc.UseStatus }
    match calls.OpenQMgr with
    | none =>
      match calls.InqMap with
      | none =>
        let v := calls.InqMapValues
        let g := { g with resolvedQMgrName := v.MQCA_Q_MGR_NAME, platform := v.MQIA_PLATFORM,
                          commandLevel := v.MQIA_COMMAND_LEVEL,
                          maxHandles := v.MQIA_MAX_HANDLES }
        if g.platform = P.MQPL_ZOS then
          let g := { g with usePublications := false, useResetQStats := cc.UseResetQStats }
          let evEnabled := v.MQIA_PERFORMANCE_EVENT
          if g.useResetQStats = true ∧ evEnabled = 0 then
            (g, { l with
              err := some (GoError.errorf
                "Requested use of RESET QSTATS but queue manager has PERFMEV(DISABLED)"),
              errorString := "Command" })
          else (g, l)
        else
          if cc.UsePublications = true then
            if g.commandLevel < 900 ∧ g.platform ≠ P.MQPL_APPLIANCE then
              (g, { l with
                err := some (GoError.errorf
                  ("Queue manager must be at least V9.0 for full monitoring. The " ++
                   "ibmmq.usePublications configuration parameter can be used to permit " ++
                   "limited monitoring.")),
                errorString := "Unsupported system" })
            else ({ g with usePublications := cc.UsePublications }, l)
          else ({ g with usePublications := false }, l)
      | some r => (g, { l with err := some (GoError.mqReturn r) })
    | some r =>
      (g, { err := some (GoError.mqReturn r), mqreturn := some r,
            errorString := "Cannot open queue manager object" })
  else st

/-- The name of the command queue: `mqod.ObjectName` of the third block. -/
def commandQueueName (P : PlatformConstants) (g : Mqif) : String :=
  if g.platform = P.MQPL_ZOS then "SYSTEM.COMMAND.INPUT" else "SYSTEM.ADMIN.COMMAND.QUEUE"

/-- The block "MQOPEN of the COMMAND QUEUE". -/
def openCommandQStage (P : PlatformConstants) (calls : MQICalls) (st : Mqif × InitLocals) :
    Mqif × InitLocals :=
  if st.2.err = none then
    match calls.OpenCommandQ with
    | none => st
    | some r =>
      (st.1, { err := some (GoError.mqReturn r), mqreturn := some r,
               errorString := "Cannot open queue " ++ commandQueueName P st.1 })
  else st

/-- The block "MQOPEN of a reply queue also used for subscription delivery". -/
def openReplyQStage (replyQ : String) (calls : MQICalls) (st : Mqif × InitLocals) :
    Mqif × InitLocals :=
  if st.2.err = none then
    let g := { st.1 with replyQBaseName := replyQ }
    match calls.OpenReplyQ with
    | none => ({ g with queuesOpened := true }, st.2)
    | some r =>
      (g, { err := some (GoError.mqReturn r), mqreturn := some r,
            errorString := "Cannot open queue " ++ replyQ })
  else st

/-- The block "MQOPEN of a second reply queue used for status polling". -/
def openStatusReplyQStage (replyQ : String) (calls : MQICalls) (st : Mqif × InitLocals) :
    Mqif × InitLocals :=
  if st.2.err = none then
    match calls.OpenStatusReplyQ with
    | none => st
    | some r =>
      (st.1, { err := some (GoError.mqReturn r), mqreturn := some r,
               errorString := "Cannot open queue " ++ replyQ })
  else st

/-- `InitConnection(qMgrName, replyQ, cc)`: the package variables after the
call and the returned error; `none` is the nil error, and a non-nil error is
always the value `MQMetricError{Err: errorString, MQReturn: mqreturn}`. -/
def InitConnection (P : PlatformConstants) (qMgrName : String) (replyQ : String)
    (cc : ConnectionConfig) (calls : MQICalls) (g : Mqif) : Mqif × Option MQMetricError :=
  let st := connectStage qMgrName cc calls g
  let st := inquireStage P cc calls st
  let st := openCommandQStage P calls st
  let st := openReplyQStage replyQ calls st
  let st := openStatusReplyQStage replyQ calls st
  if st.2.err ≠ none then
    (st.1, some { Err := st.2.errorString, MQReturn := st.2.mqreturn })
  else (st.1, none)

/-- A queue manager on a distributed platform (3, MQPL_UNIX) at command
level 800, every MQI call succeeding. -/
def oldQueueManager : MQICalls :=
  { InqMapValues := { MQCA_Q_MGR_NAME := "QM1", MQIA_COMMAND_LEVEL := 800,
                      MQIA_PERFORMANCE_EVENT := 0, MQIA_MAX_HANDLES := 256,
                      MQIA_PLATFORM := 3 } }

/-- A z/OS queue manager (platform 1) with PERFMEV(DISABLED), every MQI call
succeeding. -/
def zosQueueManagerNoEvents : MQICalls :=
  { InqMapValues := { MQCA_Q_MGR_NAME := "QM2", MQIA_COMMAND_LEVEL := 910,
                      MQIA_PERFORMANCE_EVENT := 0, MQIA_MAX_HANDLES := 256,
                      MQIA_PLATFORM := 1 } }

/-- A queue manager that cannot be connected to: MQRC_Q_MGR_NOT_AVAILABLE. -/
def unreachableQueueManager : MQICalls :=
  { Connx := some { MQCC := 2, MQRC := 2059, verb := "MQCONNX" } }

/-- The local variables do not stand for an error without `MQReturn`: there
is no error, or `mqreturn` is set. -/
def InitLocals.Sound (l : InitLocals) : Prop := l.err = none ∨ l.mqreturn ≠ none

/-- The block "Discover important information about the qmgr" ends with an
error that is not the error of `qMgr.Open`: `InqMap` fails, or one of the two
checks on the inquired values fails. -/
def inquireBlockFails (P : PlatformConstants) (cc : ConnectionConfig) (calls : MQICalls) :
    Prop :=
  calls.InqMap ≠ none ∨
    (if calls.InqMapValues.MQIA_PLATFORM = P.MQPL_ZOS then
      cc.UseResetQStats = true ∧ calls.InqMapValues.MQIA_PERFORMANCE_EVENT = 0
    else
      cc.UsePublications = true ∧ calls.InqMapValues.MQIA_COMMAND_LEVEL < 900 ∧
        calls.InqMapValues.MQIA_PLATFORM ≠ P.MQPL_APPLIANCE)

/-- The set `t` is the set `t0` after the writes
`S.Attributes[a].Values[key] = string value` for the pairs `(a, string)` of
`ws`: these values are held under `key`, every other value is the one of `t0`,
and the attribute names are those of `t0`. -/
def StatusSet.PseudoWritten (t0 t : StatusSet) (key : String) (ws : List (String × String)) :
    Prop :=
  (∀ p ∈ ws, t.value p.1 key = some (StatusValue.ValueString p.2)) ∧
  (∀ a k, ((∀ p ∈ ws, p.1 ≠ a) ∨ k ≠ key) → t.value a k = t0.value a k) ∧
  t.names = t0.names

/-- What a `parseUsageData` call whose first pass ended with the variables
`v` has stored when it returns `key` and leaves the package state `s1`, the
second pass having made the decode calls `w`: with `t` the set after the
writes of the pseudo attributes under `key`, the set chosen by the response
type is `t` with every parameter of `w` handed, in order, to
`statusGetIntAttributes` with `key`; the other set and the flag are
untouched; and when the helper leaves pseudo attributes alone, the pseudo
attributes still hold the written strings under `key` at the end. -/
def UsageStored (K : Constants) (sgia : StatusSet → PCFParameter → String → StatusSet)
    (s : Usage) (w : List (Int × PCFParameter)) (v : IdentVars) (key : String) (s1 : Usage)
    (t : StatusSet) : Prop :=
  s1.usageAttrsInit = s.usageAttrsInit ∧
  if v.responseType = K.MQIACF_USAGE_BUFFER_POOL then
    key = v.bpId ∧
    s.UsageBpStatus.PseudoWritten t key
      [(ATTR_BP_ID, v.bpId), (ATTR_BP_LOCATION, v.bpLocation), (ATTR_BP_CLASS, v.bpClass)] ∧
    s1.UsageBpStatus = w.foldl (fun t1 p => sgia t1 p.2 key) t ∧
    s1.UsagePsStatus = s.UsagePsStatus ∧
    (PreservesPseudo sgia →
      ∀ p ∈ [(ATTR_BP_ID, v.bpId), (ATTR_BP_LOCATION, v.bpLocation), (ATTR_BP_CLASS, v.bpClass)],
        s1.UsageBpStatus.value p.1 key = some (StatusValue.ValueString p.2))
  else
    key = v.psId ∧
    s.UsagePsStatus.PseudoWritten t key [(ATTR_PS_ID, v.psId), (ATTR_PS_BPID, v.bpId)] ∧
    s1.UsagePsStatus = w.foldl (fun t1 p => sgia t1 p.2 key) t ∧
    s1.UsageBpStatus = s.UsageBpStatus ∧
    (PreservesPseudo sgia →
      ∀ p ∈ [(ATTR_PS_ID, v.psId), (ATTR_PS_BPID, v.bpId)],
        s1.UsagePsStatus.value p.1 key = some (StatusValue.ValueString p.2))

/-- Modelled from the spec: what `statusGetReply` of status.go can return.
"Any transport-level failure aborts the sequence immediately and is surfaced
to the caller": a result that carries an error is the last one of its
exchange, it has `allReceived` set. -/
def Reply.AbortsOnError (r : Reply) : Prop := r.err ≠ none → r.allReceived = true

instance (r : Reply) : Decidable r.AbortsOnError := by
  unfold Reply.AbortsOnError; infer_instance

/-- The start offsets of the decode calls of a pass over `buf`: the pass
starts at offset 0, and after a call at offset `o` (a valid slice) that leaves
the new offset inside the buffer the next call is made at that offset. -/
inductive Reached (rd : List Nat → PCFParameter × Int) (buf : List Nat) : Int → Prop where
  | start : Reached rd buf 0
  | next (o : Int) : Reached rd buf o → 0 ≤ o → o ≤ buf.length →
      o + (rd (buf.drop o.toNat)).2 < buf.length →
      Reached rd buf (o + (rd (buf.drop o.toNat)).2)

/-- A buffer of one MQCFIN structure that gives its own length as 0 and
holds a usage type (1167, data set) that is neither buffer pool nor page set. -/
def zeroLengthReply : List Nat :=
  word32 3 ++ word32 0 ++ word32 1157 ++ word32 1167

/-! ## Lemmas on maps and attribute sets -/

theorem GoMap.get_set_self {α : Type} (m : GoMap α) (k : String) (v : α) :
    (m.set k v).get k = some v := by
  induction m with
  | nil => simp [GoMap.set, GoMap.get]
  | cons p m ih =>
    obtain ⟨k', v'⟩ := p
    by_cases h : k' = k
    · simp [GoMap.set, GoMap.get, h]
    · simp [GoMap.set, GoMap.get, h, ih]

theorem GoMap.get_set_ne {α : Type} (m : GoMap α) (k k1 : String) (v : α) (hne : k1 ≠ k) :
    (m.set k v).get k1 = m.get k1 := by
  induction m with
  | nil => simp [GoMap.set, GoMap.get, Ne.symm hne]
  | cons p m ih =>
    obtain ⟨k', v'⟩ := p
    by_cases h : k' = k
    · subst h
      simp [GoMap.set, GoMap.get, Ne.symm hne]
    · by_cases h1 : k' = k1
      · subst h1
        simp [GoMap.set, GoMap.get, h]
      · simp [GoMap.set, GoMap.get, h, h1, ih]

theorem StatusSet.setValue_of_get (t : StatusSet) (a key : String) (v : StatusValue)
    (attr : StatusAttribute) (h : t.Attributes.get a = some attr) :
    t.setValue a key v =
      some { Attributes := t.Attributes.set a { attr with Values := attr.Values.set key v } } := by
  simp [StatusSet.setValue, h]

theorem StatusSet.setValue_get_ne (t t1 : StatusSet) (a a1 key : String) (v : StatusValue)
    (h : t.setValue a key v = some t1) (hne : a1 ≠ a) :
    t1.Attributes.get a1 = t.Attributes.get a1 := by
  unfold StatusSet.setValue at h
  cases hg : t.Attributes.get a with
  | none => simp [hg] at h
  | some attr =>
    simp [hg] at h
    subst h
    exact GoMap.get_set_ne _ _ _ _ hne

theorem StatusSet.setValue_value_self (t t1 : StatusSet) (a key : String) (v : StatusValue)
    (h : t.setValue a key v = some t1) : t1.value a key = some v := by
  unfold StatusSet.setValue at h
  cases hg : t.Attributes.get a with
  | none => simp [hg] at h
  | some attr =>
    simp [hg] at h
    subst h
    simp [StatusSet.value, GoMap.get_set_self]

theorem StatusSet.setValue_value_ne (t t1 : StatusSet) (a a1 key key1 : String)
    (v : StatusValue) (h : t.setValue a key v = some t1) (hne : a1 ≠ a) :
    t1.value a1 key1 = t.value a1 key1 := by
  simp [StatusSet.value, StatusSet.setValue_get_ne t t1 a a1 key v h hne]

theorem StatusSet.setValue_hasPseudo (t t1 : StatusSet) (a a1 key : String) (v : StatusValue)
    (h : t.setValue a key v = some t1) (hp : t.HasPseudo a1) : t1.HasPseudo a1 := by
  by_cases hne : a1 = a
  · subst hne
    unfold StatusSet.setValue at h
    obtain ⟨attr, hg, hn⟩ := hp
    simp [hg] at h
    subst h
    exact ⟨_, GoMap.get_set_self _ _ _, hn⟩
  · obtain ⟨attr, hg, hn⟩ := hp
    exact ⟨attr, by rw [StatusSet.setValue_get_ne t t1 a a1 key v h hne]; exact hg, hn⟩

theorem StatusSet.setValue_isSome (t : StatusSet) (a key : String) (v : StatusValue)
    (hp : t.HasPseudo a) : ∃ t1, t.setValue a key v = some t1 := by
  obtain ⟨attr, hg, _⟩ := hp
  exact ⟨_, StatusSet.setValue_of_get t a key v attr hg⟩

theorem StatusSet.emptyValues_values (t : StatusSet) :
    ∀ p ∈ t.emptyValues.Attributes, p.2.Values = [] := by
  intro p hp
  simp only [StatusSet.emptyValues, List.mem_map] at hp
  obtain ⟨q, _, rfl⟩ := hp
  rfl

theorem StatusSet.emptyValues_idem (t : StatusSet) : t.emptyValues.emptyValues = t.emptyValues := by
  simp [StatusSet.emptyValues, List.map_map, Function.comp_def]

theorem StatusSet.emptyValues_names (t : StatusSet) : t.emptyValues.names = t.names := by
  simp [StatusSet.emptyValues, StatusSet.names, GoMap.keys, List.map_map, Function.comp_def]

theorem GoMap.get_mem {α : Type} (m : GoMap α) (k : String) (v : α) (h : m.get k = some v) :
    (k, v) ∈ m := by
  induction m with
  | nil => simp [GoMap.get] at h
  | cons p m ih =>
    obtain ⟨k', v'⟩ := p
    by_cases hk : k' = k
    · simp [GoMap.get, hk] at h
      simp [hk, h]
    · simp [GoMap.get, hk] at h
      exact List.mem_cons_of_mem _ (ih h)

theorem StatusSet.emptyValues_instanceKeys (t : StatusSet) (a : String) :
    t.emptyValues.instanceKeys a = [] := by
  unfold StatusSet.instanceKeys
  cases hg : t.emptyValues.Attributes.get a with
  | none => rfl
  | some attr =>
    have := StatusSet.emptyValues_values t _ (GoMap.get_mem _ _ _ hg)
    simp at this
    simp [this, GoMap.keys]

/-! ## Lemmas on the two passes -/

theorem identLoop_false (K : Constants) (rd : List Nat → PCFParameter × Int) (cfh : MQCFH)
    (buf : List Nat) (fuel : Nat) (offset : Int) (v : IdentVars) :
    identLoop K rd cfh buf fuel false offset v = Outcome.ok (some v, []) := by
  cases fuel <;> simp [identLoop]

theorem identLoop_failed (K : Constants) (rd : List Nat → PCFParameter × Int) (cfh : MQCFH)
    (buf : List Nat) (fuel : Nat) (pa : Bool) (offset : Int) (v : IdentVars)
    (h : cfh.CompCode = K.MQCC_FAILED) :
    identLoop K rd cfh buf fuel pa offset v = Outcome.ok (some v, []) := by
  cases fuel <;> simp [identLoop, h]

theorem populateLoop_false (K : Constants) (rd : List Nat → PCFParameter × Int)
    (sgia : StatusSet → PCFParameter → String → StatusSet) (cfh : MQCFH) (buf : List Nat)
    (set : UsageSet) (key : String) (fuel : Nat) (offset : Int) (t : StatusSet) :
    populateLoop K rd sgia cfh buf set key fuel false offset t = Outcome.ok (t, []) := by
  cases fuel <;> simp [populateLoop]

theorem populateLoop_failed (K : Constants) (rd : List Nat → PCFParameter × Int)
    (sgia : StatusSet → PCFParameter → String → StatusSet) (cfh : MQCFH) (buf : List Nat)
    (set : UsageSet) (key : String) (fuel : Nat) (pa : Bool) (offset : Int) (t : StatusSet)
    (h : cfh.CompCode = K.MQCC_FAILED) :
    populateLoop K rd sgia cfh buf set key fuel pa offset t = Outcome.ok (t, []) := by
  cases fuel <;> simp [populateLoop, h]

theorem decodeWalk_mono (rd : List Nat → PCFParameter × Int) (buf : List Nat) :
    ∀ (fuel fuel1 : Nat) (offset : Int) (w : List (Int × PCFParameter)),
      decodeWalk rd buf fuel offset = Outcome.ok w → fuel ≤ fuel1 →
      decodeWalk rd buf fuel1 offset = Outcome.ok w := by
  intro fuel
  induction fuel with
  | zero => intro fuel1 offset w h; simp [decodeWalk] at h
  | succ n ih =>
    intro fuel1 offset w h hle
    obtain ⟨m, rfl⟩ : ∃ m, fuel1 = m + 1 := ⟨fuel1 - 1, by omega⟩
    simp only [decodeWalk] at h ⊢
    cases hs : sliceFrom buf offset with
    | none => simp [hs] at h
    | some b =>
      simp only [hs] at h ⊢
      by_cases hend : offset + (rd b).2 ≥ buf.length
      · simpa [hend] using h
      · simp only [hend, if_false] at h ⊢
        cases hw : decodeWalk rd buf n (offset + (rd b).2) with
        | ok w1 =>
          rw [ih m _ w1 hw (by omega)]
          simpa [hw] using h
        | panic => simp [hw] at h
        | outOfFuel => simp [hw] at h

theorem identLoop_of_walk (K : Constants) (rd : List Nat → PCFParameter × Int) (cfh : MQCFH)
    (buf : List Nat) (hcc : cfh.CompCode ≠ K.MQCC_FAILED) :
    ∀ (fuel : Nat) (offset : Int) (w : List (Int × PCFParameter)) (v : IdentVars),
      decodeWalk rd buf fuel offset = Outcome.ok w →
      identLoop K rd cfh buf fuel true offset v = identFold K w v := by
  intro fuel
  induction fuel with
  | zero => intro offset w v h; simp [decodeWalk] at h
  | succ n ih =>
    intro offset w v h
    simp only [decodeWalk] at h
    simp only [identLoop, hcc, ne_eq, not_false_eq_true, and_self, if_true]
    cases hs : sliceFrom buf offset with
    | none => simp [hs] at h
    | some b =>
      simp only [hs] at h ⊢
      by_cases hend : offset + (rd b).2 ≥ buf.length
      · simp only [hend, if_true, Outcome.ok.injEq] at h
        subst h
        simp only [hend, if_true, identFold, identLoop_false]
      · simp only [hend, if_false] at h ⊢
        cases hw : decodeWalk rd buf n (offset + (rd b).2) with
        | ok w1 =>
          simp only [hw, Outcome.ok.injEq] at h
          subst h
          simp only [identFold]
          cases hstep : identStep K (rd b).1 v with
          | ok r =>
            cases r with
            | none => rfl
            | some v1 => simp only [ih _ w1 v1 hw]
          | panic => rfl
          | outOfFuel => rfl
        | panic => simp [hw] at h
        | outOfFuel => simp [hw] at h

theorem populateLoop_of_walk (K : Constants) (rd : List Nat → PCFParameter × Int)
    (sgia : StatusSet → PCFParameter → String → StatusSet) (cfh : MQCFH) (buf : List Nat)
    (set : UsageSet) (key : String) (hcc : cfh.CompCode ≠ K.MQCC_FAILED) :
    ∀ (fuel : Nat) (offset : Int) (w : List (Int × PCFParameter)) (t : StatusSet),
      decodeWalk rd buf fuel offset = Outcome.ok w →
      populateLoop K rd sgia cfh buf set key fuel true offset t =
        Outcome.ok (w.foldl (fun t1 p => sgia t1 p.2 key) t, populateEvents set key w) := by
  intro fuel
  induction fuel with
  | zero => intro offset w t h; simp [decodeWalk] at h
  | succ n ih =>
    intro offset w t h
    simp only [decodeWalk] at h
    simp only [populateLoop, hcc, ne_eq, not_false_eq_true, and_self, if_true]
    cases hs : sliceFrom buf offset with
    | none => simp [hs] at h
    | some b =>
      simp only [hs] at h ⊢
      by_cases hend : offset + (rd b).2 ≥ buf.length
      · simp only [hend, if_true, Outcome.ok.injEq] at h
        subst h
        simp only [hend, if_true, populateLoop_false, populateEvents, List.foldl]
      · simp only [hend, if_false] at h ⊢
        cases hw : decodeWalk rd buf n (offset + (rd b).2) with
        | ok w1 =>
          simp only [hw, Outcome.ok.injEq] at h
          subst h
          simp only [ih _ w1 _ hw, populateEvents, List.foldl]
        | panic => simp [hw] at h
        | outOfFuel => simp [hw] at h

/-! ## Lemmas on the switch of the first pass -/

theorem identStep_ne_outOfFuel (K : Constants) (e : PCFParameter) (v : IdentVars) :
    identStep K e v ≠ Outcome.outOfFuel := by
  unfold identStep
  cases e.Int64Value.head? <;> simp <;> split_ifs <;> simp

theorem identStep_ne_panic (K : Constants) (e : PCFParameter) (v : IdentVars)
    (h : HasValue K e) : identStep K e v ≠ Outcome.panic := by
  unfold HasValue Constants.keyFields at h
  unfold identStep
  cases hv : e.Int64Value.head? with
  | some x =>
    simp only
    split_ifs <;> simp
  | none =>
    have hnil : e.Int64Value = [] := by
      cases hl : e.Int64Value with
      | nil => rfl
      | cons a l => simp [hl] at hv
    simp only [List.mem_cons, List.mem_singleton, hnil, ne_eq, not_true_eq_false, imp_false,
      not_or, List.not_mem_nil, or_false] at h
    obtain ⟨h1, h2, h3, h4, h5⟩ := h
    simp [h1, h2, h3, h4, h5]

theorem identStep_abort_iff (K : Constants) (e : PCFParameter) (v : IdentVars) :
    identStep K e v = Outcome.ok none ↔
      e.Parameter = K.MQIACF_USAGE_TYPE ∧
        ∃ x, e.Int64Value.head? = some x ∧ ¬ KnownUsageType K x := by
  unfold identStep KnownUsageType
  cases hv : e.Int64Value.head? with
  | none =>
    simp
    split_ifs <;> simp
  | some x =>
    by_cases hp : e.Parameter = K.MQIACF_USAGE_TYPE
    · simp only [hp, if_true, true_and]
      by_cases hk : toInt32 x = K.MQIACF_USAGE_BUFFER_POOL ∨ toInt32 x = K.MQIACF_USAGE_PAGESET
      · simp [hk]
        intro h
        exact hk.resolve_left h
      · simp [hk]
        exact not_or.mp hk
    · simp only [hp, if_false, false_and, iff_false]
      split_ifs <;> simp

theorem Constants.Valid.ids (K : Constants) (hK : K.Valid) :
    K.MQIACF_USAGE_TYPE ≠ K.MQIACF_BUFFER_POOL_ID ∧ K.MQIACF_USAGE_TYPE ≠ K.MQIA_PAGESET_ID ∧
    K.MQIACF_USAGE_TYPE ≠ K.MQIACF_BUFFER_POOL_LOCATION ∧
    K.MQIACF_USAGE_TYPE ≠ K.MQIACF_PAGECLAS ∧
    K.MQIACF_BUFFER_POOL_ID ≠ K.MQIA_PAGESET_ID ∧
    K.MQIACF_BUFFER_POOL_ID ≠ K.MQIACF_BUFFER_POOL_LOCATION ∧
    K.MQIACF_BUFFER_POOL_ID ≠ K.MQIACF_PAGECLAS ∧
    K.MQIA_PAGESET_ID ≠ K.MQIACF_BUFFER_POOL_LOCATION ∧
    K.MQIA_PAGESET_ID ≠ K.MQIACF_PAGECLAS ∧
    K.MQIACF_BUFFER_POOL_LOCATION ≠ K.MQIACF_PAGECLAS := by
  have h := hK.1
  simp only [List.nodup_cons, List.mem_cons, List.mem_singleton, not_or, List.not_mem_nil,
    not_false_eq_true, List.nodup_nil, and_true] at h
  obtain ⟨⟨a1, a2, a3, a4⟩, ⟨b1, b2, b3⟩, ⟨c1, c2⟩, d1⟩ := h
  exact ⟨a1, a2, a3, a4, b1, b2, b3, c1, c2, d1⟩

theorem Constants.Valid.toInt32_eq (K : Constants) (hK : K.Valid) (c : Int)
    (hc : c ∈ [K.MQIACF_USAGE_BUFFER_POOL, K.MQIACF_USAGE_PAGESET,
      K.MQBPLOCATION_ABOVE, K.MQBPLOCATION_BELOW, K.MQBPLOCATION_SWITCHING_ABOVE,
      K.MQBPLOCATION_SWITCHING_BELOW, K.MQPAGECLAS_4KB, K.MQPAGECLAS_FIXED4KB]) :
    toInt32 c = c := by
  have h := hK.2.2.2.2 c hc
  unfold IsInt32 at h
  unfold toInt32
  omega

theorem identStep_responseType_skip (K : Constants) (e : PCFParameter) (v v1 : IdentVars)
    (h : identStep K e v = Outcome.ok (some v1)) (hp : e.Parameter ≠ K.MQIACF_USAGE_TYPE) :
    v1.responseType = v.responseType := by
  unfold identStep at h
  simp only [hp, if_false] at h
  cases hv : e.Int64Value.head? with
  | none =>
    simp only [hv] at h
    split_ifs at h
    all_goals simp_all
  | some x =>
    simp only [hv] at h
    split_ifs at h <;> simp at h <;> subst h <;> rfl

theorem identStep_responseType_set (K : Constants) (e : PCFParameter) (v v1 : IdentVars)
    (h : identStep K e v = Outcome.ok (some v1)) (hp : e.Parameter = K.MQIACF_USAGE_TYPE) :
    v1.responseType = toInt32 (e.Int64Value.headD 0) ∧ KnownUsageType K (e.Int64Value.headD 0) := by
  unfold identStep at h
  simp only [hp, if_true] at h
  cases hl : e.Int64Value with
  | nil => simp [hl] at h
  | cons x l =>
    simp only [hl, List.head?_cons] at h
    unfold KnownUsageType
    split_ifs at h with hk
    · simp at h
      subst h
      exact ⟨rfl, hk⟩
    · simp at h

theorem identStep_bpId_skip (K : Constants) (e : PCFParameter) (v v1 : IdentVars)
    (h : identStep K e v = Outcome.ok (some v1)) (hp : e.Parameter ≠ K.MQIACF_BUFFER_POOL_ID) :
    v1.bpId = v.bpId := by
  unfold identStep at h
  simp only [hp, if_false] at h
  cases hv : e.Int64Value.head? with
  | none =>
    simp only [hv] at h
    split_ifs at h
    all_goals simp_all
  | some x =>
    simp only [hv] at h
    split_ifs at h <;> simp at h <;> subst h <;> rfl

theorem identStep_bpId_set (K : Constants) (hK : K.Valid) (e : PCFParameter) (v v1 : IdentVars)
    (h : identStep K e v = Outcome.ok (some v1)) (hp : e.Parameter = K.MQIACF_BUFFER_POOL_ID) :
    v1.bpId = FormatInt (e.Int64Value.headD 0) := by
  obtain ⟨a1, -⟩ := Constants.Valid.ids K hK
  unfold identStep at h
  simp only [hp, Ne.symm a1, if_false, if_true] at h
  cases hl : e.Int64Value with
  | nil => simp [hl] at h
  | cons x l =>
    simp only [hl, List.head?_cons, Outcome.ok.injEq, Option.some.injEq] at h
    subst h
    rfl

theorem identStep_bpLocation_skip (K : Constants) (e : PCFParameter) (v v1 : IdentVars)
    (h : identStep K e v = Outcome.ok (some v1))
    (hp : e.Parameter ≠ K.MQIACF_BUFFER_POOL_LOCATION) : v1.bpLocation = v.bpLocation := by
  unfold identStep at h
  simp only [hp, if_false] at h
  cases hv : e.Int64Value.head? with
  | none =>
    simp only [hv] at h
    split_ifs at h
    all_goals simp_all
  | some x =>
    simp only [hv] at h
    split_ifs at h <;> simp at h <;> subst h <;> rfl

theorem identStep_bpLocation_set (K : Constants) (hK : K.Valid) (e : PCFParameter)
    (v v1 : IdentVars) (h : identStep K e v = Outcome.ok (some v1))
    (hp : e.Parameter = K.MQIACF_BUFFER_POOL_LOCATION) :
    v1.bpLocation = if locationLabel K (e.Int64Value.headD 0) = "" then v.bpLocation
      else locationLabel K (e.Int64Value.headD 0) := by
  obtain ⟨-, -, a3, -, -, b2, -, c1, -⟩ := Constants.Valid.ids K hK
  unfold identStep at h
  simp only [hp, Ne.symm a3, Ne.symm b2, Ne.symm c1, if_false, if_true] at h
  cases hl : e.Int64Value with
  | nil => simp [hl] at h
  | cons x l =>
    simp only [hl, List.head?_cons] at h
    simp only [List.headD_cons, locationLabel]
    split_ifs at h ⊢ <;> simp at h <;> subst h <;> first | rfl | (exfalso; simp_all)

theorem identStep_bpClass_skip (K : Constants) (e : PCFParameter) (v v1 : IdentVars)
    (h : identStep K e v = Outcome.ok (some v1)) (hp : e.Parameter ≠ K.MQIACF_PAGECLAS) :
    v1.bpClass = v.bpClass := by
  unfold identStep at h
  simp only [hp, if_false] at h
  cases hv : e.Int64Value.head? with
  | none =>
    simp only [hv] at h
    split_ifs at h
    all_goals simp_all
  | some x =>
    simp only [hv] at h
    split_ifs at h <;> simp at h <;> subst h <;> rfl

theorem identStep_bpClass_set (K : Constants) (hK : K.Valid) (e : PCFParameter)
    (v v1 : IdentVars) (h : identStep K e v = Outcome.ok (some v1))
    (hp : e.Parameter = K.MQIACF_PAGECLAS) :
    v1.bpClass = if pageClassLabel K (e.Int64Value.headD 0) = "" then v.bpClass
      else pageClassLabel K (e.Int64Value.headD 0) := by
  obtain ⟨-, -, -, a4, -, -, b3, -, c2, d1⟩ := Constants.Valid.ids K hK
  unfold identStep at h
  simp only [hp, Ne.symm a4, Ne.symm b3, Ne.symm c2, Ne.symm d1, if_false, if_true] at h
  cases hl : e.Int64Value with
  | nil => simp [hl] at h
  | cons x l =>
    simp only [hl, List.head?_cons] at h
    simp only [List.headD_cons, pageClassLabel]
    split_ifs at h ⊢ <;> simp at h <;> subst h <;> first | rfl | (exfalso; simp_all)

theorem StatusSet.PseudoHolds.value {t : StatusSet} {a key : String} {val : StatusValue}
    (h : t.PseudoHolds a key val) : t.value a key = some val := by
  obtain ⟨attr, hg, _, hv⟩ := h
  simp [StatusSet.value, hg, hv]

theorem StatusSet.setValue_pseudoHolds (t t1 : StatusSet) (a key : String) (v : StatusValue)
    (h : t.setValue a key v = some t1) (hp : t.HasPseudo a) : t1.PseudoHolds a key v := by
  obtain ⟨attr, hg, hn⟩ := hp
  rw [StatusSet.setValue_of_get t a key v attr hg] at h
  simp only [Option.some.injEq] at h
  subst h
  exact ⟨_, GoMap.get_set_self _ _ _, hn, GoMap.get_set_self _ _ _⟩

theorem StatusSet.setValue_pseudoHolds_ne (t t1 : StatusSet) (a a1 key key1 : String)
    (v val : StatusValue) (h : t.setValue a key v = some t1) (hne : a1 ≠ a)
    (hp : t.PseudoHolds a1 key1 val) : t1.PseudoHolds a1 key1 val := by
  obtain ⟨attr, hg, hn, hv⟩ := hp
  exact ⟨attr, by rw [StatusSet.setValue_get_ne t t1 a a1 key v h hne]; exact hg, hn, hv⟩

theorem foldl_sgia_get (sgia : StatusSet → PCFParameter → String → StatusSet)
    (hsgia : PreservesPseudo sgia) (key a : String) (attr : StatusAttribute)
    (hn : attr.pcfAttr = none) :
    ∀ (w : List (Int × PCFParameter)) (t : StatusSet), t.Attributes.get a = some attr →
      (w.foldl (fun t1 p => sgia t1 p.2 key) t).Attributes.get a = some attr := by
  intro w
  induction w with
  | nil => intro t h; exact h
  | cons p w ih =>
    intro t h
    simp only [List.foldl]
    exact ih _ (hsgia t p.2 key a attr h hn)

theorem foldl_sgia_pseudoHolds (sgia : StatusSet → PCFParameter → String → StatusSet)
    (hsgia : PreservesPseudo sgia) (key a key1 : String) (val : StatusValue)
    (w : List (Int × PCFParameter)) (t : StatusSet) (h : t.PseudoHolds a key1 val) :
    (w.foldl (fun t1 p => sgia t1 p.2 key) t).PseudoHolds a key1 val := by
  obtain ⟨attr, hg, hn, hv⟩ := h
  exact ⟨attr, foldl_sgia_get sgia hsgia key a attr hn w t hg, hn, hv⟩

theorem foldl_sgia_hasPseudo (sgia : StatusSet → PCFParameter → String → StatusSet)
    (hsgia : PreservesPseudo sgia) (key a : String)
    (w : List (Int × PCFParameter)) (t : StatusSet) (h : t.HasPseudo a) :
    (w.foldl (fun t1 p => sgia t1 p.2 key) t).HasPseudo a := by
  obtain ⟨attr, hg, hn⟩ := h
  exact ⟨attr, foldl_sgia_get sgia hsgia key a attr hn w t hg, hn⟩

theorem identFold_cons_some (K : Constants) (q : Int × PCFParameter)
    (w : List (Int × PCFParameter)) (v v' : IdentVars) (tr : List Event)
    (h : identFold K (q :: w) v = Outcome.ok (some v', tr)) :
    ∃ v1 tr1, identStep K q.2 v = Outcome.ok (some v1) ∧
      identFold K w v1 = Outcome.ok (some v', tr1) ∧ tr = Event.decode 1 q.1 q.2 :: tr1 := by
  simp only [identFold] at h
  cases hs : identStep K q.2 v with
  | panic => simp [hs] at h
  | outOfFuel => simp [hs] at h
  | ok r =>
    cases r with
    | none => simp [hs] at h
    | some v1 =>
      simp only [hs] at h
      cases hf : identFold K w v1 with
      | panic => simp [hf] at h
      | outOfFuel => simp [hf] at h
      | ok r1 =>
        obtain ⟨r, tr1⟩ := r1
        simp only [hf, Outcome.ok.injEq, Prod.mk.injEq] at h
        obtain ⟨h1, h2⟩ := h
        subst h1
        exact ⟨v1, tr1, rfl, hf, h2.symm⟩

theorem identFold_some_trace (K : Constants) :
    ∀ (w : List (Int × PCFParameter)) (v v' : IdentVars) (tr : List Event),
      identFold K w v = Outcome.ok (some v', tr) → tr = decodeEvents 1 w := by
  intro w
  induction w with
  | nil =>
    intro v v' tr h
    simp only [identFold, Outcome.ok.injEq, Prod.mk.injEq] at h
    simp [decodeEvents, h.2.symm]
  | cons q w ih =>
    intro v v' tr h
    obtain ⟨v1, tr1, _, h2, h3⟩ := identFold_cons_some K q w v v' tr h
    rw [h3, ih v1 v' tr1 h2]
    simp [decodeEvents]

theorem identFold_preserve {β : Type} (K : Constants) (f : IdentVars → β) (p : Int)
    (hskip : ∀ e v v1, identStep K e v = Outcome.ok (some v1) → e.Parameter ≠ p → f v1 = f v) :
    ∀ (w : List (Int × PCFParameter)) (v v' : IdentVars) (tr : List Event),
      identFold K w v = Outcome.ok (some v', tr) →
      withParameter p (w.map Prod.snd) = [] → f v' = f v := by
  intro w
  induction w with
  | nil =>
    intro v v' tr h _
    simp only [identFold, Outcome.ok.injEq, Prod.mk.injEq, Option.some.injEq] at h
    rw [h.1]
  | cons q w ih =>
    intro v v' tr h hnone
    obtain ⟨v1, tr1, h1, h2, _⟩ := identFold_cons_some K q w v v' tr h
    simp only [withParameter, List.map_cons, List.filter_cons] at hnone
    by_cases hq : q.2.Parameter = p
    · simp [hq] at hnone
    · simp only [hq, decide_False, Bool.false_eq_true, if_false] at hnone
      rw [ih v1 v' tr1 h2 hnone, hskip _ _ _ h1 hq]

theorem identFold_unique {β : Type} (K : Constants) (f : IdentVars → β) (p : Int)
    (g : PCFParameter → β → β)
    (hskip : ∀ e v v1, identStep K e v = Outcome.ok (some v1) → e.Parameter ≠ p → f v1 = f v)
    (hset : ∀ e v v1, identStep K e v = Outcome.ok (some v1) → e.Parameter = p →
      f v1 = g e (f v)) :
    ∀ (w : List (Int × PCFParameter)) (v v' : IdentVars) (tr : List Event) (b : PCFParameter),
      identFold K w v = Outcome.ok (some v', tr) →
      withParameter p (w.map Prod.snd) = [b] → f v' = g b (f v) := by
  intro w
  induction w with
  | nil =>
    intro v v' tr b _ hb
    simp [withParameter] at hb
  | cons q w ih =>
    intro v v' tr b h hb
    obtain ⟨v1, tr1, h1, h2, _⟩ := identFold_cons_some K q w v v' tr h
    simp only [withParameter, List.map_cons, List.filter_cons] at hb
    by_cases hq : q.2.Parameter = p
    · simp only [hq, decide_True, if_true, List.cons.injEq] at hb
      obtain ⟨hb1, hb2⟩ := hb
      subst hb1
      rw [identFold_preserve K f p hskip w v1 v' tr1 h2 hb2, hset _ _ _ h1 hq]
    · simp only [hq, decide_False, Bool.false_eq_true, if_false] at hb
      rw [ih v1 v' tr1 b h2 hb, hskip _ _ _ h1 hq]

theorem identFold_ok (K : Constants) :
    ∀ (w : List (Int × PCFParameter)) (v : IdentVars),
      (∀ e ∈ w.map Prod.snd, HasValue K e) →
      (∀ e ∈ w.map Prod.snd, e.Parameter = K.MQIACF_USAGE_TYPE →
        ∀ x, e.Int64Value.head? = some x → KnownUsageType K x) →
      ∃ v', identFold K w v = Outcome.ok (some v', decodeEvents 1 w) := by
  intro w
  induction w with
  | nil => intro v _ _; exact ⟨v, rfl⟩
  | cons q w ih =>
    intro v hval hknown
    have hq : q.2 ∈ (q :: w).map Prod.snd := by simp
    cases hs : identStep K q.2 v with
    | panic => exact absurd hs (identStep_ne_panic K q.2 v (hval _ hq))
    | outOfFuel => exact absurd hs (identStep_ne_outOfFuel K q.2 v)
    | ok r =>
      cases r with
      | none =>
        obtain ⟨hp, x, hx, hbad⟩ := (identStep_abort_iff K q.2 v).1 hs
        exact absurd (hknown _ hq hp x hx) hbad
      | some v1 =>
        obtain ⟨v', hv'⟩ := ih v1 (fun e he => hval e (by simp at he ⊢; exact Or.inr he))
          (fun e he => hknown e (by simp at he ⊢; exact Or.inr he))
        exact ⟨v', by simp [identFold, hs, hv', decodeEvents]⟩

theorem identFold_abort (K : Constants) :
    ∀ (w : List (Int × PCFParameter)) (v : IdentVars) (u : PCFParameter) (x : Int),
      (∀ e ∈ w.map Prod.snd, HasValue K e) →
      u ∈ w.map Prod.snd → u.Parameter = K.MQIACF_USAGE_TYPE →
      u.Int64Value.head? = some x → ¬ KnownUsageType K x →
      ∃ tr, identFold K w v = Outcome.ok (none, tr) ∧ tr <+: decodeEvents 1 w ∧ tr ≠ [] := by
  intro w
  induction w with
  | nil => intro v u x _ hu; simp at hu
  | cons q w ih =>
    intro v u x hval hu hup hux hbad
    have hq : q.2 ∈ (q :: w).map Prod.snd := by simp
    cases hs : identStep K q.2 v with
    | panic => exact absurd hs (identStep_ne_panic K q.2 v (hval _ hq))
    | outOfFuel => exact absurd hs (identStep_ne_outOfFuel K q.2 v)
    | ok r =>
      cases r with
      | none =>
        refine ⟨[Event.decode 1 q.1 q.2], by simp [identFold, hs], ?_, by simp⟩
        simp [decodeEvents, List.prefix_cons_inj, List.nil_prefix]
      | some v1 =>
        have hu' : u ∈ w.map Prod.snd := by
          simp only [List.map_cons, List.mem_cons] at hu
          rcases hu with hu | hu
          · have := (identStep_abort_iff K q.2 v).2 ⟨hu ▸ hup, x, hu ▸ hux, hbad⟩
            rw [this] at hs
            simp at hs
          · exact hu
        obtain ⟨tr, htr, hpre, _⟩ := ih v1 u x
          (fun e he => hval e (by simp at he ⊢; exact Or.inr he)) hu' hup hux hbad
        refine ⟨Event.decode 1 q.1 q.2 :: tr, by simp [identFold, hs, htr], ?_, by simp⟩
        simpa [decodeEvents, List.prefix_cons_inj] using hpre

theorem attr_names_ne : ATTR_BP_LOCATION ≠ ATTR_BP_ID ∧ ATTR_BP_CLASS ≠ ATTR_BP_ID ∧
    ATTR_BP_CLASS ≠ ATTR_BP_LOCATION ∧ ATTR_PS_BPID ≠ ATTR_PS_ID := by decide

theorem identFold_bpLocation (K : Constants) (hK : K.Valid) (w : List (Int × PCFParameter))
    (v : IdentVars) (tr : List Event) (lo : Option PCFParameter)
    (h : identFold K w {} = Outcome.ok (some v, tr))
    (hloc : withParameter K.MQIACF_BUFFER_POOL_LOCATION (w.map Prod.snd) = lo.toList) :
    v.bpLocation = locationOf K lo := by
  cases lo with
  | none =>
    exact identFold_preserve K (fun v => v.bpLocation) _
      (fun e v v1 h hp => identStep_bpLocation_skip K e v v1 h hp) w {} v tr h hloc
  | some l =>
    have := identFold_unique K (fun v => v.bpLocation) _
      (fun e old => if locationLabel K (e.Int64Value.headD 0) = "" then old
        else locationLabel K (e.Int64Value.headD 0))
      (fun e v v1 h hp => identStep_bpLocation_skip K e v v1 h hp)
      (fun e v v1 h hp => identStep_bpLocation_set K hK e v v1 h hp) w {} v tr l h hloc
    simp only [locationOf] at this ⊢
    rw [this]
    split_ifs with hl
    · exact hl.symm
    · rfl

theorem identFold_bpClass (K : Constants) (hK : K.Valid) (w : List (Int × PCFParameter))
    (v : IdentVars) (tr : List Event) (co : Option PCFParameter)
    (h : identFold K w {} = Outcome.ok (some v, tr))
    (hcls : withParameter K.MQIACF_PAGECLAS (w.map Prod.snd) = co.toList) :
    v.bpClass = pageClassOf K co := by
  cases co with
  | none =>
    exact identFold_preserve K (fun v => v.bpClass) _
      (fun e v v1 h hp => identStep_bpClass_skip K e v v1 h hp) w {} v tr h hcls
  | some c =>
    have := identFold_unique K (fun v => v.bpClass) _
      (fun e old => if pageClassLabel K (e.Int64Value.headD 0) = "" then old
        else pageClassLabel K (e.Int64Value.headD 0))
      (fun e v v1 h hp => identStep_bpClass_skip K e v v1 h hp)
      (fun e v v1 h hp => identStep_bpClass_set K hK e v v1 h hp) w {} v tr c h hcls
    simp only [pageClassOf] at this ⊢
    rw [this]
    split_ifs with hl
    · exact hl.symm
    · rfl

theorem identFold_bpId (K : Constants) (hK : K.Valid) (w : List (Int × PCFParameter))
    (v : IdentVars) (tr : List Event) (b : PCFParameter) (n : Int)
    (h : identFold K w {} = Outcome.ok (some v, tr))
    (hid : withParameter K.MQIACF_BUFFER_POOL_ID (w.map Prod.snd) = [b])
    (hn : b.Int64Value.head? = some n) : v.bpId = FormatInt n := by
  have := identFold_unique K (fun v => v.bpId) _
    (fun e _ => FormatInt (e.Int64Value.headD 0))
    (fun e v v1 h hp => identStep_bpId_skip K e v v1 h hp)
    (fun e v v1 h hp => identStep_bpId_set K hK e v v1 h hp) w {} v tr b h hid
  simp only at this
  rw [this]
  cases hl : b.Int64Value with
  | nil => simp [hl] at hn
  | cons x l =>
    simp only [hl, List.head?_cons, Option.some.injEq] at hn
    simp [hn]

theorem identFold_responseType (K : Constants) (w : List (Int × PCFParameter))
    (v : IdentVars) (tr : List Event) (u : PCFParameter) (x : Int)
    (h : identFold K w {} = Outcome.ok (some v, tr))
    (htype : withParameter K.MQIACF_USAGE_TYPE (w.map Prod.snd) = [u])
    (hx : u.Int64Value.head? = some x) : v.responseType = toInt32 x := by
  have := identFold_unique K (fun v => v.responseType) _
    (fun e _ => toInt32 (e.Int64Value.headD 0))
    (fun e v v1 h hp => identStep_responseType_skip K e v v1 h hp)
    (fun e v v1 h hp => (identStep_responseType_set K e v v1 h hp).1) w {} v tr u h htype
  simp only at this
  rw [this]
  cases hl : u.Int64Value with
  | nil => simp [hl] at hx
  | cons y l =>
    simp only [hl, List.head?_cons, Option.some.injEq] at hx
    simp [hx]

theorem parseUsageData_bp_core (K : Constants) (hK : K.Valid)
    (rd : List Nat → PCFParameter × Int)
    (sgia : StatusSet → PCFParameter → String → StatusSet) (hsgia : PreservesPseudo sgia)
    (fuel fuel1 : Nat) (hfuel : fuel ≤ fuel1) (cfh : MQCFH) (buf : List Nat) (s : Usage)
    (w : List (Int × PCFParameter)) (u : PCFParameter) (lo co : Option PCFParameter)
    (hcount : cfh.ParameterCount ≠ 0) (hcc : cfh.CompCode ≠ K.MQCC_FAILED)
    (hready : s.Ready)
    (hwalk : decodeWalk rd buf fuel 0 = Outcome.ok w)
    (hval : ∀ e ∈ w.map Prod.snd, HasValue K e)
    (htype : withParameter K.MQIACF_USAGE_TYPE (w.map Prod.snd) = [u])
    (htypev : u.Int64Value.head? = some K.MQIACF_USAGE_BUFFER_POOL)
    (hloc : withParameter K.MQIACF_BUFFER_POOL_LOCATION (w.map Prod.snd) = lo.toList)
    (hcls : withParameter K.MQIACF_PAGECLAS (w.map Prod.snd) = co.toList) :
    ∃ key s1,
      parseUsageData K rd sgia fuel1 (some cfh) buf s =
        Outcome.ok (key, s1,
          decodeEvents 1 w ++
          [Event.setValue UsageSet.Bp ATTR_BP_ID key (StatusValue.ValueString key),
           Event.setValue UsageSet.Bp ATTR_BP_LOCATION key
             (StatusValue.ValueString (locationOf K lo)),
           Event.setValue UsageSet.Bp ATTR_BP_CLASS key
             (StatusValue.ValueString (pageClassOf K co))] ++
          populateEvents UsageSet.Bp key w) ∧
      (∀ b n, withParameter K.MQIACF_BUFFER_POOL_ID (w.map Prod.snd) = [b] →
        b.Int64Value.head? = some n → key = FormatInt n) ∧
      s1.UsageBpStatus.PseudoHolds ATTR_BP_ID key (StatusValue.ValueString key) ∧
      s1.UsageBpStatus.PseudoHolds ATTR_BP_LOCATION key
        (StatusValue.ValueString (locationOf K lo)) ∧
      s1.UsageBpStatus.PseudoHolds ATTR_BP_CLASS key
        (StatusValue.ValueString (pageClassOf K co)) ∧
      s1.UsagePsStatus = s.UsagePsStatus := by
  have hbp : toInt32 K.MQIACF_USAGE_BUFFER_POOL = K.MQIACF_USAGE_BUFFER_POOL :=
    Constants.Valid.toInt32_eq K hK _ (by simp)
  have hknown : ∀ e ∈ w.map Prod.snd, e.Parameter = K.MQIACF_USAGE_TYPE →
      ∀ x, e.Int64Value.head? = some x → KnownUsageType K x := by
    intro e he hp x hx
    have hmem : e ∈ withParameter K.MQIACF_USAGE_TYPE (w.map Prod.snd) := by
      simp only [withParameter, List.mem_filter, decide_eq_true_eq]
      exact ⟨he, hp⟩
    rw [htype, List.mem_singleton] at hmem
    subst hmem
    rw [htypev, Option.some.injEq] at hx
    subst hx
    exact Or.inl hbp
  obtain ⟨v, hv⟩ := identFold_ok K w {} hval hknown
  have hloop := identLoop_of_walk K rd cfh buf hcc fuel1 0 w {}
    (decodeWalk_mono rd buf fuel fuel1 0 w hwalk hfuel)
  have hrt : v.responseType = K.MQIACF_USAGE_BUFFER_POOL := by
    rw [identFold_responseType K w v _ u _ hv htype htypev, hbp]
  have hbl := identFold_bpLocation K hK w v _ lo hv hloc
  have hbc := identFold_bpClass K hK w v _ co hv hcls
  obtain ⟨h1, h2, h3, -, -⟩ := hready
  obtain ⟨n1, n2, n3, -⟩ := attr_names_ne
  obtain ⟨t1, ht1⟩ := StatusSet.setValue_isSome s.UsageBpStatus ATTR_BP_ID v.bpId
    (newStatusValueString v.bpId) h1
  obtain ⟨t2, ht2⟩ := StatusSet.setValue_isSome t1 ATTR_BP_LOCATION v.bpId
    (newStatusValueString v.bpLocation) (StatusSet.setValue_hasPseudo _ _ _ _ _ _ ht1 h2)
  obtain ⟨t3, ht3⟩ := StatusSet.setValue_isSome t2 ATTR_BP_CLASS v.bpId
    (newStatusValueString v.bpClass)
    (StatusSet.setValue_hasPseudo _ _ _ _ _ _ ht2 (StatusSet.setValue_hasPseudo _ _ _ _ _ _ ht1 h3))
  have e1 : t3.PseudoHolds ATTR_BP_ID v.bpId (newStatusValueString v.bpId) :=
    StatusSet.setValue_pseudoHolds_ne _ _ _ _ _ _ _ _ ht3 (Ne.symm n2)
      (StatusSet.setValue_pseudoHolds_ne _ _ _ _ _ _ _ _ ht2 (Ne.symm n1)
        (StatusSet.setValue_pseudoHolds _ _ _ _ _ ht1 h1))
  have e2 : t3.PseudoHolds ATTR_BP_LOCATION v.bpId (newStatusValueString v.bpLocation) :=
    StatusSet.setValue_pseudoHolds_ne _ _ _ _ _ _ _ _ ht3 (Ne.symm n3)
      (StatusSet.setValue_pseudoHolds _ _ _ _ _ ht2
        (StatusSet.setValue_hasPseudo _ _ _ _ _ _ ht1 h2))
  have e3 : t3.PseudoHolds ATTR_BP_CLASS v.bpId (newStatusValueString v.bpClass) :=
    StatusSet.setValue_pseudoHolds _ _ _ _ _ ht3
      (StatusSet.setValue_hasPseudo _ _ _ _ _ _ ht2
        (StatusSet.setValue_hasPseudo _ _ _ _ _ _ ht1 h3))
  have hpop := populateLoop_of_walk K rd sgia cfh buf UsageSet.Bp v.bpId hcc fuel1 0 w t3
    (decodeWalk_mono rd buf fuel fuel1 0 w hwalk hfuel)
  refine ⟨v.bpId, { s with UsageBpStatus := w.foldl (fun t1 p => sgia t1 p.2 v.bpId) t3 },
    ?_, ?_, ?_, ?_, ?_, rfl⟩
  · simp only [newStatusValueString] at ht1 ht2 ht3
    simp only [parseUsageData, hcount, if_false, hloop, hv, hrt, if_true, newStatusValueString,
      ht1, ht2, ht3, Option.some_bind, hpop, ← hbl, ← hbc]
  · intro b n hb hn
    exact identFold_bpId K hK w v _ b n hv hb hn
  · exact foldl_sgia_pseudoHolds sgia hsgia _ _ _ _ w t3 e1
  · rw [← hbl]
    exact foldl_sgia_pseudoHolds sgia hsgia _ _ _ _ w t3 e2
  · rw [← hbc]
    exact foldl_sgia_pseudoHolds sgia hsgia _ _ _ _ w t3 e3

theorem GoMap.get_map_fixed (F : String × StatusAttribute → String × StatusAttribute)
    (hF1 : ∀ p, (F p).1 = p.1) (hF2 : ∀ p, p.2.pcfAttr = none → F p = p) (a : String)
    (attr : StatusAttribute) (hn : attr.pcfAttr = none) :
    ∀ m : GoMap StatusAttribute, m.get a = some attr → GoMap.get (m.map F) a = some attr := by
  intro m
  induction m with
  | nil => intro h; simp [GoMap.get] at h
  | cons p m ih =>
    intro h
    obtain ⟨k, x⟩ := p
    have h1 := hF1 (k, x)
    by_cases hk : k = a
    · simp only [GoMap.get, hk, if_true, Option.some.injEq] at h
      subst h
      rw [List.map_cons, hF2 (k, x) hn]
      simp [GoMap.get, hk]
    · simp only [GoMap.get, hk, if_false] at h
      rw [List.map_cons]
      rcases hfp : F (k, x) with ⟨k1, x1⟩
      rw [hfp] at h1
      simp only at h1
      subst h1
      simp only [GoMap.get, hk, if_false]
      exact ih h

theorem statusGetIntAttributes_preservesPseudo : PreservesPseudo statusGetIntAttributes := by
  intro t e k a attr hg hn
  unfold statusGetIntAttributes
  cases e.Int64Value.head? with
  | none => exact hg
  | some x =>
    simp only
    split_ifs with hx
    · exact hg
    · apply GoMap.get_map_fixed _ _ _ a attr hn _ hg
      · intro p
        split_ifs <;> rfl
      · intro p hp
        simp [hp]

theorem polledUsage_ready : polledUsage.Ready :=
  ⟨⟨_, rfl, rfl⟩, ⟨_, rfl, rfl⟩, ⟨_, rfl, rfl⟩, ⟨_, rfl, rfl⟩, ⟨_, rfl, rfl⟩⟩

theorem parseUsageData_eq_storeUsage (K : Constants) (rd : List Nat → PCFParameter × Int)
    (sgia : StatusSet → PCFParameter → String → StatusSet) (fuel : Nat) (cfh : MQCFH)
    (buf : List Nat) (s : Usage) (w : List (Int × PCFParameter)) (v : IdentVars)
    (tr1 : List Event) (hcount : cfh.ParameterCount ≠ 0)
    (hloop : identLoop K rd cfh buf fuel true 0 {} = Outcome.ok (some v, tr1))
    (hpop : ∀ set key t, populateLoop K rd sgia cfh buf set key fuel true 0 t =
      Outcome.ok (w.foldl (fun t1 p => sgia t1 p.2 key) t, populateEvents set key w)) :
    parseUsageData K rd sgia fuel (some cfh) buf s = storeUsage K sgia s w v tr1 := by
  simp only [parseUsageData, hcount, if_false, hloop, storeUsage]
  split_ifs with hrt
  · cases hw : ((s.UsageBpStatus.setValue ATTR_BP_ID v.bpId (newStatusValueString v.bpId)).bind
        (fun t => t.setValue ATTR_BP_LOCATION v.bpId (newStatusValueString v.bpLocation))).bind
        (fun t => t.setValue ATTR_BP_CLASS v.bpId (newStatusValueString v.bpClass)) with
    | none => rfl
    | some t => simp only [hpop]
  · cases hw : (s.UsagePsStatus.setValue ATTR_PS_ID v.psId (newStatusValueString v.psId)).bind
        (fun t => t.setValue ATTR_PS_BPID v.psId (newStatusValueString v.bpId)) with
    | none => rfl
    | some t => simp only [hpop]

theorem storeUsage_ready (K : Constants) (sgia : StatusSet → PCFParameter → String → StatusSet)
    (s : Usage) (w : List (Int × PCFParameter)) (v : IdentVars) (tr1 : List Event)
    (hready : s.Ready) :
    ∃ set key s1 writes,
      storeUsage K sgia s w v tr1 =
        Outcome.ok (key, s1, tr1 ++ writes ++ populateEvents set key w) ∧
      writes ≠ [] ∧ (∀ ev ∈ writes, ∃ a val, ev = Event.setValue set a key val) ∧
      (PreservesPseudo sgia → s1.Ready) := by
  obtain ⟨h1, h2, h3, h4, h5⟩ := hready
  unfold storeUsage
  split_ifs with hrt
  · obtain ⟨t1, ht1⟩ := StatusSet.setValue_isSome s.UsageBpStatus ATTR_BP_ID v.bpId
      (newStatusValueString v.bpId) h1
    have p1 := StatusSet.setValue_hasPseudo _ _ _ ATTR_BP_ID _ _ ht1 h1
    have p2 := StatusSet.setValue_hasPseudo _ _ _ ATTR_BP_LOCATION _ _ ht1 h2
    have p3 := StatusSet.setValue_hasPseudo _ _ _ ATTR_BP_CLASS _ _ ht1 h3
    obtain ⟨t2, ht2⟩ := StatusSet.setValue_isSome t1 ATTR_BP_LOCATION v.bpId
      (newStatusValueString v.bpLocation) p2
    have q1 := StatusSet.setValue_hasPseudo _ _ _ ATTR_BP_ID _ _ ht2 p1
    have q2 := StatusSet.setValue_hasPseudo _ _ _ ATTR_BP_LOCATION _ _ ht2 p2
    have q3 := StatusSet.setValue_hasPseudo _ _ _ ATTR_BP_CLASS _ _ ht2 p3
    obtain ⟨t3, ht3⟩ := StatusSet.setValue_isSome t2 ATTR_BP_CLASS v.bpId
      (newStatusValueString v.bpClass) q3
    have r1 := StatusSet.setValue_hasPseudo _ _ _ ATTR_BP_ID _ _ ht3 q1
    have r2 := StatusSet.setValue_hasPseudo _ _ _ ATTR_BP_LOCATION _ _ ht3 q2
    have r3 := StatusSet.setValue_hasPseudo _ _ _ ATTR_BP_CLASS _ _ ht3 q3
    have hw : ((s.UsageBpStatus.setValue ATTR_BP_ID v.bpId (newStatusValueString v.bpId)).bind
        (fun t => t.setValue ATTR_BP_LOCATION v.bpId (newStatusValueString v.bpLocation))).bind
        (fun t => t.setValue ATTR_BP_CLASS v.bpId (newStatusValueString v.bpClass)) = some t3 := by
      simp only [ht1, ht2, ht3, Option.some_bind]
    simp only [hw]
    refine ⟨UsageSet.Bp, v.bpId, _, _, rfl, ?_, ?_, ?_⟩
    · simp
    · intro ev hev
      simp only [List.mem_cons, List.mem_singleton, List.not_mem_nil, or_false] at hev
      rcases hev with rfl | rfl | rfl
      · exact ⟨_, _, rfl⟩
      · exact ⟨_, _, rfl⟩
      · exact ⟨_, _, rfl⟩
    · intro hsgia
      exact ⟨foldl_sgia_hasPseudo sgia hsgia _ _ w t3 r1,
        foldl_sgia_hasPseudo sgia hsgia _ _ w t3 r2,
        foldl_sgia_hasPseudo sgia hsgia _ _ w t3 r3, h4, h5⟩
  · obtain ⟨t1, ht1⟩ := StatusSet.setValue_isSome s.UsagePsStatus ATTR_PS_ID v.psId
      (newStatusValueString v.psId) h4
    have p1 := StatusSet.setValue_hasPseudo _ _ _ ATTR_PS_ID _ _ ht1 h4
    have p2 := StatusSet.setValue_hasPseudo _ _ _ ATTR_PS_BPID _ _ ht1 h5
    obtain ⟨t2, ht2⟩ := StatusSet.setValue_isSome t1 ATTR_PS_BPID v.psId
      (newStatusValueString v.bpId) p2
    have q1 := StatusSet.setValue_hasPseudo _ _ _ ATTR_PS_ID _ _ ht2 p1
    have q2 := StatusSet.setValue_hasPseudo _ _ _ ATTR_PS_BPID _ _ ht2 p2
    have hw : (s.UsagePsStatus.setValue ATTR_PS_ID v.psId (newStatusValueString v.psId)).bind
        (fun t => t.setValue ATTR_PS_BPID v.psId (newStatusValueString v.bpId)) = some t2 := by
      simp only [ht1, ht2, Option.some_bind]
    simp only [hw]
    refine ⟨UsageSet.Ps, v.psId, _, _, rfl, ?_, ?_, ?_⟩
    · simp
    · intro ev hev
      simp only [List.mem_cons, List.mem_singleton, List.not_mem_nil, or_false] at hev
      rcases hev with rfl | rfl
      · exact ⟨_, _, rfl⟩
      · exact ⟨_, _, rfl⟩
    · intro hsgia
      exact ⟨h1, h2, h3, foldl_sgia_hasPseudo sgia hsgia _ _ w t2 q1,
        foldl_sgia_hasPseudo sgia hsgia _ _ w t2 q2⟩

theorem walk_of_identLoop (K : Constants) (rd : List Nat → PCFParameter × Int) (cfh : MQCFH)
    (buf : List Nat) (hcc : cfh.CompCode ≠ K.MQCC_FAILED) :
    ∀ (fuel : Nat) (offset : Int) (v v' : IdentVars) (tr : List Event),
      identLoop K rd cfh buf fuel true offset v = Outcome.ok (some v', tr) →
      ∃ w, decodeWalk rd buf fuel offset = Outcome.ok w := by
  intro fuel
  induction fuel with
  | zero => intro offset v v' tr h; simp [identLoop, hcc] at h
  | succ n ih =>
    intro offset v v' tr h
    simp only [identLoop, hcc, ne_eq, not_false_eq_true, and_self, if_true] at h
    simp only [decodeWalk]
    cases hs : sliceFrom buf offset with
    | none => simp [hs] at h
    | some b =>
      simp only [hs] at h ⊢
      by_cases hend : offset + (rd b).2 ≥ buf.length
      · simp only [hend, if_true]
        exact ⟨_, rfl⟩
      · simp only [hend, if_false] at h ⊢
        cases hstep : identStep K (rd b).1 v with
        | panic => simp [hstep] at h
        | outOfFuel => simp [hstep] at h
        | ok r =>
          cases r with
          | none => simp [hstep] at h
          | some v1 =>
            simp only [hstep] at h
            cases hrec : identLoop K rd cfh buf n true (offset + (rd b).2) v1 with
            | panic => simp [hrec] at h
            | outOfFuel => simp [hrec] at h
            | ok r1 =>
              obtain ⟨r2, tr2⟩ := r1
              simp only [hrec, Outcome.ok.injEq, Prod.mk.injEq] at h
              obtain ⟨h1, _⟩ := h
              subst h1
              obtain ⟨w1, hw1⟩ := ih _ v1 v' tr2 hrec
              simp only [hw1]
              exact ⟨_, rfl⟩

theorem passes_stable (K : Constants) (rd : List Nat → PCFParameter × Int)
    (sgia : StatusSet → PCFParameter → String → StatusSet) (cfh : MQCFH) (buf : List Nat)
    (fuel : Nat) (v : IdentVars) (tr1 : List Event)
    (h : identLoop K rd cfh buf fuel true 0 {} = Outcome.ok (some v, tr1)) :
    ∃ w, tr1 = decodeEvents 1 w ∧ ∀ fuel1, fuel ≤ fuel1 →
      identLoop K rd cfh buf fuel1 true 0 {} = Outcome.ok (some v, tr1) ∧
      ∀ set key t, populateLoop K rd sgia cfh buf set key fuel1 true 0 t =
        Outcome.ok (w.foldl (fun t1 p => sgia t1 p.2 key) t, populateEvents set key w) := by
  by_cases hcc : cfh.CompCode = K.MQCC_FAILED
  · rw [identLoop_failed K rd cfh buf fuel true 0 {} hcc] at h
    simp only [Outcome.ok.injEq, Prod.mk.injEq, Option.some.injEq] at h
    obtain ⟨hv, htr⟩ := h
    subst hv
    subst htr
    refine ⟨[], rfl, fun fuel1 _ => ⟨identLoop_failed K rd cfh buf fuel1 true 0 {} hcc, ?_⟩⟩
    intro set key t
    rw [populateLoop_failed K rd sgia cfh buf set key fuel1 true 0 t hcc]
    rfl
  · obtain ⟨w, hw⟩ := walk_of_identLoop K rd cfh buf hcc fuel 0 {} v tr1 h
    have hf := identLoop_of_walk K rd cfh buf hcc fuel 0 w {} hw
    rw [h] at hf
    refine ⟨w, identFold_some_trace K w {} v tr1 hf.symm, fun fuel1 hle => ⟨?_, ?_⟩⟩
    · rw [identLoop_of_walk K rd cfh buf hcc fuel1 0 w {} (decodeWalk_mono rd buf fuel fuel1 0 w hw hle)]
      exact hf.symm
    · intro set key t
      exact populateLoop_of_walk K rd sgia cfh buf set key hcc fuel1 0 w t
        (decodeWalk_mono rd buf fuel fuel1 0 w hw hle)

theorem decodedIn_decodeEvents_same (pass : Nat) (w : List (Int × PCFParameter)) :
    (decodeEvents pass w).filterMap (Event.decodedIn pass) = w := by
  induction w with
  | nil => rfl
  | cons p w ih =>
    simp only [decodeEvents, List.map_cons] at ih ⊢
    simp [List.filterMap_cons, Event.decodedIn, ih]

theorem decodedIn_decodeEvents_other (pass q : Nat) (hne : pass ≠ q)
    (w : List (Int × PCFParameter)) :
    (decodeEvents pass w).filterMap (Event.decodedIn q) = [] := by
  induction w with
  | nil => rfl
  | cons p w ih =>
    simp only [decodeEvents, List.map_cons] at ih ⊢
    simp [List.filterMap_cons, Event.decodedIn, ih, hne]

theorem decodedIn_populateEvents_two (set : UsageSet) (key : String)
    (w : List (Int × PCFParameter)) :
    (populateEvents set key w).filterMap (Event.decodedIn 2) = w := by
  induction w with
  | nil => rfl
  | cons p w ih => simp [populateEvents, List.filterMap_cons, Event.decodedIn, ih]

theorem decodedIn_populateEvents_one (set : UsageSet) (key : String)
    (w : List (Int × PCFParameter)) :
    (populateEvents set key w).filterMap (Event.decodedIn 1) = [] := by
  induction w with
  | nil => rfl
  | cons p w ih => simp [populateEvents, List.filterMap_cons, Event.decodedIn, ih]

theorem decodedIn_writes (set : UsageSet) (key : String) (pass : Nat) (writes : List Event)
    (h : ∀ ev ∈ writes, ∃ a val, ev = Event.setValue set a key val) :
    writes.filterMap (Event.decodedIn pass) = [] := by
  induction writes with
  | nil => rfl
  | cons e l ih =>
    obtain ⟨a, val, rfl⟩ := h e (by simp)
    simp only [List.filterMap_cons, Event.decodedIn]
    exact ih (fun ev hev => h ev (List.mem_cons_of_mem _ hev))

theorem instanceKey_populateEvents (set : UsageSet) (key : String)
    (w : List (Int × PCFParameter)) :
    ∀ ev ∈ populateEvents set key w, ∀ k, ev.instanceKey = some k → k = key := by
  induction w with
  | nil => intro ev hev; simp [populateEvents] at hev
  | cons p w ih =>
    intro ev hev k hk
    simp only [populateEvents, List.mem_cons] at hev
    rcases hev with rfl | rfl | hev
    · simp [Event.instanceKey] at hk
    · simp only [Event.instanceKey, Option.some.injEq] at hk
      exact hk.symm
    · exact ih ev hev k hk

theorem instanceKey_decodeEvents (pass : Nat) (w : List (Int × PCFParameter)) :
    ∀ ev ∈ decodeEvents pass w, ev.instanceKey = none := by
  intro ev hev
  simp only [decodeEvents, List.mem_map] at hev
  obtain ⟨p, _, rfl⟩ := hev
  rfl

theorem sliceFrom_in_range (buf : List Nat) (offset : Int) (h0 : 0 ≤ offset)
    (h1 : offset ≤ buf.length) : sliceFrom buf offset = some (buf.drop offset.toNat) := by
  simp [sliceFrom, h0, h1]

theorem identFold_prefix (K : Constants) :
    ∀ (w : List (Int × PCFParameter)) (v : IdentVars) (r : Option IdentVars) (tr : List Event),
      identFold K w v = Outcome.ok (r, tr) →
      tr <+: decodeEvents 1 w ∧ (w ≠ [] → tr ≠ []) := by
  intro w
  induction w with
  | nil =>
    intro v r tr h
    simp only [identFold, Outcome.ok.injEq, Prod.mk.injEq] at h
    simp [← h.2, decodeEvents]
  | cons q w ih =>
    intro v r tr h
    simp only [identFold] at h
    cases hs : identStep K q.2 v with
    | panic => simp [hs] at h
    | outOfFuel => simp [hs] at h
    | ok r1 =>
      cases r1 with
      | none =>
        simp only [hs, Outcome.ok.injEq, Prod.mk.injEq] at h
        simp [← h.2, decodeEvents, List.prefix_cons_inj, List.nil_prefix]
      | some v1 =>
        simp only [hs] at h
        cases hf : identFold K w v1 with
        | panic => simp [hf] at h
        | outOfFuel => simp [hf] at h
        | ok r2 =>
          obtain ⟨r3, tr3⟩ := r2
          simp only [hf, Outcome.ok.injEq, Prod.mk.injEq] at h
          obtain ⟨hp, _⟩ := ih v1 r3 tr3 hf
          rw [← h.2]
          refine ⟨?_, by simp⟩
          simpa [decodeEvents, List.prefix_cons_inj] using hp

theorem identFold_ne_outOfFuel (K : Constants) :
    ∀ (w : List (Int × PCFParameter)) (v : IdentVars), identFold K w v ≠ Outcome.outOfFuel := by
  intro w
  induction w with
  | nil => intro v; simp [identFold]
  | cons q w ih =>
    intro v
    simp only [identFold]
    cases hs : identStep K q.2 v with
    | panic => simp
    | outOfFuel => exact absurd hs (identStep_ne_outOfFuel K q.2 v)
    | ok r1 =>
      cases r1 with
      | none => simp
      | some v1 =>
        simp only
        cases hf : identFold K w v1 with
        | panic => simp
        | outOfFuel => exact absurd hf (ih v1)
        | ok r2 => simp

theorem identStep_continues (K : Constants) (e : PCFParameter) (v v1 v' : IdentVars)
    (h : identStep K e v = Outcome.ok (some v1)) : ∃ v1', identStep K e v' = Outcome.ok (some v1') := by
  cases hs : identStep K e v' with
  | outOfFuel => exact absurd hs (identStep_ne_outOfFuel K e v')
  | panic =>
    exfalso
    unfold identStep at h hs
    cases hv : e.Int64Value.head? with
    | none =>
      simp only [hv] at h hs
      split_ifs at h hs
    | some x =>
      simp only [hv] at h hs
      split_ifs at h hs
  | ok r =>
    cases r with
    | some v1' => exact ⟨v1', rfl⟩
    | none =>
      have := (identStep_abort_iff K e v).2 ((identStep_abort_iff K e v').1 hs)
      rw [this] at h
      simp at h

theorem populateLoop_stuck (K : Constants) (rd : List Nat → PCFParameter × Int)
    (sgia : StatusSet → PCFParameter → String → StatusSet) (cfh : MQCFH) (buf : List Nat)
    (set : UsageSet) (key : String) (hcc : cfh.CompCode ≠ K.MQCC_FAILED) (hne : buf ≠ [])
    (hzero : (rd buf).2 = 0) :
    ∀ (fuel : Nat) (t : StatusSet),
      populateLoop K rd sgia cfh buf set key fuel true 0 t = Outcome.outOfFuel := by
  have hlen : ¬ ((0 : Int) ≥ buf.length) := by
    have : 0 < buf.length := List.length_pos.mpr hne
    omega
  intro fuel
  induction fuel with
  | zero => intro t; simp [populateLoop, hcc]
  | succ n ih =>
    intro t
    have hs : sliceFrom buf 0 = some buf := by simp [sliceFrom]
    simp only [populateLoop, hcc, ne_eq, not_false_eq_true, and_self, if_true, hs, hzero,
      add_zero, hlen, if_false, ih]

theorem identLoop_stuck (K : Constants) (rd : List Nat → PCFParameter × Int)
    (cfh : MQCFH) (buf : List Nat) (hcc : cfh.CompCode ≠ K.MQCC_FAILED) (hne : buf ≠ [])
    (hzero : (rd buf).2 = 0) :
    ∀ (fuel : Nat) (v v1 : IdentVars), identStep K (rd buf).1 v = Outcome.ok (some v1) →
      identLoop K rd cfh buf fuel true 0 v = Outcome.outOfFuel := by
  have hlen : ¬ ((0 : Int) ≥ buf.length) := by
    have : 0 < buf.length := List.length_pos.mpr hne
    omega
  intro fuel
  induction fuel with
  | zero => intro v v1 _; simp [identLoop, hcc]
  | succ n ih =>
    intro v v1 hstep
    have hs : sliceFrom buf 0 = some buf := by simp [sliceFrom]
    obtain ⟨v2, hv2⟩ := identStep_continues K (rd buf).1 v v1 v1 hstep
    simp only [identLoop, hcc, ne_eq, not_false_eq_true, and_self, if_true, hs, hzero,
      add_zero, hlen, if_false, hstep, ih v1 v2 hv2]

theorem identFold_ne_panic (K : Constants) :
    ∀ (w : List (Int × PCFParameter)) (v : IdentVars),
      (∀ e ∈ w.map Prod.snd, HasValue K e) → identFold K w v ≠ Outcome.panic := by
  intro w
  induction w with
  | nil => intro v _; simp [identFold]
  | cons q w ih =>
    intro v hval
    simp only [identFold]
    cases hs : identStep K q.2 v with
    | panic => exact absurd hs (identStep_ne_panic K q.2 v (hval _ (by simp)))
    | outOfFuel => simp
    | ok r1 =>
      cases r1 with
      | none => simp
      | some v1 =>
        simp only
        cases hf : identFold K w v1 with
        | panic => exact absurd hf (ih v1 (fun e he => hval e (by simp at he ⊢; exact Or.inr he)))
        | outOfFuel => simp
        | ok r2 => simp

theorem parseUsageData_returns (K : Constants) (rd : List Nat → PCFParameter × Int)
    (sgia : StatusSet → PCFParameter → String → StatusSet) (hsgia : PreservesPseudo sgia)
    (fuel : Nat) (r : Reply) (b : List Nat) (s : Usage) (hready : s.Ready)
    (hdec : r.decodable K rd fuel = true) (hb : r.buf = some b) :
    ∃ key s1 tr, parseUsageData K rd sgia fuel r.cfh b s = Outcome.ok (key, s1, tr) ∧
      s1.Ready := by
  cases hc : r.cfh with
  | none => exact ⟨"", s, [], rfl, hready⟩
  | some h =>
    by_cases hcount : h.ParameterCount = 0
    · exact ⟨"", s, [], by simp [parseUsageData, hcount], hready⟩
    · cases hid : identLoop K rd h b fuel true 0 {} with
      | ok res =>
        obtain ⟨ro, tr1⟩ := res
        cases ro with
        | none => exact ⟨"", s, tr1, by simp [parseUsageData, hcount, hid], hready⟩
        | some v =>
          obtain ⟨w, -, hst⟩ := passes_stable K rd sgia h b fuel v tr1 hid
          obtain ⟨set, key, s1, writes, hstore, -, -, hr⟩ :=
            storeUsage_ready K sgia s w v tr1 hready
          refine ⟨key, s1, tr1 ++ writes ++ populateEvents set key w, ?_, hr hsgia⟩
          rw [parseUsageData_eq_storeUsage K rd sgia fuel h b s w v tr1 hcount
            (hst fuel (le_refl fuel)).1 (hst fuel (le_refl fuel)).2, hstore]
      | panic =>
        exfalso
        by_cases hcc : h.CompCode = K.MQCC_FAILED
        · rw [identLoop_failed K rd h b fuel true 0 {} hcc] at hid
          simp at hid
        · simp only [Reply.decodable, hc, hb, hcount, hcc, or_self, if_false] at hdec
          cases hw : decodeWalk rd b fuel 0 with
          | ok w =>
            simp only [hw, List.all_eq_true, decide_eq_true_eq] at hdec
            rw [identLoop_of_walk K rd h b hcc fuel 0 w {} hw] at hid
            exact identFold_ne_panic K w {} (by
              intro e he
              simp only [List.mem_map] at he
              obtain ⟨p, hp, rfl⟩ := he
              exact hdec p hp) hid
          | panic => simp [hw] at hdec
          | outOfFuel => simp [hw] at hdec
      | outOfFuel =>
        exfalso
        by_cases hcc : h.CompCode = K.MQCC_FAILED
        · rw [identLoop_failed K rd h b fuel true 0 {} hcc] at hid
          simp at hid
        · simp only [Reply.decodable, hc, hb, hcount, hcc, or_self, if_false] at hdec
          cases hw : decodeWalk rd b fuel 0 with
          | ok w =>
            rw [identLoop_of_walk K rd h b hcc fuel 0 w {} hw] at hid
            exact identFold_ne_outOfFuel K w {} hid
          | panic => simp [hw] at hdec
          | outOfFuel => simp [hw] at hdec

theorem receiveLoop_until_last (K : Constants) (rd : List Nat → PCFParameter × Int)
    (sgia : StatusSet → PCFParameter → String → StatusSet) (hsgia : PreservesPseudo sgia)
    (fuel : Nat) (r : Reply) (post : List Reply) (hr : r.allReceived = true) :
    ∀ (pre : List Reply) (s : Usage), (∀ x ∈ pre, x.allReceived = false) → s.Ready →
      (∀ x ∈ pre ++ [r], x.decodable K rd fuel = true) →
      ∃ s1, receiveLoop K rd sgia fuel (pre ++ r :: post) s =
        Outcome.ok (r.err, s1, receiveEvents (pre ++ [r])) ∧ s1.Ready := by
  intro pre
  induction pre with
  | nil =>
    intro s _ hready hdec
    simp only [List.nil_append, receiveLoop, receiveEvents]
    cases hb : r.buf with
    | none => exact ⟨s, by simp [hr], hready⟩
    | some b =>
      obtain ⟨key, s1, tr, hp, hr1⟩ := parseUsageData_returns K rd sgia hsgia fuel r b s hready
        (hdec r (by simp)) hb
      exact ⟨s1, by simp [hp, hr], hr1⟩
  | cons x pre ih =>
    intro s hpre hready hdec
    have hx : x.allReceived = false := hpre x (by simp)
    simp only [List.cons_append, receiveLoop, receiveEvents]
    cases hb : x.buf with
    | none =>
      obtain ⟨s1, hs1, hr1⟩ := ih s (fun y hy => hpre y (List.mem_cons_of_mem _ hy)) hready
        (fun y hy => hdec y (by simp at hy ⊢; exact Or.inr hy))
      exact ⟨s1, by simp [hx, hs1], hr1⟩
    | some b =>
      obtain ⟨key, s0, tr, hp, hr0⟩ := parseUsageData_returns K rd sgia hsgia fuel x b s hready
        (hdec x (by simp)) hb
      obtain ⟨s1, hs1, hr1⟩ := ih s0 (fun y hy => hpre y (List.mem_cons_of_mem _ hy)) hr0
        (fun y hy => hdec y (by simp at hy ⊢; exact Or.inr hy))
      exact ⟨s1, by simp [hp, hx, hs1], hr1⟩

theorem receiveEvents_received (rs : List Reply) :
    (receiveEvents rs).filterMap CollectEvent.received = rs := by
  induction rs with
  | nil => rfl
  | cons r rs ih =>
    simp only [receiveEvents]
    cases r.buf <;> simp [List.filterMap_cons, CollectEvent.received, ih]

theorem receiveEvents_parsed (rs : List Reply) :
    (receiveEvents rs).filterMap CollectEvent.parsed = rs.filterMap Reply.parseArgs := by
  induction rs with
  | nil => rfl
  | cons r rs ih =>
    simp only [receiveEvents, Reply.parseArgs, List.filterMap_cons]
    cases r.buf <;> simp [List.filterMap_cons, CollectEvent.parsed, ih]

/-! ## Lemmas on InitConnection -/

theorem connectStage_locals (qMgrName : String) (cc : ConnectionConfig) (calls : MQICalls)
    (g : Mqif) :
    (calls.Connx = none ∧ (connectStage qMgrName cc calls g).2 = {}) ∨
    (calls.Connx ≠ none ∧ (connectStage qMgrName cc calls g).2.err ≠ none ∧
      (connectStage qMgrName cc calls g).2.mqreturn ≠ none) := by
  unfold connectStage
  cases calls.Connx <;> simp

theorem inquireStage_skip (P : PlatformConstants) (cc : ConnectionConfig) (calls : MQICalls)
    (st : Mqif × InitLocals) (h : st.2.err ≠ none) : inquireStage P cc calls st = st := by
  unfold inquireStage
  simp [h]

theorem inquireStage_fresh (P : PlatformConstants) (cc : ConnectionConfig) (calls : MQICalls)
    (g : Mqif) :
    ((inquireStage P cc calls (g, {})).2.Sound ↔
      ¬ (calls.OpenQMgr = none ∧ inquireBlockFails P cc calls)) ∧
    ((inquireStage P cc calls (g, {})).2.mqreturn = none →
      (inquireStage P cc calls (g, {})).2.err ≠ none →
      calls.OpenQMgr = none ∧ inquireBlockFails P cc calls) := by
  unfold inquireStage inquireBlockFails InitLocals.Sound
  cases ho : calls.OpenQMgr with
  | some r => simp
  | none =>
    cases hi : calls.InqMap with
    | some r => simp
    | none =>
      simp only [if_true]
      split_ifs <;> simp_all

theorem openCommandQStage_sound (P : PlatformConstants) (calls : MQICalls)
    (st : Mqif × InitLocals) :
    (st.2.err ≠ none → openCommandQStage P calls st = st) ∧
    (st.2.Sound → (openCommandQStage P calls st).2.Sound) := by
  unfold openCommandQStage InitLocals.Sound
  constructor
  · intro h
    simp [h]
  · intro h
    split_ifs
    · cases calls.OpenCommandQ <;> simp [h]
    · exact h

theorem openReplyQStage_sound (replyQ : String) (calls : MQICalls)
    (st : Mqif × InitLocals) :
    (st.2.err ≠ none → openReplyQStage replyQ calls st = st) ∧
    (st.2.Sound → (openReplyQStage replyQ calls st).2.Sound) := by
  unfold openReplyQStage InitLocals.Sound
  constructor
  · intro h
    simp [h]
  · intro h
    split_ifs
    · cases calls.OpenReplyQ <;> simp [h]
    · exact h

theorem openStatusReplyQStage_sound (replyQ : String) (calls : MQICalls)
    (st : Mqif × InitLocals) :
    (st.2.err ≠ none → openStatusReplyQStage replyQ calls st = st) ∧
    (st.2.Sound → (openStatusReplyQStage replyQ calls st).2.Sound) := by
  unfold openStatusReplyQStage InitLocals.Sound
  constructor
  · intro h
    simp [h]
  · intro h
    split_ifs
    · cases calls.OpenStatusReplyQ <;> simp [h]
    · exact h

/-- The failures of `InitConnection` that come back without `MQReturn` are
exactly those of the inquire block after a successful connect and open: a
failed `InqMap`, the RESET QSTATS / PERFMEV(DISABLED) check and the command
level check. Every other failure carries the `MQReturn` of the failed call. -/
theorem InitConnection_nil_MQReturn_iff (P : PlatformConstants) (qMgrName replyQ : String)
    (cc : ConnectionConfig) (calls : MQICalls) (g : Mqif) (e : MQMetricError)
    (h : (InitConnection P qMgrName replyQ cc calls g).2 = some e) :
    e.MQReturn = none ↔
      calls.Connx = none ∧ calls.OpenQMgr = none ∧ inquireBlockFails P cc calls := by
  unfold InitConnection at h
  simp only at h
  set s1 := connectStage qMgrName cc calls g with hs1
  set s2 := inquireStage P cc calls s1 with hs2
  set s3 := openCommandQStage P calls s2 with hs3
  set s4 := openReplyQStage replyQ calls s3 with hs4
  set s5 := openStatusReplyQStage replyQ calls s4 with hs5
  split_ifs at h with herr
  simp only [Prod.mk.injEq, Option.some.injEq] at h
  have he : e.MQReturn = s5.2.mqreturn := by rw [← h]
  rw [he]
  have key : s5.2.Sound ↔ s2.2.Sound := by
    constructor
    · intro h5
      by_contra h2
      have h2e : s2.2.err ≠ none := fun hn => h2 (Or.inl hn)
      have e3 : s3 = s2 := (openCommandQStage_sound P calls s2).1 h2e
      have e4 : s4 = s2 := by
        rw [hs4, e3]
        exact (openReplyQStage_sound replyQ calls s2).1 h2e
      have e5 : s5 = s2 := by
        rw [hs5, e4]
        exact (openStatusReplyQStage_sound replyQ calls s2).1 h2e
      rw [e5] at h5
      exact h2 h5
    · intro h2
      exact (openStatusReplyQStage_sound replyQ calls s4).2
        ((openReplyQStage_sound replyQ calls s3).2
          ((openCommandQStage_sound P calls s2).2 h2))
  have hsound : s5.2.mqreturn = none ↔ ¬ s5.2.Sound := by
    unfold InitLocals.Sound
    constructor
    · intro hm hs
      rcases hs with hs | hs
      · exact herr hs
      · exact hs hm
    · intro hs
      by_contra hm
      exact hs (Or.inr hm)
  rw [hsound, key]
  rcases connectStage_locals qMgrName cc calls g with ⟨hc, hl⟩ | ⟨hc, hl1, hl2⟩
  · have hs1' : s1 = (s1.1, {}) := by
      rw [← hl]
    rw [hs2, hs1', (inquireStage_fresh P cc calls s1.1).1]
    simp [hc]
  · have : s2 = s1 := inquireStage_skip P cc calls s1 hl1
    rw [this]
    constructor
    · intro hns
      exact absurd (Or.inr hl2) hns
    · intro hh
      exact absurd hh.1 hc

/-! ## Lemmas on the stored table, the exchange and the reached offsets -/

theorem GoMap.keys_set_of_get {α : Type} (m : GoMap α) (k : String) (v v0 : α)
    (h : m.get k = some v0) : GoMap.keys (m.set k v) = GoMap.keys m := by
  induction m with
  | nil => simp [GoMap.get] at h
  | cons p m ih =>
    obtain ⟨k', v'⟩ := p
    by_cases hk : k' = k
    · simp [GoMap.set, GoMap.keys, hk]
    · simp only [GoMap.get, hk, if_false] at h
      have := ih h
      simp only [GoMap.keys] at this
      simp [GoMap.set, GoMap.keys, hk, this]

theorem StatusSet.setValue_names (t t1 : StatusSet) (a key : String) (v : StatusValue)
    (h : t.setValue a key v = some t1) : t1.names = t.names := by
  unfold StatusSet.setValue at h
  cases hg : t.Attributes.get a with
  | none => simp [hg] at h
  | some attr =>
    simp only [hg, Option.some.injEq] at h
    subst h
    exact GoMap.keys_set_of_get _ _ _ _ hg

theorem StatusSet.setValue_value_other (t t1 : StatusSet) (a a1 key key1 : String)
    (v : StatusValue) (h : t.setValue a key v = some t1) (hne : a1 ≠ a ∨ key1 ≠ key) :
    t1.value a1 key1 = t.value a1 key1 := by
  by_cases ha : a1 = a
  · subst ha
    have hk : key1 ≠ key := by
      rcases hne with h1 | h1
      · exact absurd rfl h1
      · exact h1
    unfold StatusSet.setValue at h
    cases hg : t.Attributes.get a1 with
    | none => simp [hg] at h
    | some attr =>
      simp only [hg, Option.some.injEq] at h
      subst h
      simp [StatusSet.value, GoMap.get_set_self, hg, GoMap.get_set_ne _ _ _ _ hk]
  · exact StatusSet.setValue_value_ne t t1 a a1 key key1 v h ha

theorem StatusSet.PseudoWritten.refl (t0 : StatusSet) (key : String) :
    t0.PseudoWritten t0 key [] :=
  ⟨by simp, fun _ _ _ => rfl, rfl⟩

theorem StatusSet.PseudoWritten.step {t0 t t1 : StatusSet} {key : String}
    {ws : List (String × String)} (a x : String) (h : t0.PseudoWritten t key ws)
    (hs : t.setValue a key (StatusValue.ValueString x) = some t1)
    (hfresh : ∀ p ∈ ws, p.1 ≠ a) : t0.PseudoWritten t1 key (ws ++ [(a, x)]) := by
  obtain ⟨h1, h2, h3⟩ := h
  refine ⟨?_, ?_, ?_⟩
  · intro p hp
    simp only [List.mem_append, List.mem_singleton] at hp
    rcases hp with hp | hp
    · rw [StatusSet.setValue_value_other t t1 a p.1 key key _ hs (Or.inl (hfresh p hp))]
      exact h1 p hp
    · subst hp
      exact StatusSet.setValue_value_self t t1 a key _ hs
  · intro a1 k hk
    have hne : a1 ≠ a ∨ k ≠ key := by
      rcases hk with hk | hk
      · exact Or.inl (fun e => hk (a, x) (by simp) e.symm)
      · exact Or.inr hk
    rw [StatusSet.setValue_value_other t t1 a a1 key k _ hs hne]
    apply h2
    rcases hk with hk | hk
    · exact Or.inl (fun p hp => hk p (by simp [hp]))
    · exact Or.inr hk
  · rw [StatusSet.setValue_names t t1 a key _ hs, h3]

theorem storeUsage_table (K : Constants) (sgia : StatusSet → PCFParameter → String → StatusSet)
    (s : Usage) (w : List (Int × PCFParameter)) (v : IdentVars) (tr1 : List Event)
    (hready : s.Ready) :
    ∃ set key s1 writes t,
      storeUsage K sgia s w v tr1 =
        Outcome.ok (key, s1, tr1 ++ writes ++ populateEvents set key w) ∧
      writes ≠ [] ∧ (∀ ev ∈ writes, ∃ a val, ev = Event.setValue set a key val) ∧
      UsageStored K sgia s w v key s1 t := by
  obtain ⟨h1, h2, h3, h4, h5⟩ := hready
  obtain ⟨n1, n2, n3, n4⟩ := attr_names_ne
  unfold storeUsage UsageStored
  by_cases hrt : v.responseType = K.MQIACF_USAGE_BUFFER_POOL
  · simp only [hrt, if_true]
    obtain ⟨t1, ht1⟩ := StatusSet.setValue_isSome s.UsageBpStatus ATTR_BP_ID v.bpId
      (newStatusValueString v.bpId) h1
    have p2 := StatusSet.setValue_hasPseudo _ _ _ ATTR_BP_LOCATION _ _ ht1 h2
    have p3 := StatusSet.setValue_hasPseudo _ _ _ ATTR_BP_CLASS _ _ ht1 h3
    obtain ⟨t2, ht2⟩ := StatusSet.setValue_isSome t1 ATTR_BP_LOCATION v.bpId
      (newStatusValueString v.bpLocation) p2
    have q3 := StatusSet.setValue_hasPseudo _ _ _ ATTR_BP_CLASS _ _ ht2 p3
    obtain ⟨t3, ht3⟩ := StatusSet.setValue_isSome t2 ATTR_BP_CLASS v.bpId
      (newStatusValueString v.bpClass) q3
    have e1 : t3.PseudoHolds ATTR_BP_ID v.bpId (newStatusValueString v.bpId) :=
      StatusSet.setValue_pseudoHolds_ne _ _ _ _ _ _ _ _ ht3 (Ne.symm n2)
        (StatusSet.setValue_pseudoHolds_ne _ _ _ _ _ _ _ _ ht2 (Ne.symm n1)
          (StatusSet.setValue_pseudoHolds _ _ _ _ _ ht1 h1))
    have e2 : t3.PseudoHolds ATTR_BP_LOCATION v.bpId (newStatusValueString v.bpLocation) :=
      StatusSet.setValue_pseudoHolds_ne _ _ _ _ _ _ _ _ ht3 (Ne.symm n3)
        (StatusSet.setValue_pseudoHolds _ _ _ _ _ ht2 p2)
    have e3 : t3.PseudoHolds ATTR_BP_CLASS v.bpId (newStatusValueString v.bpClass) :=
      StatusSet.setValue_pseudoHolds _ _ _ _ _ ht3 q3
    have hw : ((s.UsageBpStatus.setValue ATTR_BP_ID v.bpId (newStatusValueString v.bpId)).bind
        (fun t => t.setValue ATTR_BP_LOCATION v.bpId (newStatusValueString v.bpLocation))).bind
        (fun t => t.setValue ATTR_BP_CLASS v.bpId (newStatusValueString v.bpClass)) = some t3 := by
      simp only [ht1, ht2, ht3, Option.some_bind]
    have hwr : s.UsageBpStatus.PseudoWritten t3 v.bpId
        [(ATTR_BP_ID, v.bpId), (ATTR_BP_LOCATION, v.bpLocation), (ATTR_BP_CLASS, v.bpClass)] := by
      have a1 := StatusSet.PseudoWritten.step ATTR_BP_ID v.bpId
        (StatusSet.PseudoWritten.refl s.UsageBpStatus v.bpId) ht1 (by simp)
      have a2 := StatusSet.PseudoWritten.step ATTR_BP_LOCATION v.bpLocation a1 ht2
        (by simp [Ne.symm n1])
      have a3 := StatusSet.PseudoWritten.step ATTR_BP_CLASS v.bpClass a2 ht3
        (by simp [Ne.symm n2, Ne.symm n3])
      simpa using a3
    simp only [hw]
    refine ⟨UsageSet.Bp, v.bpId, _, _, t3, rfl, by simp, ?_, rfl, rfl, hwr, rfl, rfl, ?_⟩
    · intro ev hev
      simp only [List.mem_cons, List.mem_singleton, List.not_mem_nil, or_false] at hev
      rcases hev with rfl | rfl | rfl
      · exact ⟨_, _, rfl⟩
      · exact ⟨_, _, rfl⟩
      · exact ⟨_, _, rfl⟩
    · intro hsgia p hp
      simp only [List.mem_cons, List.mem_singleton, List.not_mem_nil, or_false] at hp
      rcases hp with rfl | rfl | rfl
      · exact (foldl_sgia_pseudoHolds sgia hsgia _ _ _ _ w t3 e1).value
      · exact (foldl_sgia_pseudoHolds sgia hsgia _ _ _ _ w t3 e2).value
      · exact (foldl_sgia_pseudoHolds sgia hsgia _ _ _ _ w t3 e3).value
  · simp only [hrt, if_false]
    obtain ⟨t1, ht1⟩ := StatusSet.setValue_isSome s.UsagePsStatus ATTR_PS_ID v.psId
      (newStatusValueString v.psId) h4
    have p2 := StatusSet.setValue_hasPseudo _ _ _ ATTR_PS_BPID _ _ ht1 h5
    obtain ⟨t2, ht2⟩ := StatusSet.setValue_isSome t1 ATTR_PS_BPID v.psId
      (newStatusValueString v.bpId) p2
    have e1 : t2.PseudoHolds ATTR_PS_ID v.psId (newStatusValueString v.psId) :=
      StatusSet.setValue_pseudoHolds_ne _ _ _ _ _ _ _ _ ht2 (Ne.symm n4)
        (StatusSet.setValue_pseudoHolds _ _ _ _ _ ht1 h4)
    have e2 : t2.PseudoHolds ATTR_PS_BPID v.psId (newStatusValueString v.bpId) :=
      StatusSet.setValue_pseudoHolds _ _ _ _ _ ht2 p2
    have hw : (s.UsagePsStatus.setValue ATTR_PS_ID v.psId (newStatusValueString v.psId)).bind
        (fun t => t.setValue ATTR_PS_BPID v.psId (newStatusValueString v.bpId)) = some t2 := by
      simp only [ht1, ht2, Option.some_bind]
    have hwr : s.UsagePsStatus.PseudoWritten t2 v.psId
        [(ATTR_PS_ID, v.psId), (ATTR_PS_BPID, v.bpId)] := by
      have a1 := StatusSet.PseudoWritten.step ATTR_PS_ID v.psId
        (StatusSet.PseudoWritten.refl s.UsagePsStatus v.psId) ht1 (by simp)
      have a2 := StatusSet.PseudoWritten.step ATTR_PS_BPID v.bpId a1 ht2
        (by simp [Ne.symm n4])
      simpa using a2
    simp only [hw]
    refine ⟨UsageSet.Ps, v.psId, _, _, t2, rfl, by simp, ?_, rfl, rfl, hwr, rfl, rfl, ?_⟩
    · intro ev hev
      simp only [List.mem_cons, List.mem_singleton, List.not_mem_nil, or_false] at hev
      rcases hev with rfl | rfl
      · exact ⟨_, _, rfl⟩
      · exact ⟨_, _, rfl⟩
    · intro hsgia p hp
      simp only [List.mem_cons, List.mem_singleton, List.not_mem_nil, or_false] at hp
      rcases hp with rfl | rfl
      · exact (foldl_sgia_pseudoHolds sgia hsgia _ _ _ _ w t2 e1).value
      · exact (foldl_sgia_pseudoHolds sgia hsgia _ _ _ _ w t2 e2).value

theorem walk_of_reached (rd : List Nat → PCFParameter × Int) (buf : List Nat)
    (hpos : ∀ o, Reached rd buf o → 0 ≤ o → o < buf.length → 0 < (rd (buf.drop o.toNat)).2)
    (hnil : buf = [] → 0 ≤ (rd []).2) :
    ∀ (fuel : Nat) (offset : Int), Reached rd buf offset → 0 ≤ offset →
      (offset < buf.length ∨ (buf = [] ∧ offset = 0)) → 1 ≤ fuel →
      (buf.length : Int) - offset ≤ fuel →
      ∃ w, decodeWalk rd buf fuel offset = Outcome.ok w ∧ 1 ≤ w.length ∧
        (w.length ≤ 1 ∨ (w.length : Int) ≤ buf.length - offset) ∧
        ∀ p ∈ w, p.1 = offset ∨ (offset < p.1 ∧ p.1 < buf.length) := by
  intro fuel
  induction fuel with
  | zero => intro offset _ _ _ h; omega
  | succ n ih =>
    intro offset hreach h0 hin _ hf
    have h1 : offset ≤ buf.length := by
      rcases hin with h | ⟨hb, ho⟩
      · omega
      · rw [ho]
        exact Int.natCast_nonneg _
    have hs := sliceFrom_in_range buf offset h0 h1
    simp only [decodeWalk, hs]
    by_cases hend : offset + (rd (buf.drop offset.toNat)).2 ≥ buf.length
    · simp only [hend, if_true]
      exact ⟨_, rfl, by simp, by simp, by simp⟩
    · simp only [hend, if_false]
      have hlt : offset + (rd (buf.drop offset.toNat)).2 < buf.length := by omega
      have hb : 0 < (rd (buf.drop offset.toNat)).2 := by
        rcases hin with h | ⟨hb, ho⟩
        · exact hpos offset hreach h0 h
        · exfalso
          subst hb
          subst ho
          have := hnil rfl
          simp at hlt
          omega
      obtain ⟨w1, hw1, hl1, hl2, hm⟩ := ih (offset + (rd (buf.drop offset.toNat)).2)
        (Reached.next offset hreach h0 h1 hlt) (by omega) (Or.inl hlt) (by omega)
        (by push_cast at hf ⊢; omega)
      simp only [hw1]
      refine ⟨_, rfl, by simp, ?_, ?_⟩
      · right
        simp only [List.length_cons]
        push_cast
        rcases hl2 with hl2 | hl2
        · have : (w1.length : Int) ≤ 1 := by exact_mod_cast hl2
          omega
        · omega
      · intro p hp
        simp only [List.mem_cons] at hp
        rcases hp with rfl | hp
        · exact Or.inl rfl
        · rcases hm p hp with h | ⟨h, h'⟩
          · exact Or.inr ⟨by omega, by omega⟩
          · exact Or.inr ⟨by omega, h'⟩

theorem populateLoop_stuck_at (K : Constants) (rd : List Nat → PCFParameter × Int)
    (sgia : StatusSet → PCFParameter → String → StatusSet) (cfh : MQCFH) (buf : List Nat)
    (set : UsageSet) (key : String) (hcc : cfh.CompCode ≠ K.MQCC_FAILED) (o : Int)
    (h0 : 0 ≤ o) (hlt : o < buf.length) (hzero : (rd (buf.drop o.toNat)).2 = 0) :
    ∀ (fuel : Nat) (t : StatusSet),
      populateLoop K rd sgia cfh buf set key fuel true o t = Outcome.outOfFuel := by
  have hlen : ¬ (o ≥ buf.length) := by omega
  have hs := sliceFrom_in_range buf o h0 (by omega)
  intro fuel
  induction fuel with
  | zero => intro t; simp [populateLoop, hcc]
  | succ n ih =>
    intro t
    simp only [populateLoop, hcc, ne_eq, not_false_eq_true, and_self, if_true, hs, hzero,
      add_zero, hlen, if_false, ih]

theorem populateLoop_stuck_back (K : Constants) (rd : List Nat → PCFParameter × Int)
    (sgia : StatusSet → PCFParameter → String → StatusSet) (cfh : MQCFH) (buf : List Nat)
    (set : UsageSet) (key : String) (hcc : cfh.CompCode ≠ K.MQCC_FAILED) (o : Int)
    (hreach : Reached rd buf o) :
    (∀ (fuel : Nat) (t : StatusSet),
      populateLoop K rd sgia cfh buf set key fuel true o t = Outcome.outOfFuel) →
    ∀ (fuel : Nat) (t : StatusSet),
      populateLoop K rd sgia cfh buf set key fuel true 0 t = Outcome.outOfFuel := by
  induction hreach with
  | start => exact fun h => h
  | next a _ h0 h1 hlt ih =>
    intro hstuck
    apply ih
    intro fuel t
    cases fuel with
    | zero => simp [populateLoop, hcc]
    | succ n =>
      have hs := sliceFrom_in_range buf a h0 h1
      have hlen : ¬ (a + (rd (buf.drop a.toNat)).2 ≥ buf.length) := by omega
      simp only [populateLoop, hcc, ne_eq, not_false_eq_true, and_self, if_true, hs, hlen,
        if_false, hstuck]

theorem identLoop_never_at (K : Constants) (rd : List Nat → PCFParameter × Int)
    (cfh : MQCFH) (buf : List Nat) (hcc : cfh.CompCode ≠ K.MQCC_FAILED) (o : Int)
    (h0 : 0 ≤ o) (hlt : o < buf.length) (hzero : (rd (buf.drop o.toNat)).2 = 0) :
    ∀ (fuel : Nat) (v v' : IdentVars) (tr : List Event),
      identLoop K rd cfh buf fuel true o v ≠ Outcome.ok (some v', tr) := by
  have hlen : ¬ (o ≥ buf.length) := by omega
  have hs := sliceFrom_in_range buf o h0 (by omega)
  intro fuel
  induction fuel with
  | zero => intro v v' tr; simp [identLoop, hcc]
  | succ n ih =>
    intro v v' tr
    simp only [identLoop, hcc, ne_eq, not_false_eq_true, and_self, if_true, hs, hzero,
      add_zero, hlen, if_false]
    cases hstep : identStep K (rd (buf.drop o.toNat)).1 v with
    | panic => simp
    | outOfFuel => simp
    | ok r =>
      cases r with
      | none => simp
      | some v1 =>
        simp only
        cases hrec : identLoop K rd cfh buf n true o v1 with
        | panic => simp
        | outOfFuel => simp
        | ok res =>
          obtain ⟨r2, tr2⟩ := res
          simp only [Outcome.ok.injEq, Prod.mk.injEq, not_and]
          intro hr2
          subst hr2
          exact absurd hrec (ih v1 v' tr2)

theorem identLoop_never_back (K : Constants) (rd : List Nat → PCFParameter × Int)
    (cfh : MQCFH) (buf : List Nat) (hcc : cfh.CompCode ≠ K.MQCC_FAILED) (o : Int)
    (hreach : Reached rd buf o) :
    (∀ (fuel : Nat) (v v' : IdentVars) (tr : List Event),
      identLoop K rd cfh buf fuel true o v ≠ Outcome.ok (some v', tr)) →
    ∀ (fuel : Nat) (v v' : IdentVars) (tr : List Event),
      identLoop K rd cfh buf fuel true 0 v ≠ Outcome.ok (some v', tr) := by
  induction hreach with
  | start => exact fun h => h
  | next a _ h0 h1 hlt ih =>
    intro hnever
    apply ih
    intro fuel v v' tr
    cases fuel with
    | zero => simp [identLoop, hcc]
    | succ n =>
      have hs := sliceFrom_in_range buf a h0 h1
      have hlen : ¬ (a + (rd (buf.drop a.toNat)).2 ≥ buf.length) := by omega
      simp only [identLoop, hcc, ne_eq, not_false_eq_true, and_self, if_true, hs, hlen,
        if_false]
      cases hstep : identStep K (rd (buf.drop a.toNat)).1 v with
      | panic => simp
      | outOfFuel => simp
      | ok r =>
        cases r with
        | none => simp
        | some v1 =>
          simp only
          cases hrec : identLoop K rd cfh buf n true (a + (rd (buf.drop a.toNat)).2) v1 with
          | panic => simp
          | outOfFuel => simp
          | ok res =>
            obtain ⟨r2, tr2⟩ := res
            simp only [Outcome.ok.injEq, Prod.mk.injEq, not_and]
            intro hr2
            subst hr2
            exact absurd hrec (hnever n v1 v' tr2)

theorem bufferPoolReply_reached :
    ∀ o, Reached readInteger bufferPoolReply o → o ∈ ([0, 16, 32, 48, 64, 80, 96] : List Int) := by
  have hb : ∀ k ∈ ([0, 16, 32, 48, 64, 80, 96] : List Int),
      (readInteger (bufferPoolReply.drop k.toNat)).2 = 16 := by decide
  have hlen : (bufferPoolReply.length : Int) = 112 := by decide
  intro o h
  induction h with
  | start => simp
  | next a _ _ _ hlt ih =>
    rw [hb a ih] at hlt ⊢
    rw [hlen] at hlt
    simp only [List.mem_cons, List.mem_singleton, List.not_mem_nil, or_false] at ih ⊢
    omega

theorem bufferPoolReply_advances :
    ∀ o, Reached readInteger bufferPoolReply o → 0 ≤ o → o < bufferPoolReply.length →
      0 < (readInteger (bufferPoolReply.drop o.toNat)).2 := by
  have hb : ∀ k ∈ ([0, 16, 32, 48, 64, 80, 96] : List Int),
      (readInteger (bufferPoolReply.drop k.toNat)).2 = 16 := by decide
  intro o h _ _
  rw [hb o (bufferPoolReply_reached o h)]
  decide

/-! ## Claims -/

/-- C1: for a reply with a non-zero parameter count and a completion code
other than failed, whose buffer decodes (walk `w`) into parameters among which
there is exactly one usage-type parameter, equal to BUFFER_POOL, exactly one
buffer-pool-id parameter, with value `n`, one location parameter (code `loc`)
and one page-class parameter (code `cls`), `parseUsageData` returns the
decimal string of `n`; afterwards `UsageBpStatus` holds under that key
id = decimal string of `n`, location = label of `loc`, pageclass = label of
`cls`; and after the first pass and the three writes, every parameter of the
buffer is handed, in order, to `statusGetIntAttributes` with `UsageBpStatus`
and that key (`populateEvents`). `UsagePsStatus` is not touched. The attribute
sets are as `UsageInitAttributes` leaves them (`Ready`), the helper leaves
pseudo attributes alone, and the key-field parameters carry a value. -/
theorem parseUsageData_buffer_pool_reply (K : Constants) (hK : K.Valid)
    (rd : List Nat → PCFParameter × Int)
    (sgia : StatusSet → PCFParameter → String → StatusSet) (hsgia : PreservesPseudo sgia)
    (fuel fuel1 : Nat) (hfuel : fuel ≤ fuel1) (cfh : MQCFH) (buf : List Nat) (s : Usage)
    (w : List (Int × PCFParameter)) (u b l c : PCFParameter) (n loc cls : Int)
    (hcount : cfh.ParameterCount ≠ 0) (hcc : cfh.CompCode ≠ K.MQCC_FAILED)
    (hready : s.Ready)
    (hwalk : decodeWalk rd buf fuel 0 = Outcome.ok w)
    (hval : ∀ e ∈ w.map Prod.snd, HasValue K e)
    (htype : withParameter K.MQIACF_USAGE_TYPE (w.map Prod.snd) = [u])
    (htypev : u.Int64Value.head? = some K.MQIACF_USAGE_BUFFER_POOL)
    (hid : withParameter K.MQIACF_BUFFER_POOL_ID (w.map Prod.snd) = [b])
    (hidv : b.Int64Value.head? = some n)
    (hloc : withParameter K.MQIACF_BUFFER_POOL_LOCATION (w.map Prod.snd) = [l])
    (hlocv : l.Int64Value.head? = some loc)
    (hcls : withParameter K.MQIACF_PAGECLAS (w.map Prod.snd) = [c])
    (hclsv : c.Int64Value.head? = some cls) :
    ∃ s1,
      parseUsageData K rd sgia fuel1 (some cfh) buf s =
        Outcome.ok (FormatInt n, s1,
          decodeEvents 1 w ++
          [Event.setValue UsageSet.Bp ATTR_BP_ID (FormatInt n)
             (StatusValue.ValueString (FormatInt n)),
           Event.setValue UsageSet.Bp ATTR_BP_LOCATION (FormatInt n)
             (StatusValue.ValueString (locationLabel K loc)),
           Event.setValue UsageSet.Bp ATTR_BP_CLASS (FormatInt n)
             (StatusValue.ValueString (pageClassLabel K cls))] ++
          populateEvents UsageSet.Bp (FormatInt n) w) ∧
      s1.UsageBpStatus.value ATTR_BP_ID (FormatInt n) =
        some (StatusValue.ValueString (FormatInt n)) ∧
      s1.UsageBpStatus.value ATTR_BP_LOCATION (FormatInt n) =
        some (StatusValue.ValueString (locationLabel K loc)) ∧
      s1.UsageBpStatus.value ATTR_BP_CLASS (FormatInt n) =
        some (StatusValue.ValueString (pageClassLabel K cls)) ∧
      s1.UsagePsStatus = s.UsagePsStatus := by
  obtain ⟨key, s1, hp, hkey, e1, e2, e3, hps⟩ :=
    parseUsageData_bp_core K hK rd sgia hsgia fuel fuel1 hfuel cfh buf s w u (some l) (some c)
      hcount hcc hready hwalk hval htype htypev hloc hcls
  have hk := hkey b n hid hidv
  subst hk
  have hl : locationOf K (some l) = locationLabel K loc := by
    cases hv : l.Int64Value with
    | nil => simp [hv] at hlocv
    | cons x xs =>
      simp only [hv, List.head?_cons, Option.some.injEq] at hlocv
      simp [locationOf, hv, hlocv]
  have hc : pageClassOf K (some c) = pageClassLabel K cls := by
    cases hv : c.Int64Value with
    | nil => simp [hv] at hclsv
    | cons x xs =>
      simp only [hv, List.head?_cons, Option.some.injEq] at hclsv
      simp [pageClassOf, hv, hclsv]
  rw [hl] at hp e2
  rw [hc] at hp e3
  exact ⟨s1, hp, e1.value, e2.value, e3.value, hps⟩

theorem parseUsageData_buffer_pool_reply_witness :
    ∃ s1,
      parseUsageData mqConstants readInteger statusGetIntAttributes 7
          (some { ParameterCount := 7 }) bufferPoolReply polledUsage =
        Outcome.ok ("4", s1,
          decodeEvents 1 bufferPoolWalk ++
          [Event.setValue UsageSet.Bp "id" "4" (StatusValue.ValueString "4"),
           Event.setValue UsageSet.Bp "location" "4" (StatusValue.ValueString "Above"),
           Event.setValue UsageSet.Bp "pageclass" "4" (StatusValue.ValueString "4KB")] ++
          populateEvents UsageSet.Bp "4" bufferPoolWalk) ∧
      s1.UsageBpStatus.value "id" "4" = some (StatusValue.ValueString "4") ∧
      s1.UsageBpStatus.value "location" "4" = some (StatusValue.ValueString "Above") ∧
      s1.UsageBpStatus.value "pageclass" "4" = some (StatusValue.ValueString "4KB") ∧
      s1.UsagePsStatus = polledUsage.UsagePsStatus :=
  parseUsageData_buffer_pool_reply mqConstants (by decide) readInteger statusGetIntAttributes
    statusGetIntAttributes_preservesPseudo 7 7 (le_refl 7) { ParameterCount := 7 }
    bufferPoolReply polledUsage bufferPoolWalk
    { Type_ := 3, Parameter := 1157, Int64Value := [1170] }
    { Type_ := 3, Parameter := 1158, Int64Value := [4] }
    { Type_ := 3, Parameter := 1408, Int64Value := [1] }
    { Type_ := 3, Parameter := 1374, Int64Value := [0] } 4 1 0
    (by decide) (by decide) polledUsage_ready (by decide) (by decide) (by decide) (by decide)
    (by decide) (by decide) (by decide) (by decide) (by decide) (by decide)

/-- C2: evaluation at a reply whose header has a failed completion code (2)
and a parameter count of 7, with the buffer of the buffer-pool scenario, on
the state at the start of a poll:
`parseUsageData` returns the empty key, but it has written the pseudo
attributes id and bufferpool of `UsagePsStatus` under the empty key, so the
instance-key mappings of `UsagePsStatus` are not the ones before the call. -/
theorem parseUsageData_failed_reply_writes :
    ∃ s1,
      parseUsageData mqConstants readInteger statusGetIntAttributes 7
          (some { CompCode := 2, ParameterCount := 7 }) bufferPoolReply polledUsage =
        Outcome.ok ("", s1,
          [Event.setValue UsageSet.Ps "id" "" (StatusValue.ValueString ""),
           Event.setValue UsageSet.Ps "bufferpool" "" (StatusValue.ValueString "")]) ∧
      polledUsage.UsagePsStatus.instanceKeys "id" = [] ∧
      s1.UsagePsStatus.instanceKeys "id" = [""] ∧
      s1.UsagePsStatus.instanceKeys "bufferpool" = [""] ∧
      s1.UsagePsStatus ≠ polledUsage.UsagePsStatus :=
  ⟨_, rfl, by decide, by decide, by decide, by decide⟩

/-- C3: for a reply with a non-zero parameter count and a completion code
other than failed whose buffer (walk `w`, key-field parameters carrying a
value) contains a usage-type parameter with a value `x` that, as the 32-bit
integer the code switches on, is neither BUFFER_POOL nor PAGESET,
`parseUsageData` returns the empty key and the package state, both attribute
sets included, is the one before the call; the only steps taken are decode
calls of the first pass (at least one, a prefix of the walk). -/
theorem parseUsageData_unknown_usage_type (K : Constants)
    (rd : List Nat → PCFParameter × Int)
    (sgia : StatusSet → PCFParameter → String → StatusSet)
    (fuel fuel1 : Nat) (hfuel : fuel ≤ fuel1) (cfh : MQCFH) (buf : List Nat) (s : Usage)
    (w : List (Int × PCFParameter)) (u : PCFParameter) (x : Int)
    (hcount : cfh.ParameterCount ≠ 0) (hcc : cfh.CompCode ≠ K.MQCC_FAILED)
    (hwalk : decodeWalk rd buf fuel 0 = Outcome.ok w)
    (hval : ∀ e ∈ w.map Prod.snd, HasValue K e)
    (hu : u ∈ w.map Prod.snd) (hup : u.Parameter = K.MQIACF_USAGE_TYPE)
    (hux : u.Int64Value.head? = some x)
    (hbad : toInt32 x ≠ K.MQIACF_USAGE_BUFFER_POOL ∧ toInt32 x ≠ K.MQIACF_USAGE_PAGESET) :
    ∃ tr, parseUsageData K rd sgia fuel1 (some cfh) buf s = Outcome.ok ("", s, tr) ∧
      tr <+: decodeEvents 1 w ∧ tr ≠ [] := by
  have hnot : ¬ KnownUsageType K x := by
    unfold KnownUsageType
    exact not_or.mpr hbad
  obtain ⟨tr, htr, hpre, hne⟩ := identFold_abort K w {} u x hval hu hup hux hnot
  have hloop := identLoop_of_walk K rd cfh buf hcc fuel1 0 w {}
    (decodeWalk_mono rd buf fuel fuel1 0 w hwalk hfuel)
  refine ⟨tr, ?_, hpre, hne⟩
  simp only [parseUsageData, hcount, if_false, hloop, htr]

theorem parseUsageData_unknown_usage_type_witness :
    ∃ tr, parseUsageData mqConstants readInteger statusGetIntAttributes 3
        (some { ParameterCount := 3 }) dataSetReply polledUsage =
        Outcome.ok ("", polledUsage, tr) ∧
      tr <+: decodeEvents 1 dataSetWalk ∧ tr ≠ [] :=
  parseUsageData_unknown_usage_type mqConstants readInteger statusGetIntAttributes 3 3
    (le_refl 3) { ParameterCount := 3 } dataSetReply polledUsage dataSetWalk
    { Type_ := 3, Parameter := 1157, Int64Value := [1167] } 1167
    (by decide) (by decide) (by decide) (by decide) (by decide) (by decide) (by decide)
    (by decide)

/-- C4: the reset step of `CollectUsageStatus` leaves every attribute of
`UsageBpStatus` and of `UsagePsStatus` with zero instance-keys, keeps the names
of the attributes (and the name, label and source parameter of every attribute)
of each set, and is idempotent: resetting twice gives the state of a single
reset, whatever the state before; `CollectUsageStatus` runs
`collectUsageStatus` on the state so reset. -/
theorem resetUsageStatus_clears_and_idempotent (s : Usage) :
    (∀ p ∈ (resetUsageStatus s).UsageBpStatus.Attributes, p.2.Values = []) ∧
    (∀ p ∈ (resetUsageStatus s).UsagePsStatus.Attributes, p.2.Values = []) ∧
    (∀ a, (resetUsageStatus s).UsageBpStatus.instanceKeys a = [] ∧
      (resetUsageStatus s).UsagePsStatus.instanceKeys a = []) ∧
    (resetUsageStatus s).UsageBpStatus.names = s.UsageBpStatus.names ∧
    (resetUsageStatus s).UsagePsStatus.names = s.UsagePsStatus.names ∧
    (resetUsageStatus s).UsageBpStatus.Attributes.map
        (fun p => (p.1, p.2.name, p.2.Description, p.2.pcfAttr)) =
      s.UsageBpStatus.Attributes.map (fun p => (p.1, p.2.name, p.2.Description, p.2.pcfAttr)) ∧
    (resetUsageStatus s).UsagePsStatus.Attributes.map
        (fun p => (p.1, p.2.name, p.2.Description, p.2.pcfAttr)) =
      s.UsagePsStatus.Attributes.map (fun p => (p.1, p.2.name, p.2.Description, p.2.pcfAttr)) ∧
    resetUsageStatus (resetUsageStatus s) = resetUsageStatus s ∧
    (∀ K rd sgia fuel q, CollectUsageStatus K rd sgia fuel q s =
      collectUsageStatus K rd sgia fuel q (resetUsageStatus (UsageInitAttributes K s))) := by
  refine ⟨StatusSet.emptyValues_values _, StatusSet.emptyValues_values _, ?_,
    StatusSet.emptyValues_names _, StatusSet.emptyValues_names _, ?_, ?_, ?_, ?_⟩
  · intro a
    exact ⟨StatusSet.emptyValues_instanceKeys _ a, StatusSet.emptyValues_instanceKeys _ a⟩
  · simp [resetUsageStatus, StatusSet.emptyValues, List.map_map, Function.comp_def]
  · simp [resetUsageStatus, StatusSet.emptyValues, List.map_map, Function.comp_def]
  · simp [resetUsageStatus, StatusSet.emptyValues_idem]
  · intros
    rfl

/-- C5: when the first pass of `parseUsageData` over a reply buffer ends
without abandoning the buffer (variables `v`, steps `tr1`), the call returns a
key, and in its steps the second pass makes the same decode calls (same start
offsets, same parameters, same order) as the first pass, which are the decode
calls of `tr1`; every attribute write and every `statusGetIntAttributes` call
of the call uses exactly the returned key, and there is such a write; the
package state after the call is the one of `UsageStored`: in the set chosen by
the response type the pseudo attributes hold their strings under the returned
key, no other value of that set is changed by these writes, every decoded
parameter has been handed in order to `statusGetIntAttributes` with that set
and the returned key, and the other set is untouched; and the result is a
function of the header, the buffer and the prior state alone: it is the same
for every larger fuel. -/
theorem parseUsageData_two_pass_consistency (K : Constants)
    (rd : List Nat → PCFParameter × Int)
    (sgia : StatusSet → PCFParameter → String → StatusSet) (fuel : Nat) (cfh : MQCFH)
    (buf : List Nat) (s : Usage) (v : IdentVars) (tr1 : List Event)
    (hcount : cfh.ParameterCount ≠ 0) (hready : s.Ready)
    (hident : identLoop K rd cfh buf fuel true 0 {} = Outcome.ok (some v, tr1)) :
    ∃ key s1 tr t,
      parseUsageData K rd sgia fuel (some cfh) buf s = Outcome.ok (key, s1, tr) ∧
      tr.filterMap (Event.decodedIn 2) = tr.filterMap (Event.decodedIn 1) ∧
      tr.filterMap (Event.decodedIn 1) = tr1.filterMap (Event.decodedIn 1) ∧
      tr1 <+: tr ∧
      (∀ ev ∈ tr, ∀ k, ev.instanceKey = some k → k = key) ∧
      (∃ ev ∈ tr, ev.instanceKey = some key) ∧
      UsageStored K sgia s (tr.filterMap (Event.decodedIn 2)) v key s1 t ∧
      (∀ fuel1, fuel ≤ fuel1 →
        parseUsageData K rd sgia fuel1 (some cfh) buf s = Outcome.ok (key, s1, tr)) := by
  obtain ⟨w, htr1, hst⟩ := passes_stable K rd sgia cfh buf fuel v tr1 hident
  obtain ⟨set, key, s1, writes, t, hstore, hne, hwr, htab⟩ :=
    storeUsage_table K sgia s w v tr1 hready
  have hpar : ∀ fuel1, fuel ≤ fuel1 → parseUsageData K rd sgia fuel1 (some cfh) buf s =
      Outcome.ok (key, s1, tr1 ++ writes ++ populateEvents set key w) := by
    intro fuel1 hle
    rw [parseUsageData_eq_storeUsage K rd sgia fuel1 cfh buf s w v tr1 hcount
      (hst fuel1 hle).1 (hst fuel1 hle).2, hstore]
  have hw2 : (tr1 ++ writes ++ populateEvents set key w).filterMap (Event.decodedIn 2) = w := by
    subst htr1
    simp only [List.filterMap_append, decodedIn_decodeEvents_other 1 2 (by decide),
      decodedIn_writes set key _ writes hwr, decodedIn_populateEvents_two, List.append_nil,
      List.nil_append]
  refine ⟨key, s1, _, t, hpar fuel (le_refl fuel), ?_, ?_, ?_, ?_, ?_, ?_, hpar⟩
  · rw [hw2]
    subst htr1
    simp only [List.filterMap_append, decodedIn_decodeEvents_same,
      decodedIn_writes set key _ writes hwr, decodedIn_populateEvents_one, List.append_nil]
  · subst htr1
    simp only [List.filterMap_append, decodedIn_decodeEvents_same,
      decodedIn_writes set key _ writes hwr, decodedIn_populateEvents_one, List.append_nil]
  · rw [List.append_assoc]
    exact List.prefix_append _ _
  · intro ev hev k hk
    simp only [List.mem_append] at hev
    rcases hev with (hev | hev) | hev
    · subst htr1
      rw [instanceKey_decodeEvents 1 w ev hev] at hk
      simp at hk
    · obtain ⟨a, val, rfl⟩ := hwr ev hev
      simp only [Event.instanceKey, Option.some.injEq] at hk
      exact hk.symm
    · exact instanceKey_populateEvents set key w ev hev k hk
  · cases writes with
    | nil => exact absurd rfl hne
    | cons e l =>
      obtain ⟨a, val, rfl⟩ := hwr e (by simp)
      exact ⟨Event.setValue set a key val, by simp, rfl⟩
  · rw [hw2]
    exact htab

theorem parseUsageData_two_pass_consistency_witness :
    ∃ key s1 tr t,
      parseUsageData mqConstants readInteger statusGetIntAttributes 7
        (some { ParameterCount := 7 }) bufferPoolReply polledUsage = Outcome.ok (key, s1, tr) ∧
      tr.filterMap (Event.decodedIn 2) = tr.filterMap (Event.decodedIn 1) ∧
      tr.filterMap (Event.decodedIn 1) =
        (decodeEvents 1 bufferPoolWalk).filterMap (Event.decodedIn 1) ∧
      decodeEvents 1 bufferPoolWalk <+: tr ∧
      (∀ ev ∈ tr, ∀ k, ev.instanceKey = some k → k = key) ∧
      (∃ ev ∈ tr, ev.instanceKey = some key) ∧
      UsageStored mqConstants statusGetIntAttributes polledUsage
        (tr.filterMap (Event.decodedIn 2))
        { responseType := 1170, bpId := "4", bpLocation := "Above", bpClass := "4KB",
          psId := "" } key s1 t ∧
      (∀ fuel1, 7 ≤ fuel1 →
        parseUsageData mqConstants readInteger statusGetIntAttributes fuel1
          (some { ParameterCount := 7 }) bufferPoolReply polledUsage =
          Outcome.ok (key, s1, tr)) :=
  parseUsageData_two_pass_consistency mqConstants readInteger statusGetIntAttributes 7
    { ParameterCount := 7 } bufferPoolReply polledUsage
    { responseType := 1170, bpId := "4", bpLocation := "Above", bpClass := "4KB", psId := "" }
    (decodeEvents 1 bufferPoolWalk) (by decide) polledUsage_ready (by decide)

/-- C6: if submitting the command message fails with the error `e`,
`collectUsageStatus` returns exactly `e` after the steps "clear the reply
queue" and "put": it receives no reply, parses no buffer and leaves the
package state as it was; so `CollectUsageStatus` returns `e` with each of the
attributes of both usage sets holding zero instance-keys. -/
theorem CollectUsageStatus_put_error (K : Constants) (rd : List Nat → PCFParameter × Int)
    (sgia : StatusSet → PCFParameter → String → StatusSet) (fuel : Nat) (q : Transport)
    (s : Usage) (e : MQReturn) (hput : q.putErr = some e) :
    collectUsageStatus K rd sgia fuel q s =
      Outcome.ok (some e, s, [CollectEvent.clearReplyQ, CollectEvent.put K.MQCMD_INQUIRE_USAGE]) ∧
    ∃ s1, CollectUsageStatus K rd sgia fuel q s =
        Outcome.ok (some e, s1,
          [CollectEvent.clearReplyQ, CollectEvent.put K.MQCMD_INQUIRE_USAGE]) ∧
      (∀ p ∈ s1.UsageBpStatus.Attributes, p.2.Values = []) ∧
      (∀ p ∈ s1.UsagePsStatus.Attributes, p.2.Values = []) ∧
      (∀ a, s1.UsageBpStatus.instanceKeys a = [] ∧ s1.UsagePsStatus.instanceKeys a = []) := by
  refine ⟨by simp [collectUsageStatus, hput], resetUsageStatus (UsageInitAttributes K s),
    by simp [CollectUsageStatus, collectUsageStatus, hput],
    StatusSet.emptyValues_values _, StatusSet.emptyValues_values _, ?_⟩
  intro a
  exact ⟨StatusSet.emptyValues_instanceKeys _ a, StatusSet.emptyValues_instanceKeys _ a⟩

theorem CollectUsageStatus_put_error_witness :
    collectUsageStatus mqConstants readInteger statusGetIntAttributes 7
        { putErr := some connectionBroken, replies := twoReplyExchange.replies } polledUsage =
      Outcome.ok (some connectionBroken, polledUsage,
        [CollectEvent.clearReplyQ, CollectEvent.put 126]) ∧
    ∃ s1, CollectUsageStatus mqConstants readInteger statusGetIntAttributes 7
        { putErr := some connectionBroken, replies := twoReplyExchange.replies } polledUsage =
        Outcome.ok (some connectionBroken, s1,
          [CollectEvent.clearReplyQ, CollectEvent.put 126]) ∧
      (∀ p ∈ s1.UsageBpStatus.Attributes, p.2.Values = []) ∧
      (∀ p ∈ s1.UsagePsStatus.Attributes, p.2.Values = []) ∧
      (∀ a, s1.UsageBpStatus.instanceKeys a = [] ∧ s1.UsagePsStatus.instanceKeys a = []) :=
  CollectUsageStatus_put_error mqConstants readInteger statusGetIntAttributes 7
    { putErr := some connectionBroken, replies := twoReplyExchange.replies } polledUsage
    connectionBroken rfl

/-- C7: after a successful submit, for every finite sequence of results that
`statusGetReply` returns during one exchange (`pre`, none of them the last,
then the last one `r`; each result that carries an error ends the exchange,
as the spec has it; all of them readable), `collectUsageStatus` drains the
whole sequence and the value it returns accounts for the errors of all the
receives: if any receive of the sequence reported an error the returned error
is non-nil, and it is the error of every receive that reported one. -/
theorem collectUsageStatus_returns_any_error (K : Constants)
    (rd : List Nat → PCFParameter × Int)
    (sgia : StatusSet → PCFParameter → String → StatusSet) (hsgia : PreservesPseudo sgia)
    (fuel : Nat) (q : Transport) (s : Usage) (pre : List Reply) (r : Reply) (post : List Reply)
    (hput : q.putErr = none) (hq : q.replies = pre ++ r :: post)
    (hpre : ∀ x ∈ pre, x.allReceived = false) (hr : r.allReceived = true)
    (habort : ∀ x ∈ pre ++ [r], x.AbortsOnError)
    (hready : s.Ready) (hdec : ∀ x ∈ pre ++ [r], x.decodable K rd fuel = true) :
    ∃ e s1 tr, collectUsageStatus K rd sgia fuel q s = Outcome.ok (e, s1, tr) ∧
      tr.filterMap CollectEvent.received = pre ++ [r] ∧
      ((∃ x ∈ pre ++ [r], x.err ≠ none) → e ≠ none) ∧
      (∀ x ∈ pre ++ [r], x.err ≠ none → e = x.err) := by
  obtain ⟨s1, hs1, -⟩ := receiveLoop_until_last K rd sgia hsgia fuel r post hr pre s hpre
    hready hdec
  have hc : collectUsageStatus K rd sgia fuel q s = Outcome.ok (r.err, s1,
      CollectEvent.clearReplyQ :: CollectEvent.put K.MQCMD_INQUIRE_USAGE ::
        receiveEvents (pre ++ [r])) := by
    simp only [collectUsageStatus, hput, hq, hs1]
  have hlast : ∀ x ∈ pre ++ [r], x.err ≠ none → x = r := by
    intro x hx hne
    simp only [List.mem_append, List.mem_singleton] at hx
    rcases hx with hx | hx
    · have h1 := habort x (by simp [hx]) hne
      rw [hpre x hx] at h1
      simp at h1
    · exact hx
  refine ⟨r.err, s1, _, hc, ?_, ?_, ?_⟩
  · simp only [List.filterMap_cons, CollectEvent.received, receiveEvents_received]
  · rintro ⟨x, hx, hne⟩
    rw [← hlast x hx hne]
    exact hne
  · intro x hx hne
    rw [hlast x hx hne]

theorem collectUsageStatus_returns_any_error_witness :
    ∃ e s1 tr, collectUsageStatus mqConstants readInteger statusGetIntAttributes 7
        twoReplyExchange polledUsage = Outcome.ok (e, s1, tr) ∧
      tr.filterMap CollectEvent.received = [firstBufferPoolReply] ++ [lastEmptyReply] ∧
      ((∃ x ∈ [firstBufferPoolReply] ++ [lastEmptyReply], x.err ≠ none) → e ≠ none) ∧
      (∀ x ∈ [firstBufferPoolReply] ++ [lastEmptyReply], x.err ≠ none → e = x.err) :=
  collectUsageStatus_returns_any_error mqConstants readInteger statusGetIntAttributes
    statusGetIntAttributes_preservesPseudo 7 twoReplyExchange polledUsage
    [firstBufferPoolReply] lastEmptyReply [laterReply]
    rfl rfl (by decide) rfl (by decide) polledUsage_ready (by decide)

/-- C8: after a successful submit, for a sequence of replies in which some
reply carries the completion flag (`pre` without the flag, then `r` with it,
then `post`), all readable up to `r`, `collectUsageStatus` returns, and it has
received exactly the replies up to and including `r`, in order, and called
`parseUsageData` exactly once, in arrival order, for each of those replies
whose buffer is non-nil, with the header and buffer of that reply; no reply
of `post` is received or parsed. -/
theorem collectUsageStatus_receives_until_complete (K : Constants)
    (rd : List Nat → PCFParameter × Int)
    (sgia : StatusSet → PCFParameter → String → StatusSet) (hsgia : PreservesPseudo sgia)
    (fuel : Nat) (q : Transport) (s : Usage) (pre : List Reply) (r : Reply) (post : List Reply)
    (hput : q.putErr = none) (hq : q.replies = pre ++ r :: post)
    (hpre : ∀ x ∈ pre, x.allReceived = false) (hr : r.allReceived = true)
    (hready : s.Ready) (hdec : ∀ x ∈ pre ++ [r], x.decodable K rd fuel = true) :
    ∃ s1 tr, collectUsageStatus K rd sgia fuel q s = Outcome.ok (r.err, s1, tr) ∧
      tr.filterMap CollectEvent.received = pre ++ [r] ∧
      tr.filterMap CollectEvent.parsed = (pre ++ [r]).filterMap Reply.parseArgs ∧
      s1.Ready := by
  obtain ⟨s1, hs1, hr1⟩ := receiveLoop_until_last K rd sgia hsgia fuel r post hr pre s hpre
    hready hdec
  have hc : collectUsageStatus K rd sgia fuel q s = Outcome.ok (r.err, s1,
      CollectEvent.clearReplyQ :: CollectEvent.put K.MQCMD_INQUIRE_USAGE ::
        receiveEvents (pre ++ [r])) := by
    simp only [collectUsageStatus, hput, hq, hs1]
  refine ⟨s1, _, hc, ?_, ?_, hr1⟩
  · simp only [List.filterMap_cons, CollectEvent.received, receiveEvents_received]
  · simp only [List.filterMap_cons, CollectEvent.parsed, receiveEvents_parsed]

theorem collectUsageStatus_receives_until_complete_witness :
    ∃ s1 tr, collectUsageStatus mqConstants readInteger statusGetIntAttributes 7
        twoReplyExchange polledUsage = Outcome.ok (some connectionBroken, s1, tr) ∧
      tr.filterMap CollectEvent.received = [firstBufferPoolReply] ++ [lastEmptyReply] ∧
      tr.filterMap CollectEvent.parsed =
        ([firstBufferPoolReply] ++ [lastEmptyReply]).filterMap Reply.parseArgs ∧
      s1.Ready :=
  collectUsageStatus_receives_until_complete mqConstants readInteger statusGetIntAttributes
    statusGetIntAttributes_preservesPseudo 7 twoReplyExchange polledUsage
    [firstBufferPoolReply] lastEmptyReply [laterReply]
    rfl rfl (by decide) rfl polledUsage_ready (by decide)

/-- C9: the location and page-class pseudo attributes come from fixed lookup
tables. Location code ABOVE gives "Above", BELOW "Below", SWITCHING_ABOVE
"Switching Above", SWITCHING_BELOW "Switching Below"; page class 4KB gives
"4KB" and FIXED4KB "Fixed4KB"; every other code (as the 32-bit integer the
code switches on) gives the empty string. For a buffer-pool reply whose buffer
holds at most one location parameter `lo` and at most one page-class parameter
`co`, `parseUsageData` stores under the returned key the table entry of the
code (`Int64Value[0]` of the parameter), and the empty string when the
parameter is absent; in every case the reply is still processed: the three
pseudo attributes are written and every parameter is handed to
`statusGetIntAttributes`. -/
theorem parseUsageData_label_tables (K : Constants) (hK : K.Valid)
    (rd : List Nat → PCFParameter × Int)
    (sgia : StatusSet → PCFParameter → String → StatusSet) (hsgia : PreservesPseudo sgia)
    (fuel fuel1 : Nat) (hfuel : fuel ≤ fuel1) (cfh : MQCFH) (buf : List Nat) (s : Usage)
    (w : List (Int × PCFParameter)) (u : PCFParameter) (lo co : Option PCFParameter)
    (hcount : cfh.ParameterCount ≠ 0) (hcc : cfh.CompCode ≠ K.MQCC_FAILED)
    (hready : s.Ready)
    (hwalk : decodeWalk rd buf fuel 0 = Outcome.ok w)
    (hval : ∀ e ∈ w.map Prod.snd, HasValue K e)
    (htype : withParameter K.MQIACF_USAGE_TYPE (w.map Prod.snd) = [u])
    (htypev : u.Int64Value.head? = some K.MQIACF_USAGE_BUFFER_POOL)
    (hloc : withParameter K.MQIACF_BUFFER_POOL_LOCATION (w.map Prod.snd) = lo.toList)
    (hcls : withParameter K.MQIACF_PAGECLAS (w.map Prod.snd) = co.toList) :
    (locationLabel K K.MQBPLOCATION_ABOVE = "Above" ∧
      locationLabel K K.MQBPLOCATION_BELOW = "Below" ∧
      locationLabel K K.MQBPLOCATION_SWITCHING_ABOVE = "Switching Above" ∧
      locationLabel K K.MQBPLOCATION_SWITCHING_BELOW = "Switching Below" ∧
      (∀ x, toInt32 x ∉ [K.MQBPLOCATION_ABOVE, K.MQBPLOCATION_BELOW,
          K.MQBPLOCATION_SWITCHING_ABOVE, K.MQBPLOCATION_SWITCHING_BELOW] →
        locationLabel K x = "")) ∧
    (pageClassLabel K K.MQPAGECLAS_4KB = "4KB" ∧
      pageClassLabel K K.MQPAGECLAS_FIXED4KB = "Fixed4KB" ∧
      (∀ x, toInt32 x ∉ [K.MQPAGECLAS_4KB, K.MQPAGECLAS_FIXED4KB] →
        pageClassLabel K x = "")) ∧
    ∃ key s1,
      parseUsageData K rd sgia fuel1 (some cfh) buf s =
        Outcome.ok (key, s1,
          decodeEvents 1 w ++
          [Event.setValue UsageSet.Bp ATTR_BP_ID key (StatusValue.ValueString key),
           Event.setValue UsageSet.Bp ATTR_BP_LOCATION key
             (StatusValue.ValueString (locationOf K lo)),
           Event.setValue UsageSet.Bp ATTR_BP_CLASS key
             (StatusValue.ValueString (pageClassOf K co))] ++
          populateEvents UsageSet.Bp key w) ∧
      s1.UsageBpStatus.value ATTR_BP_LOCATION key =
        some (StatusValue.ValueString (locationOf K lo)) ∧
      s1.UsageBpStatus.value ATTR_BP_CLASS key =
        some (StatusValue.ValueString (pageClassOf K co)) := by
  have hi := hK.2.2.2.2
  have ha := Constants.Valid.toInt32_eq K hK K.MQBPLOCATION_ABOVE (by simp)
  have hb := Constants.Valid.toInt32_eq K hK K.MQBPLOCATION_BELOW (by simp)
  have hc := Constants.Valid.toInt32_eq K hK K.MQBPLOCATION_SWITCHING_ABOVE (by simp)
  have hd := Constants.Valid.toInt32_eq K hK K.MQBPLOCATION_SWITCHING_BELOW (by simp)
  have he := Constants.Valid.toInt32_eq K hK K.MQPAGECLAS_4KB (by simp)
  have hf := Constants.Valid.toInt32_eq K hK K.MQPAGECLAS_FIXED4KB (by simp)
  have hl := hK.2.2.1
  have hp := hK.2.2.2.1
  simp only [List.nodup_cons, List.mem_cons, List.mem_singleton, not_or, List.not_mem_nil,
    not_false_eq_true, List.nodup_nil, and_true] at hl hp
  obtain ⟨⟨l1, l2, l3⟩, ⟨l4, l5⟩, l6⟩ := hl
  refine ⟨⟨?_, ?_, ?_, ?_, ?_⟩, ⟨?_, ?_, ?_⟩, ?_⟩
  · simp [locationLabel, ha]
  · simp [locationLabel, hb, Ne.symm l1]
  · simp [locationLabel, hc, Ne.symm l2, Ne.symm l4]
  · simp [locationLabel, hd, Ne.symm l3, Ne.symm l5, Ne.symm l6]
  · intro x hx
    simp only [List.mem_cons, List.mem_singleton, not_or, List.not_mem_nil, or_false] at hx
    simp [locationLabel, hx.1, hx.2.1, hx.2.2.1, hx.2.2.2]
  · simp [pageClassLabel, he]
  · simp [pageClassLabel, hf, Ne.symm hp]
  · intro x hx
    simp only [List.mem_cons, List.mem_singleton, not_or, List.not_mem_nil, or_false] at hx
    simp [pageClassLabel, hx.1, hx.2]
  · obtain ⟨key, s1, hpar, -, -, e2, e3, -⟩ :=
      parseUsageData_bp_core K hK rd sgia hsgia fuel fuel1 hfuel cfh buf s w u lo co
        hcount hcc hready hwalk hval htype htypev hloc hcls
    exact ⟨key, s1, hpar, e2.value, e3.value⟩

theorem parseUsageData_label_tables_witness :
    (locationLabel mqConstants 1 = "Above" ∧ locationLabel mqConstants 0 = "Below" ∧
      locationLabel mqConstants 2 = "Switching Above" ∧
      locationLabel mqConstants 3 = "Switching Below" ∧
      (∀ x, toInt32 x ∉ [(1 : Int), 0, 2, 3] → locationLabel mqConstants x = "")) ∧
    (pageClassLabel mqConstants 0 = "4KB" ∧ pageClassLabel mqConstants 1 = "Fixed4KB" ∧
      (∀ x, toInt32 x ∉ [(0 : Int), 1] → pageClassLabel mqConstants x = "")) ∧
    ∃ key s1,
      parseUsageData mqConstants readInteger statusGetIntAttributes 3
          (some { ParameterCount := 3 }) oddLocationReply polledUsage =
        Outcome.ok (key, s1,
          decodeEvents 1 oddLocationWalk ++
          [Event.setValue UsageSet.Bp "id" key (StatusValue.ValueString key),
           Event.setValue UsageSet.Bp "location" key (StatusValue.ValueString ""),
           Event.setValue UsageSet.Bp "pageclass" key (StatusValue.ValueString "")] ++
          populateEvents UsageSet.Bp key oddLocationWalk) ∧
      s1.UsageBpStatus.value "location" key = some (StatusValue.ValueString "") ∧
      s1.UsageBpStatus.value "pageclass" key = some (StatusValue.ValueString "") :=
  parseUsageData_label_tables mqConstants (by decide) readInteger statusGetIntAttributes
    statusGetIntAttributes_preservesPseudo 3 3 (le_refl 3) { ParameterCount := 3 }
    oddLocationReply polledUsage oddLocationWalk
    { Type_ := 3, Parameter := 1157, Int64Value := [1170] }
    (some { Type_ := 3, Parameter := 1408, Int64Value := [99] }) none
    (by decide) (by decide) polledUsage_ready (by decide) (by decide) (by decide) (by decide)
    (by decide) (by decide)

/-- C10 (amended): for every buffer and every header whose completion code
is not failed, if each `ReadPCFParameter` call that a pass makes on a
non-empty rest of the buffer reports at least one byte consumed (and the one
call on an empty buffer reports no negative count), then there is a list `w`
of at least one and at most `max 1 (len buf)` decode calls, each with a start
offset that is 0 or strictly inside the buffer (so the slice `buf[offset:]` is
in range), such that with any fuel of at least `max 1 (len buf)` the second
pass returns after making exactly the decode calls `w`, and the first pass is
the replay of `w`: it does not run out of fuel, and when it returns its decode
calls are a non-empty prefix of `w`. Without positive consumption, when a
decode call that a pass reaches reports 0 bytes on a non-empty rest of the
buffer, the second pass never terminates, and the first pass never runs to
its end: it runs for ever unless a parameter ends it (`return ""` on an
unrecognised usage type, or a panic on a key field without value); when the
0-byte call is the first one and its parameter does not end the pass, the
first pass runs for ever. -/
theorem parseUsageData_passes_terminate (K : Constants)
    (rd : List Nat → PCFParameter × Int)
    (sgia : StatusSet → PCFParameter → String → StatusSet) (cfh : MQCFH) (buf : List Nat)
    (hcc : cfh.CompCode ≠ K.MQCC_FAILED)
    (hpos : ∀ o, Reached rd buf o → 0 ≤ o → o < buf.length → 0 < (rd (buf.drop o.toNat)).2)
    (hnil : buf = [] → 0 ≤ (rd []).2) :
    (∃ w : List (Int × PCFParameter),
      1 ≤ w.length ∧ w.length ≤ max 1 buf.length ∧
      (∀ p ∈ w, p.1 = 0 ∨ (0 < p.1 ∧ p.1 < buf.length)) ∧
      (∀ p ∈ w, sliceFrom buf p.1 = some (buf.drop p.1.toNat)) ∧
      ∀ fuel, max 1 buf.length ≤ fuel →
        (∀ set key t, populateLoop K rd sgia cfh buf set key fuel true 0 t =
          Outcome.ok (w.foldl (fun t1 p => sgia t1 p.2 key) t, populateEvents set key w)) ∧
        identLoop K rd cfh buf fuel true 0 {} = identFold K w {} ∧
        identFold K w {} ≠ Outcome.outOfFuel ∧
        (∀ r tr, identFold K w {} = Outcome.ok (r, tr) →
          tr <+: decodeEvents 1 w ∧ tr ≠ [])) ∧
    (∀ (rd0 : List Nat → PCFParameter × Int) (buf0 : List Nat) (o : Int),
      Reached rd0 buf0 o → 0 ≤ o → o < buf0.length → (rd0 (buf0.drop o.toNat)).2 = 0 →
      (∀ fuel set key t,
        populateLoop K rd0 sgia cfh buf0 set key fuel true 0 t = Outcome.outOfFuel) ∧
      (∀ fuel v v1 tr,
        identLoop K rd0 cfh buf0 fuel true 0 v ≠ Outcome.ok (some v1, tr))) ∧
    (∀ (rd0 : List Nat → PCFParameter × Int) (buf0 : List Nat), buf0 ≠ [] →
      (rd0 buf0).2 = 0 →
      ∀ fuel v v1, identStep K (rd0 buf0).1 v = Outcome.ok (some v1) →
        identLoop K rd0 cfh buf0 fuel true 0 v = Outcome.outOfFuel) := by
  refine ⟨?_, ?_, ?_⟩
  · have hstart : (0 : Int) < buf.length ∨ (buf = [] ∧ (0 : Int) = 0) := by
      cases buf with
      | nil => exact Or.inr ⟨rfl, rfl⟩
      | cons a l =>
        left
        simp only [List.length_cons]
        push_cast
        omega
    obtain ⟨w, hw, hl1, hl2, hm⟩ := walk_of_reached rd buf hpos hnil (max 1 buf.length) 0
      Reached.start (le_refl 0) hstart (le_max_left _ _)
      (by
        have : buf.length ≤ max 1 buf.length := le_max_right _ _
        omega)
    have hne : w ≠ [] := by
      intro h
      simp [h] at hl1
    refine ⟨w, hl1, ?_, hm, ?_, ?_⟩
    · rcases hl2 with h | h
      · exact le_trans h (le_max_left _ _)
      · exact le_trans (by omega) (le_max_right 1 buf.length)
    · intro p hp
      apply sliceFrom_in_range
      · rcases hm p hp with h | h <;> omega
      · rcases hm p hp with h | h <;> omega
    · intro fuel hfuel
      have hwf := decodeWalk_mono rd buf _ fuel 0 w hw hfuel
      refine ⟨fun set key t => populateLoop_of_walk K rd sgia cfh buf set key hcc fuel 0 w t hwf,
        identLoop_of_walk K rd cfh buf hcc fuel 0 w {} hwf, identFold_ne_outOfFuel K w {}, ?_⟩
      intro r tr h
      obtain ⟨h1, h2⟩ := identFold_prefix K w {} r tr h
      exact ⟨h1, h2 hne⟩
  · intro rd0 buf0 o hreach h0 hlt hzero
    exact ⟨fun fuel set key t =>
        populateLoop_stuck_back K rd0 sgia cfh buf0 set key hcc o hreach
          (populateLoop_stuck_at K rd0 sgia cfh buf0 set key hcc o h0 hlt hzero) fuel t,
      fun fuel v v1 tr =>
        identLoop_never_back K rd0 cfh buf0 hcc o hreach
          (identLoop_never_at K rd0 cfh buf0 hcc o h0 hlt hzero) fuel v v1 tr⟩
  · intro rd0 buf0 hne hzero fuel v v1 h
    exact identLoop_stuck K rd0 cfh buf0 hcc hne hzero fuel v v1 h

theorem parseUsageData_passes_terminate_witness :
    (∃ w : List (Int × PCFParameter),
      1 ≤ w.length ∧ w.length ≤ max 1 bufferPoolReply.length ∧
      (∀ p ∈ w, p.1 = 0 ∨ (0 < p.1 ∧ p.1 < bufferPoolReply.length)) ∧
      (∀ p ∈ w, sliceFrom bufferPoolReply p.1 = some (bufferPoolReply.drop p.1.toNat)) ∧
      ∀ fuel, max 1 bufferPoolReply.length ≤ fuel →
        (∀ set key t,
          populateLoop mqConstants readInteger statusGetIntAttributes
            { ParameterCount := 7 } bufferPoolReply set key fuel true 0 t =
          Outcome.ok (w.foldl (fun t1 p => statusGetIntAttributes t1 p.2 key) t,
            populateEvents set key w)) ∧
        identLoop mqConstants readInteger { ParameterCount := 7 } bufferPoolReply
          fuel true 0 {} = identFold mqConstants w {} ∧
        identFold mqConstants w {} ≠ Outcome.outOfFuel ∧
        (∀ r tr, identFold mqConstants w {} = Outcome.ok (r, tr) →
          tr <+: decodeEvents 1 w ∧ tr ≠ [])) ∧
    (∀ (rd0 : List Nat → PCFParameter × Int) (buf0 : List Nat) (o : Int),
      Reached rd0 buf0 o → 0 ≤ o → o < buf0.length → (rd0 (buf0.drop o.toNat)).2 = 0 →
      (∀ fuel set key t,
        populateLoop mqConstants rd0 statusGetIntAttributes { ParameterCount := 7 } buf0 set key
          fuel true 0 t = Outcome.outOfFuel) ∧
      (∀ fuel v v1 tr,
        identLoop mqConstants rd0 { ParameterCount := 7 } buf0 fuel true 0 v ≠
          Outcome.ok (some v1, tr))) ∧
    (∀ (rd0 : List Nat → PCFParameter × Int) (buf0 : List Nat), buf0 ≠ [] →
      (rd0 buf0).2 = 0 →
      ∀ fuel v v1, identStep mqConstants (rd0 buf0).1 v = Outcome.ok (some v1) →
        identLoop mqConstants rd0 { ParameterCount := 7 } buf0 fuel true 0 v =
          Outcome.outOfFuel) :=
  parseUsageData_passes_terminate mqConstants readInteger statusGetIntAttributes
    { ParameterCount := 7 } bufferPoolReply (by decide) bufferPoolReply_advances (by decide)

theorem parseUsageData_passes_terminate_counterexample :
    ((∀ o, Reached readInteger bufferPoolReply o → 0 ≤ o → o < bufferPoolReply.length →
        0 < (readInteger (bufferPoolReply.drop o.toNat)).2) ∧
      ({ CompCode := 2, ParameterCount := 7 } : MQCFH).ParameterCount ≠ 0 ∧
      identLoop mqConstants readInteger { CompCode := 2, ParameterCount := 7 }
        bufferPoolReply 112 true 0 {} = Outcome.ok (some {}, []) ∧
      populateLoop mqConstants readInteger statusGetIntAttributes
        { CompCode := 2, ParameterCount := 7 } bufferPoolReply UsageSet.Ps "" 112 true 0
        polledUsage.UsagePsStatus = Outcome.ok (polledUsage.UsagePsStatus, []) ∧
      ∃ s1, parseUsageData mqConstants readInteger statusGetIntAttributes 112
        (some { CompCode := 2, ParameterCount := 7 }) bufferPoolReply polledUsage =
        Outcome.ok ("", s1,
          [Event.setValue UsageSet.Ps "id" "" (StatusValue.ValueString ""),
           Event.setValue UsageSet.Ps "bufferpool" "" (StatusValue.ValueString "")])) ∧
    (zeroLengthReply ≠ [] ∧ (readInteger zeroLengthReply).2 = 0 ∧
      identLoop mqConstants readInteger { ParameterCount := 1 } zeroLengthReply 1 true 0 {} =
        Outcome.ok (none, [Event.decode 1 0 (readInteger zeroLengthReply).1]) ∧
      parseUsageData mqConstants readInteger statusGetIntAttributes 1
        (some { ParameterCount := 1 }) zeroLengthReply polledUsage =
        Outcome.ok ("", polledUsage, [Event.decode 1 0 (readInteger zeroLengthReply).1])) :=
  ⟨⟨bufferPoolReply_advances, by decide, by decide, by decide, _, rfl⟩,
    ⟨by decide, by decide, by decide, by decide⟩⟩

/-- C11: evaluation of `InitConnection` on the two paths named by the claim.
With publications requested on a distributed queue manager at command level
800, and with RESET QSTATS requested on a z/OS queue manager that has
PERFMEV(DISABLED), every MQI call succeeding, the returned error is an
`MQMetricError` whose `MQReturn` is nil, and `Error()` on it panics; whereas
on the sibling path of a failed connect the `MQReturn` is the one of the
call and `Error()` returns. -/
theorem InitConnection_returns_nil_MQReturn :
    (InitConnection mqPlatforms "QM1" "REPLY.Q" { UsePublications := true }
        oldQueueManager {}).2 =
      some { Err := "Unsupported system", MQReturn := none } ∧
    MQMetricError.Error MQReturn.verb
        { Err := "Unsupported system", MQReturn := none } = Outcome.panic ∧
    (InitConnection mqPlatforms "QM2" "REPLY.Q" { UseResetQStats := true }
        zosQueueManagerNoEvents {}).2 =
      some { Err := "Command", MQReturn := none } ∧
    MQMetricError.Error MQReturn.verb { Err := "Command", MQReturn := none } =
      Outcome.panic ∧
    (InitConnection mqPlatforms "QM3" "REPLY.Q" { UsePublications := true }
        unreachableQueueManager {}).2 =
      some { Err := "Cannot connect to queue manager QM3",
             MQReturn := some { MQCC := 2, MQRC := 2059, verb := "MQCONNX" } } ∧
    MQMetricError.Error MQReturn.verb
        { Err := "Cannot connect to queue manager QM3",
          MQReturn := some { MQCC := 2, MQRC := 2059, verb := "MQCONNX" } } =
      Outcome.ok "Cannot connect to queue manager QM3 : MQCONNX" := by
  refine ⟨by decide, rfl, by decide, rfl, by decide, by decide⟩

end Mqmetric
